import Mathlib

/-!
# tandemDES: a shallow embedding of the tandem-queue simulators

Three C sources are embedded:

* `linked.c`        : the linked-list waiting line and its mock sequence (namespace `Linked`);
* `dynamic.c`       : the transit-time variant with linked-list waiting lines (namespace `Dynamic`);
* `tandem_system.c` : the array-with-shift variant (namespace `Tandem`).

Conventions of the embedding.

* C `float` values are rationals (`ℚ`). The accumulation of the time-average areas in
  `update_time_avg_stats`, where the result is sensitive to rounding error, rounds the
  difference, each product and each sum to binary32 (`fl32`: round to nearest, ties to even,
  as on a target that evaluates `float` expressions in `float`). The other `float` operations
  (the scheduling sums, the delays, the divisions of `report`) are exact.
* C `int` values are mathematical integers (`Int`); the counters of the simulators stay far from
  the 32-bit range in the properties studied here.
* C arrays are functions from the index to the element; a store is `Function.update`.
  Where the declared bound of an array matters (`time_arrival`, `second_time_arrival`) the
  access goes through a checked read/write that faults outside the bound.
* A linked list is the list of the `t` fields of the nodes reachable from the head pointer;
  the `NULL` pointer is the empty list.
* The global variables become fields of one state record, handlers are state transformers
  returning `Except Fault State`: `exit` calls and invalid memory accesses are faults.
* The random-number generators live in headers (`lcgrand.h`, `mrand.h`) and in libm (`log`);
  they are a parameter (`Variates`), and the number of calls made so far is part of the state.
-/

/-- Ways in which a run of one of the programs stops abnormally. -/
inductive Fault where
  /-- The `exit(1)` of `timing`: event list empty. -/
  | eventListEmpty
  /-- The `exit(2)` of an arrival handler: overflow of the waiting line of the given stage. -/
  | overflow (stage : Nat)
  /-- A dereference of a `NULL` list pointer. -/
  | nullDeref
  /-- An array access outside the declared bounds. -/
  | outOfRange
  deriving DecidableEq, Repr

/-- The variate sources. `expon mean k` is the value returned by the call of `expon(mean)` that
is preceded by `k` earlier calls of `lcgrand(1)`, i.e. `-mean * log(lcgrand(1))`;
`mrand k` is the value of the call of `mrand(1)` preceded by `k` earlier such calls. -/
structure Variates where
  expon : ℚ → Nat → ℚ
  mrand : Nat → ℚ

/-- `#define BUSY 1`. -/
def BUSY : Int := 1

/-- `#define IDLE 0`. -/
def IDLE : Int := 0

/-- The literal `1.0e+30` that marks an event slot as not scheduled. -/
def SENTINEL : ℚ := 10 ^ 30

/-- The literal `1.0e+29`, initial value of `min_time_next_event` in `timing`. -/
def MIN_INIT : ℚ := 10 ^ 29

/-- `num_events`, assigned the value 5 once by `main` before the first call of `timing`. -/
def num_events : Nat := 5

/-- Conversion of a `float` to `int` (truncation toward zero), as happens when a `float`
argument is passed for an `int` parameter. -/
def float_to_int (x : ℚ) : Int := if 0 ≤ x then ⌊x⌋ else ⌈x⌉

/-- The power `2 ^ k` for an integer exponent `k`. -/
def pow2 (k : Int) : ℚ :=
  if 0 ≤ k then ((2 ^ k.toNat : Nat) : ℚ) else 1 / ((2 ^ (-k).toNat : Nat) : ℚ)

/-- The number of binary digits of `n`, found in at most `fuel` halvings (`fuel = n` is always
enough). -/
def bitLength : Nat → Nat → Nat
  | 0, _ => 0
  | fuel + 1, n => if n = 0 then 0 else bitLength fuel (n / 2) + 1

/-- The binade of a rational `q` other than 0: the integer `e` with
`2 ^ e <= |q| < 2 ^ (e + 1)`. The difference of the bit lengths of numerator and denominator
is `e + 1` or `e`; the comparison decides. -/
def binade (q : ℚ) : Int :=
  let e0 : Int := (bitLength q.num.natAbs q.num.natAbs : Int) - (bitLength q.den q.den : Int)
  if pow2 e0 ≤ (if q < 0 then -q else q) then e0 else e0 - 1

/-- Rounding of a rational to the nearest integer, a tie going to the even neighbour. -/
def roundHalfEven (r : ℚ) : Int :=
  let f : Int := Rat.floor r
  if r - (f : ℚ) < 1 / 2 then f
  else if 1 / 2 < r - (f : ℚ) then f + 1
  else if f % 2 = 0 then f else f + 1

/-- Rounding to the nearest binary32 (`float`) value, ties to even: 24 significant bits, so
the spacing at `q` is `2 ^ (e - 23)` for the binade `e` of `q`, and `2 ^ (-149)` below
`2 ^ (-126)` (subnormal range). Overflow to infinity is not modelled: the exponent is not
bounded above. -/
def fl32 (q : ℚ) : ℚ :=
  if q = 0 then 0
  else (roundHalfEven (q / pow2 (max (binade q) (-126) - 23)) : ℚ)
    * pow2 (max (binade q) (-126) - 23)

/-- The statement `acc += n * dt` with a `float` accumulator `acc`, an `int` factor `n` and a
`float` factor `dt`: `n` is converted to `float`, the product and the sum are rounded to
`float`. -/
def accumulate (acc : ℚ) (n : Int) (dt : ℚ) : ℚ :=
  fl32 (acc + fl32 (fl32 (n : ℚ) * dt))

/-- One iteration of the `for` loop of `timing`: the body for index `i`, acting on the pair
`(min_time_next_event, next_event_type)`. -/
def timingBody (time_next_event : Nat → ℚ) (acc : ℚ × Int) (i : Nat) : ℚ × Int :=
  if time_next_event i < acc.1 then (time_next_event i, (i : Int)) else acc

/-- The loop `for (i = 1; i <= n; ++i)` of `timing`, started from
`min_time_next_event = 1.0e+29` and `next_event_type = 0`. -/
def timingLoop (time_next_event : Nat → ℚ) (n : Nat) : ℚ × Int :=
  (List.range' 1 n).foldl (timingBody time_next_event) (MIN_INIT, 0)

/-- A counted `for` loop whose body may fault: the body is run for each index of the list in
turn, the first fault ends the loop. -/
def forIndices {α : Type} (body : α → Nat → Except Fault α) : List Nat → α → Except Fault α
  | [], a => Except.ok a
  | i :: rest, a =>
    match body a i with
    | Except.error e => Except.error e
    | Except.ok a1 => forIndices body rest a1

/-- A `do body while (cond)` loop with a bound on the number of passes: `none` when the bound
is reached while the condition still holds, a fault when the body faults. -/
def doWhile {σ : Type} (body : σ → Except Fault σ) (cond : σ → Bool) :
    Nat → σ → Except Fault (Option σ)
  | 0, _ => Except.ok none
  | fuel + 1, s =>
    match body s with
    | Except.error e => Except.error e
    | Except.ok s1 => if cond s1 then doWhile body cond fuel s1 else Except.ok (some s1)

/-- The states left by the first `n` passes of a `do body while (cond)` loop, in order; the
list ends when the condition fails, when the body faults, or after `n` passes. -/
def passes {σ : Type} (body : σ → Except Fault σ) (cond : σ → Bool) : Nat → σ → List σ
  | 0, _ => []
  | n + 1, s =>
    match body s with
    | Except.error _ => []
    | Except.ok s1 => s1 :: (if cond s1 then passes body cond n s1 else [])

/-- Repeat a handler `n` times, stopping at the first fault. -/
def iterate {σ : Type} (h : σ → Except Fault σ) : Nat → σ → Except Fault σ
  | 0, s => Except.ok s
  | n + 1, s =>
    match h s with
    | Except.error e => Except.error e
    | Except.ok s1 => iterate h n s1

/-! ## The linked list of `linked.c` and `dynamic.c` -/

namespace Linked

/-- `enqueue(head, t)`: walk from `head` to the last node and hang a new node with value `t`
(an `int`, stored into the `float` field) behind it. On a `NULL` head the first `tmp->next`
is a null dereference. -/
def enqueue : List ℚ → Int → Option (List ℚ)
  | [], _ => none
  | [x], t => some [x, (t : ℚ)]
  | x :: y :: rest, t => (enqueue (y :: rest) t).map (fun l => x :: l)

/-- `dequeue(&head)`: the argument is the address of a head pointer (`none` is the `NULL`
address, for which `-1.0` is returned and nothing changes); otherwise the value of the head
node is returned and the head pointer moves to the next node. When the head pointer itself
is `NULL` the access `(*head)->next` is a null dereference (`none`). -/
def dequeue : Option (List ℚ) → Option (ℚ × Option (List ℚ))
  | none => some (-1, none)
  | some [] => none
  | some (x :: rest) => some (x, some rest)

/-- The list as `main` of `linked.c` (and of `dynamic.c`) creates it: one node, `t = 0.0`. -/
def initial : List ℚ := [0]

/-- A queue operation of a test sequence. -/
inductive Op where
  | enq (t : Int)
  | deq
  deriving DecidableEq, Repr

/-- Run a sequence of operations on the list behind a head pointer, collecting the values that
the dequeues return. -/
def runOps : List Op → List ℚ → Option (List ℚ × List ℚ)
  | [], l => some ([], l)
  | Op.enq t :: ops, l =>
    match enqueue l t with
    | none => none
    | some l' => runOps ops l'
  | Op.deq :: ops, l =>
    match dequeue (some l) with
    | some (v, some l') =>
      match runOps ops l' with
      | none => none
      | some (out, lf) => some (v :: out, lf)
    | _ => none

/-- The mock sequence of `main` in `linked.c`, from the fresh list to the call of
`print_list`: the result is the returned values and the list that is printed. -/
def main : Option (List ℚ × List ℚ) :=
  runOps [Op.enq 1, Op.enq 2, Op.deq, Op.enq 3, Op.deq, Op.enq 4] initial

end Linked

/-! ## `dynamic.c` -/

namespace Dynamic

/-- `#define Q_LIMIT 150`. -/
def Q_LIMIT : Int := 150

/-- The global variables of `dynamic.c`. `head1` and `head2` are the node values reachable from
the two head pointers; `lcg_calls` and `mrand_calls` count the calls made to the two
random-number generators (their hidden position in the variate streams). -/
structure State where
  next_event_type : Int
  num_custs_delayed : Int
  num_in_q : Nat → Int
  server_status : Nat → Int
  num_in_transit : Int
  max_in_transit : Int
  area_num_in_q : Nat → ℚ
  area_server_status : Nat → ℚ
  mean_interarrival : ℚ
  mean_service : Nat → ℚ
  sim_time : ℚ
  time_end : ℚ
  time_last_event : ℚ
  time_next_event : Nat → ℚ
  total_of_delays : Nat → ℚ
  area_in_transit : ℚ
  head1 : List ℚ
  head2 : List ℚ
  lcg_calls : Nat
  mrand_calls : Nat

/-- `expon(mean)`: one call of the exponential generator. -/
def expon (V : Variates) (s : State) (mean : ℚ) : ℚ × State :=
  (V.expon mean s.lcg_calls, { s with lcg_calls := s.lcg_calls + 1 })

/-- `uniform(b)`: `mrand(1) * b`. -/
def uniform (V : Variates) (s : State) (b : Int) : ℚ × State :=
  (V.mrand s.mrand_calls * (b : ℚ), { s with mrand_calls := s.mrand_calls + 1 })

/-- Body of the `for (i = 0; i < 2; i++)` loop of `initialize`. -/
def initBody (s : State) (i : Nat) : State :=
  { s with
    server_status := Function.update s.server_status i IDLE
    num_in_q := Function.update s.num_in_q i 0
    total_of_delays := Function.update s.total_of_delays i 0
    area_num_in_q := Function.update s.area_num_in_q i 0
    area_server_status := Function.update s.area_server_status i 0
    area_in_transit := 0 }

/-- The function `initialize` of `dynamic.c` (`initialize` itself is a reserved word of Lean,
hence the suffix). -/
def initialize_sim (V : Variates) (s : State) : State :=
  let s := { s with sim_time := 0 }
  let s := (List.range 2).foldl initBody s
  let s := { s with num_in_transit := 0, max_in_transit := 0, num_custs_delayed := 0,
                    time_last_event := 0 }
  let (e, s) := expon V s s.mean_interarrival
  let s := { s with time_next_event := Function.update s.time_next_event 1 (s.sim_time + e) }
  let s := { s with time_next_event := Function.update s.time_next_event 2 SENTINEL }
  let s := { s with time_next_event := Function.update s.time_next_event 3 SENTINEL }
  let s := { s with time_next_event := Function.update s.time_next_event 4 SENTINEL }
  { s with time_next_event := Function.update s.time_next_event 5 s.time_end }

/-- The function `timing`. -/
def timing (s : State) : Except Fault State :=
  let r := timingLoop s.time_next_event num_events
  if r.2 = 0 then Except.error Fault.eventListEmpty
  else Except.ok { s with next_event_type := r.2, sim_time := r.1 }

/-- The function `queue1_arrival`. -/
def queue1_arrival (V : Variates) (s : State) : Except Fault State :=
  let (e, s) := expon V s s.mean_interarrival
  let s := { s with time_next_event := Function.update s.time_next_event 1 (s.sim_time + e) }
  if s.server_status 0 = BUSY then
    let s := { s with num_in_q := Function.update s.num_in_q 0 (s.num_in_q 0 + 1) }
    if s.num_in_q 0 > Q_LIMIT then Except.error (Fault.overflow 1)
    else
      match Linked.enqueue s.head1 (float_to_int s.sim_time) with
      | none => Except.error Fault.nullDeref
      | some l => Except.ok { s with head1 := l }
  else
    let delay : ℚ := 0
    let s := { s with total_of_delays := Function.update s.total_of_delays 0
                        (s.total_of_delays 0 + delay) }
    let s := { s with num_custs_delayed := s.num_custs_delayed + 1 }
    let s := { s with server_status := Function.update s.server_status 0 BUSY }
    let (e, s) := expon V s (s.mean_service 0)
    Except.ok { s with time_next_event := Function.update s.time_next_event 2 (s.sim_time + e) }

/-- The function `queue1_departure`. -/
def queue1_departure (V : Variates) (s : State) : Except Fault State :=
  if s.num_in_q 0 = 0 then
    let s := { s with server_status := Function.update s.server_status 0 IDLE }
    Except.ok { s with time_next_event := Function.update s.time_next_event 2 SENTINEL }
  else
    let s := { s with num_in_q := Function.update s.num_in_q 0 (s.num_in_q 0 - 1) }
    match Linked.dequeue (some s.head1) with
    | some (head_val, some l) =>
      let s := { s with head1 := l }
      let delay := s.sim_time - head_val
      let s := { s with total_of_delays := Function.update s.total_of_delays 0
                          (s.total_of_delays 0 + delay) }
      let s := { s with num_custs_delayed := s.num_custs_delayed + 1 }
      let s := { s with server_status := Function.update s.server_status 0 BUSY }
      let (e, s) := expon V s (s.mean_service 0)
      let s := { s with time_next_event := Function.update s.time_next_event 2 (s.sim_time + e) }
      let (u, s) := uniform V s 2
      let s := { s with time_next_event := Function.update s.time_next_event 3 (s.sim_time + u) }
      Except.ok { s with num_in_transit := s.num_in_transit + 1 }
    | _ => Except.error Fault.nullDeref

/-- The function `queue2_arrival`. -/
def queue2_arrival (V : Variates) (s : State) : Except Fault State :=
  let s :=
    if s.num_in_transit = 0 then
      { s with time_next_event := Function.update s.time_next_event 3 SENTINEL }
    else
      { s with num_in_transit := s.num_in_transit - 1 }
  if s.server_status 1 = BUSY then
    let s := { s with num_in_q := Function.update s.num_in_q 1 (s.num_in_q 1 + 1) }
    if s.num_in_q 1 > Q_LIMIT then Except.error (Fault.overflow 2)
    else
      match Linked.enqueue s.head2 (float_to_int s.sim_time) with
      | none => Except.error Fault.nullDeref
      | some l => Except.ok { s with head2 := l }
  else
    let delay : ℚ := 0
    let s := { s with total_of_delays := Function.update s.total_of_delays 1
                        (s.total_of_delays 1 + delay) }
    let s := { s with server_status := Function.update s.server_status 1 BUSY }
    let (e, s) := expon V s (s.mean_service 1)
    Except.ok { s with time_next_event := Function.update s.time_next_event 4 (s.sim_time + e) }

/-- The function `queue2_departure`. -/
def queue2_departure (V : Variates) (s : State) : Except Fault State :=
  if s.num_in_q 1 = 0 then
    let s := { s with server_status := Function.update s.server_status 1 IDLE }
    Except.ok { s with time_next_event := Function.update s.time_next_event 4 SENTINEL }
  else
    let s := { s with num_in_q := Function.update s.num_in_q 1 (s.num_in_q 1 - 1) }
    match Linked.dequeue (some s.head2) with
    | some (head_val, some l) =>
      let s := { s with head2 := l }
      let delay := s.sim_time - head_val
      let s := { s with total_of_delays := Function.update s.total_of_delays 1
                          (s.total_of_delays 1 + delay) }
      let s := { s with num_custs_delayed := s.num_custs_delayed + 1 }
      let s := { s with server_status := Function.update s.server_status 1 BUSY }
      let (e, s) := expon V s (s.mean_service 1)
      Except.ok { s with time_next_event := Function.update s.time_next_event 4 (s.sim_time + e) }
    | _ => Except.error Fault.nullDeref

/-- Body of the `for (i = 0; i < 2; i++)` loop of `update_time_avg_stats`; the update of
`area_in_transit` stands inside the loop. Each `+=` on a `float` accumulator rounds its
product and its sum (`accumulate`). -/
def statsBody (time_since_last_event : ℚ) (s : State) (i : Nat) : State :=
  let s := { s with area_num_in_q := Function.update s.area_num_in_q i
                      (accumulate (s.area_num_in_q i) (s.num_in_q i) time_since_last_event) }
  let s := { s with area_server_status := Function.update s.area_server_status i
                      (accumulate (s.area_server_status i) (s.server_status i)
                        time_since_last_event) }
  { s with area_in_transit :=
             accumulate s.area_in_transit s.num_in_transit time_since_last_event }

/-- The function `update_time_avg_stats`; the `float` variable `time_since_last_event` holds
the rounded difference. -/
def update_time_avg_stats (s : State) : State :=
  let time_since_last_event := fl32 (s.sim_time - s.time_last_event)
  let s := { s with time_last_event := s.sim_time }
  let s := (List.range 2).foldl (statsBody time_since_last_event) s
  if s.num_in_transit > s.max_in_transit then { s with max_in_transit := s.num_in_transit }
  else s

/-- The figures printed by `report`, in the order of the `fprintf` calls. Division is the
division of `ℚ` (a zero divisor gives 0, where the C program prints `inf` or `nan`). -/
structure Report where
  avg_delay_system : ℚ
  avg_delay_q1 : ℚ
  avg_num_q1 : ℚ
  avg_delay_q2 : ℚ
  avg_num_q2 : ℚ
  avg_in_transit : ℚ
  max_in_transit : ℚ
  utilization1 : ℚ
  utilization2 : ℚ
  end_time : ℚ

/-- The function `report`: it changes no global; the result is what it prints. -/
def report (s : State) : Report :=
  { avg_delay_system := (s.total_of_delays 0 + s.total_of_delays 1) / (s.num_custs_delayed : ℚ)
    avg_delay_q1 := s.total_of_delays 0 / (s.num_custs_delayed : ℚ)
    avg_num_q1 := s.area_num_in_q 0 / s.sim_time
    avg_delay_q2 := s.total_of_delays 1 / (s.num_custs_delayed : ℚ)
    avg_num_q2 := s.area_num_in_q 1 / s.sim_time
    avg_in_transit := s.area_in_transit / s.sim_time
    max_in_transit := (s.max_in_transit : ℚ)
    utilization1 := s.area_server_status 0 / s.sim_time
    utilization2 := s.area_server_status 1 / s.sim_time
    end_time := s.sim_time }

/-- The `switch (next_event_type)` of `main`. -/
def dispatch (V : Variates) (s : State) : Except Fault State :=
  if s.next_event_type = 1 then queue1_arrival V s
  else if s.next_event_type = 2 then queue1_departure V s
  else if s.next_event_type = 3 then queue2_arrival V s
  else if s.next_event_type = 4 then queue2_departure V s
  else Except.ok s

/-- One pass through the body of the `do ... while` loop of `main`:
`timing`, `update_time_avg_stats`, then the handler of the selected event. -/
def step (V : Variates) (s : State) : Except Fault State :=
  match timing s with
  | Except.error e => Except.error e
  | Except.ok s1 => dispatch V (update_time_avg_stats s1)

/-- The `do ... while (next_event_type != 5)` loop of `main`, with a bound on the number of
passes; `none` when the bound is reached before the end-of-simulation event. -/
def runLoop (V : Variates) (fuel : Nat) (s : State) : Except Fault (Option State) :=
  doWhile (step V) (fun s1 => decide (s1.next_event_type ≠ 5)) fuel s

/-- The state of the globals when `main` enters the replication loop: the four input
parameters are read, the two lists hold their first node (`t = 0.0`), every other global
still has its zero initial value. -/
def start (mean_interarrival mean_service0 mean_service1 time_end : ℚ) : State :=
  { next_event_type := 0
    num_custs_delayed := 0
    num_in_q := fun _ => 0
    server_status := fun _ => 0
    num_in_transit := 0
    max_in_transit := 0
    area_num_in_q := fun _ => 0
    area_server_status := fun _ => 0
    mean_interarrival := mean_interarrival
    mean_service := fun i => if i = 0 then mean_service0 else if i = 1 then mean_service1 else 0
    sim_time := 0
    time_end := time_end
    time_last_event := 0
    time_next_event := fun _ => 0
    total_of_delays := fun _ => 0
    area_in_transit := 0
    head1 := Linked.initial
    head2 := Linked.initial
    lcg_calls := 0
    mrand_calls := 0 }

/-- The state in which the handler of the next pass is entered: `timing` and
`update_time_avg_stats` applied to the state left by the previous pass. -/
def beforeHandler (s : State) : Option State :=
  match timing s with
  | Except.error _ => none
  | Except.ok s1 => some (update_time_avg_stats s1)

/-- The states left by the first `n` passes of the event loop from state `s`, in order: the
course of one replication (it ends with the end-of-simulation event, with a fault, or after
`n` passes). -/
def history (V : Variates) (n : Nat) (s : State) : List State :=
  passes (step V) (fun s1 => decide (s1.next_event_type ≠ 5)) n s

/-- The event types selected by the first `n` passes of the event loop from state `s`: the
sequence of handler firings (1 `queue1_arrival`, 2 `queue1_departure`, 3 `queue2_arrival`,
4 `queue2_departure`, 5 `report`). -/
def trace (V : Variates) (n : Nat) (s : State) : List Int :=
  (history V n s).map (fun s1 => s1.next_event_type)

end Dynamic

/-! ## `tandem_system.c` -/

namespace Tandem

/-- `#define Q_LIMIT 100`. -/
def Q_LIMIT : Int := 100

/-- The global variables of `tandem_system.c`; `lcg_calls` counts the calls of `lcgrand`. -/
structure State where
  next_event_type : Int
  num_custs_delayed : Int
  num_in_q : Nat → Int
  server_status : Nat → Int
  area_num_in_q : Nat → ℚ
  area_server_status : Nat → ℚ
  mean_interarrival : ℚ
  mean_service : Nat → ℚ
  sim_time : ℚ
  time_end : ℚ
  time_arrival : Int → ℚ
  second_time_arrival : Int → ℚ
  time_last_event : ℚ
  time_next_event : Nat → ℚ
  total_of_delays : ℚ
  lcg_calls : Nat

/-- Read of element `i` of an array declared with `Q_LIMIT + 1` elements. -/
def readArr (a : Int → ℚ) (i : Int) : Except Fault ℚ :=
  if 0 ≤ i ∧ i < Q_LIMIT + 1 then Except.ok (a i) else Except.error Fault.outOfRange

/-- Store into element `i` of an array declared with `Q_LIMIT + 1` elements. -/
def writeArr (a : Int → ℚ) (i : Int) (v : ℚ) : Except Fault (Int → ℚ) :=
  if 0 ≤ i ∧ i < Q_LIMIT + 1 then Except.ok (Function.update a i v)
  else Except.error Fault.outOfRange

/-- Body of the shift loop: `a[i] = a[i + 1]`. -/
def shiftBody (a : Int → ℚ) (i : Nat) : Except Fault (Int → ℚ) :=
  match readArr a ((i : Int) + 1) with
  | Except.error e => Except.error e
  | Except.ok v => writeArr a (i : Int) v

/-- The loop `for (i = 1; i <= n; ++i) a[i] = a[i + 1];`. -/
def shiftLoop (a : Int → ℚ) (n : Int) : Except Fault (Int → ℚ) :=
  forIndices shiftBody (List.range' 1 n.toNat) a

/-- `expon(mean)`: one call of the exponential generator. -/
def expon (V : Variates) (s : State) (mean : ℚ) : ℚ × State :=
  (V.expon mean s.lcg_calls, { s with lcg_calls := s.lcg_calls + 1 })

/-- Body of the `for (i = 0; i < 2; i++)` loop of `initialize`. -/
def initBody (s : State) (i : Nat) : State :=
  { s with
    server_status := Function.update s.server_status i IDLE
    num_in_q := Function.update s.num_in_q i 0
    area_num_in_q := Function.update s.area_num_in_q i 0
    area_server_status := Function.update s.area_server_status i 0 }

/-- The function `initialize` of `tandem_system.c` (`initialize` itself is a reserved word of
Lean, hence the suffix). -/
def initialize_sim (V : Variates) (s : State) : State :=
  let s := { s with sim_time := 0 }
  let s := (List.range 2).foldl initBody s
  let s := { s with num_custs_delayed := 0, total_of_delays := 0, time_last_event := 0 }
  let (e, s) := expon V s s.mean_interarrival
  let s := { s with time_next_event := Function.update s.time_next_event 1 (s.sim_time + e) }
  let s := { s with time_next_event := Function.update s.time_next_event 2 SENTINEL }
  let s := { s with time_next_event := Function.update s.time_next_event 3 SENTINEL }
  let s := { s with time_next_event := Function.update s.time_next_event 4 SENTINEL }
  { s with time_next_event := Function.update s.time_next_event 5 s.time_end }

/-- The function `timing`. -/
def timing (s : State) : Except Fault State :=
  let r := timingLoop s.time_next_event num_events
  if r.2 = 0 then Except.error Fault.eventListEmpty
  else Except.ok { s with next_event_type := r.2, sim_time := r.1 }

/-- The function `system_arrival`. -/
def system_arrival (V : Variates) (s : State) : Except Fault State :=
  let (e, s) := expon V s s.mean_interarrival
  let s := { s with time_next_event := Function.update s.time_next_event 1 (s.sim_time + e) }
  if s.server_status 0 = BUSY then
    let s := { s with num_in_q := Function.update s.num_in_q 0 (s.num_in_q 0 + 1) }
    if s.num_in_q 0 > Q_LIMIT then Except.error (Fault.overflow 1)
    else
      match writeArr s.time_arrival (s.num_in_q 0) s.sim_time with
      | Except.error e => Except.error e
      | Except.ok a => Except.ok { s with time_arrival := a }
  else
    let delay : ℚ := 0
    let s := { s with total_of_delays := s.total_of_delays + delay }
    let s := { s with num_custs_delayed := s.num_custs_delayed + 1 }
    let s := { s with server_status := Function.update s.server_status 0 BUSY }
    let (e, s) := expon V s (s.mean_service 0)
    Except.ok { s with time_next_event := Function.update s.time_next_event 3 (s.sim_time + e) }

/-- The function `queue1_departure`. -/
def queue1_departure (V : Variates) (s : State) : Except Fault State :=
  if s.num_in_q 0 = 0 then
    let s := { s with server_status := Function.update s.server_status 0 IDLE }
    Except.ok { s with time_next_event := Function.update s.time_next_event 3 SENTINEL }
  else
    let s := { s with num_in_q := Function.update s.num_in_q 0 (s.num_in_q 0 - 1) }
    match readArr s.time_arrival 1 with
    | Except.error e => Except.error e
    | Except.ok t0 =>
      let delay := s.sim_time - t0
      let s := { s with total_of_delays := s.total_of_delays + delay }
      let s := { s with num_custs_delayed := s.num_custs_delayed + 1 }
      let s := { s with server_status := Function.update s.server_status 0 BUSY }
      let (e, s) := expon V s (s.mean_service 0)
      let s := { s with time_next_event := Function.update s.time_next_event 4 (s.sim_time + e) }
      match shiftLoop s.time_arrival (s.num_in_q 0) with
      | Except.error e => Except.error e
      | Except.ok a => Except.ok { s with time_arrival := a }

/-- The function `queue2_arrival`. -/
def queue2_arrival (V : Variates) (s : State) : Except Fault State :=
  let s := { s with time_next_event := Function.update s.time_next_event 4 SENTINEL }
  if s.server_status 1 = BUSY then
    let s := { s with num_in_q := Function.update s.num_in_q 1 (s.num_in_q 1 + 1) }
    if s.num_in_q 1 > Q_LIMIT then Except.error (Fault.overflow 2)
    else
      match writeArr s.second_time_arrival (s.num_in_q 1) s.sim_time with
      | Except.error e => Except.error e
      | Except.ok a => Except.ok { s with second_time_arrival := a }
  else
    let delay : ℚ := 0
    let s := { s with total_of_delays := s.total_of_delays + delay }
    let s := { s with server_status := Function.update s.server_status 1 BUSY }
    let (e, s) := expon V s (s.mean_service 1)
    Except.ok { s with time_next_event := Function.update s.time_next_event 2 (s.sim_time + e) }

/-- The function `system_departure`. -/
def system_departure (V : Variates) (s : State) : Except Fault State :=
  if s.num_in_q 1 = 0 then
    let s := { s with server_status := Function.update s.server_status 1 IDLE }
    Except.ok { s with time_next_event := Function.update s.time_next_event 2 SENTINEL }
  else
    let s := { s with num_in_q := Function.update s.num_in_q 1 (s.num_in_q 1 - 1) }
    match readArr s.second_time_arrival 1 with
    | Except.error e => Except.error e
    | Except.ok t0 =>
      let delay := s.sim_time - t0
      let s := { s with total_of_delays := s.total_of_delays + delay }
      let s := { s with num_custs_delayed := s.num_custs_delayed + 1 }
      let s := { s with server_status := Function.update s.server_status 1 BUSY }
      let (e, s) := expon V s (s.mean_service 1)
      let s := { s with time_next_event := Function.update s.time_next_event 2 (s.sim_time + e) }
      match shiftLoop s.second_time_arrival (s.num_in_q 1) with
      | Except.error e => Except.error e
      | Except.ok a => Except.ok { s with second_time_arrival := a }

/-- Body of the `for (i = 0; i < 2; i++)` loop of `update_time_avg_stats`. Each `+=` on a
`float` accumulator rounds its product and its sum (`accumulate`). -/
def statsBody (time_since_last_event : ℚ) (s : State) (i : Nat) : State :=
  let s := { s with area_num_in_q := Function.update s.area_num_in_q i
                      (accumulate (s.area_num_in_q i) (s.num_in_q i) time_since_last_event) }
  { s with area_server_status := Function.update s.area_server_status i
             (accumulate (s.area_server_status i) (s.server_status i) time_since_last_event) }

/-- The function `update_time_avg_stats`; the `float` variable `time_since_last_event` holds
the rounded difference. -/
def update_time_avg_stats (s : State) : State :=
  let time_since_last_event := fl32 (s.sim_time - s.time_last_event)
  let s := { s with time_last_event := s.sim_time }
  (List.range 2).foldl (statsBody time_since_last_event) s

/-- The figures printed by `report`, in the order of the `fprintf` calls. Division is the
division of `ℚ` (a zero divisor gives 0, where the C program prints `inf` or `nan`). -/
structure Report where
  avg_delay : ℚ
  avg_num_q1 : ℚ
  avg_num_q2 : ℚ
  utilization1 : ℚ
  utilization2 : ℚ
  end_time : ℚ

/-- The function `report`: it changes no global; the result is what it prints. -/
def report (s : State) : Report :=
  { avg_delay := s.total_of_delays / (s.num_custs_delayed : ℚ)
    avg_num_q1 := s.area_num_in_q 0 / s.sim_time
    avg_num_q2 := s.area_num_in_q 1 / s.sim_time
    utilization1 := s.area_server_status 0 / s.sim_time
    utilization2 := s.area_server_status 1 / s.sim_time
    end_time := s.sim_time }

/-- The `switch (next_event_type)` of `main`. -/
def dispatch (V : Variates) (s : State) : Except Fault State :=
  if s.next_event_type = 1 then system_arrival V s
  else if s.next_event_type = 2 then system_departure V s
  else if s.next_event_type = 3 then queue1_departure V s
  else if s.next_event_type = 4 then queue2_arrival V s
  else Except.ok s

/-- One pass through the body of the `do ... while` loop of `main`. -/
def step (V : Variates) (s : State) : Except Fault State :=
  match timing s with
  | Except.error e => Except.error e
  | Except.ok s1 => dispatch V (update_time_avg_stats s1)

/-- The `do ... while (next_event_type != 5)` loop of `main`, with a bound on the number of
passes; `none` when the bound is reached before the end-of-simulation event. -/
def runLoop (V : Variates) (fuel : Nat) (s : State) : Except Fault (Option State) :=
  doWhile (step V) (fun s1 => decide (s1.next_event_type ≠ 5)) fuel s

/-- The state of the globals when `main` enters the replication loop. -/
def start (mean_interarrival mean_service0 mean_service1 time_end : ℚ) : State :=
  { next_event_type := 0
    num_custs_delayed := 0
    num_in_q := fun _ => 0
    server_status := fun _ => 0
    area_num_in_q := fun _ => 0
    area_server_status := fun _ => 0
    mean_interarrival := mean_interarrival
    mean_service := fun i => if i = 0 then mean_service0 else if i = 1 then mean_service1 else 0
    sim_time := 0
    time_end := time_end
    time_arrival := fun _ => 0
    second_time_arrival := fun _ => 0
    time_last_event := 0
    time_next_event := fun _ => 0
    total_of_delays := 0
    lcg_calls := 0 }

/-- The state in which the handler of the next pass is entered: `timing` and
`update_time_avg_stats` applied to the state left by the previous pass. -/
def beforeHandler (s : State) : Option State :=
  match timing s with
  | Except.error _ => none
  | Except.ok s1 => some (update_time_avg_stats s1)

/-- The states left by the first `n` passes of the event loop from state `s`, in order. -/
def history (V : Variates) (n : Nat) (s : State) : List State :=
  passes (step V) (fun s1 => decide (s1.next_event_type ≠ 5)) n s

end Tandem

/-! ## The FIFO waiting line of the specification -/

namespace Fifo

end Fifo

/-- The overflow contract of a busy-server arrival handler `h` at a state `s`, for a waiting
line of length `len s` and capacity `L`: the handler stops with the overflow error of its
stage exactly when the length after the arrival would exceed `L` (for a length within the
limit: exactly when the length already equals `L`); below the limit it returns normally with
the length grown by one; and from an empty line `n` consecutive arrivals succeed for every
`n ≤ L`, leaving length `n`, while the arrival number `L + 1` stops with the overflow. -/
def ArrivalContract {σ : Type} (h : σ → Except Fault σ) (len : σ → Int) (L : Int)
    (stage : Nat) (s : σ) : Prop :=
  (h s = Except.error (Fault.overflow stage) ↔ L < len s + 1) ∧
  (len s ≤ L → (h s = Except.error (Fault.overflow stage) ↔ len s = L)) ∧
  (len s < L → ∃ s1, h s = Except.ok s1 ∧ len s1 = len s + 1) ∧
  (len s = 0 →
    (∀ n : Nat, (n : Int) ≤ L → ∃ sn, iterate h n s = Except.ok sn ∧ len sn = (n : Int)) ∧
    iterate h (L.toNat + 1) s = Except.error (Fault.overflow stage))

/-- The number of replications run by `main` (`int replications = 10` in `dynamic.c`, the
literal bound `10` of the `for` loop in `tandem_system.c`). -/
def replications : Nat := 10

namespace Dynamic

/-- `AtTop V s0 r s`: `s` is a state in which a pass of the event loop of `main` begins, in the
replication with index `r`, when `main` entered the replication loop in state `s0`. The first
pass of a replication begins in the state left by `initialize`, a later pass in the state left
by a pass that did not select the end-of-simulation event, and the next replication begins
after the pass that selected it. -/
inductive AtTop (V : Variates) (s0 : State) : Nat → State → Prop
  | first : AtTop V s0 0 (initialize_sim V s0)
  | next {r : Nat} {s s1 : State} :
      AtTop V s0 r s → step V s = Except.ok s1 → s1.next_event_type ≠ 5 → AtTop V s0 r s1
  | again {r : Nat} {s s1 : State} :
      AtTop V s0 r s → step V s = Except.ok s1 → s1.next_event_type = 5 →
      r + 1 < replications → AtTop V s0 (r + 1) (initialize_sim V s1)

/-- The states reachable between events: the states in which a pass begins and the states
left by the last pass of a replication (the pass that ran `report`). -/
inductive Reachable (V : Variates) (s0 : State) : State → Prop
  | top {r : Nat} {s : State} : AtTop V s0 r s → Reachable V s0 s
  | last {r : Nat} {s s1 : State} :
      AtTop V s0 r s → step V s = Except.ok s1 → s1.next_event_type = 5 → Reachable V s0 s1

end Dynamic

namespace Tandem

/-- `AtTop V s0 r s`: `s` is a state in which a pass of the event loop of `main` begins, in the
replication with index `r`, when `main` entered the replication loop in state `s0`. -/
inductive AtTop (V : Variates) (s0 : State) : Nat → State → Prop
  | first : AtTop V s0 0 (initialize_sim V s0)
  | next {r : Nat} {s s1 : State} :
      AtTop V s0 r s → step V s = Except.ok s1 → s1.next_event_type ≠ 5 → AtTop V s0 r s1
  | again {r : Nat} {s s1 : State} :
      AtTop V s0 r s → step V s = Except.ok s1 → s1.next_event_type = 5 →
      r + 1 < replications → AtTop V s0 (r + 1) (initialize_sim V s1)

/-- The states reachable between events: the states in which a pass begins and the states
left by the last pass of a replication (the pass that ran `report`). -/
inductive Reachable (V : Variates) (s0 : State) : State → Prop
  | top {r : Nat} {s : State} : AtTop V s0 r s → Reachable V s0 s
  | last {r : Nat} {s s1 : State} :
      AtTop V s0 r s → step V s = Except.ok s1 → s1.next_event_type = 5 → Reachable V s0 s1

end Tandem

/-- A variate source whose draws are all non-negative. -/
def Variates.NonNeg (V : Variates) : Prop :=
  (∀ mean k, 0 ≤ V.expon mean k) ∧ (∀ k, 0 ≤ V.mrand k)

/-- Every slot `1 .. 5` of the event list `f` holds a time not before `t`. -/
def SlotsFrom (t : ℚ) (f : Nat → ℚ) : Prop :=
  ∀ j, 1 ≤ j → j ≤ 5 → t ≤ f j

/-- How one pass of the event loop may move an integer counter: up by exactly one, and then
the condition `incremented` holds of the pass; down by exactly one, and then `decremented`
holds; or not at all. -/
def CounterStep (before after : Int) (incremented decremented : Prop) : Prop :=
  (after = before + 1 ∧ incremented) ∨ (after = before - 1 ∧ decremented) ∨ after = before

/-- Both entries of a two-stage status array are 0 (`IDLE`) or 1 (`BUSY`). -/
def StatusBits (f : Nat → Int) : Prop :=
  (f 0 = 0 ∨ f 0 = 1) ∧ (f 1 = 0 ∨ f 1 = 1)

/-- Every time a handler schedules from a clock value below `1.0e+29` (the clock values that
`timing` can set) with an exponential draw of `V` stays below the sentinel `1.0e+30`. -/
def Variates.BelowSentinel (V : Variates) : Prop :=
  ∀ (t mean : ℚ) (k : Nat), t < MIN_INIT → t + V.expon mean k < SENTINEL

/-- The link between the status bits, the queue counters and the event list: the server of
stage 1 is busy exactly when slot `c0` holds a time other than the sentinel, the server of
stage 2 exactly when slot `c1` does, the counters are not negative, and a counter is positive
only while the server of its stage is busy. -/
def ServersTrackSlots (status nq : Nat → Int) (tne : Nat → ℚ) (c0 c1 : Nat) : Prop :=
  ((status 0 = BUSY ↔ tne c0 ≠ SENTINEL) ∧ (status 1 = BUSY ↔ tne c1 ≠ SENTINEL)) ∧
  (0 ≤ nq 0 ∧ 0 ≤ nq 1) ∧
  ((0 < nq 0 → status 0 = BUSY) ∧ (0 < nq 1 → status 1 = BUSY))

namespace Tandem

/-- The indices used by the loop `for (i = 1; i <= n; ++i) a[i] = a[i + 1];` when no access
faults, in the order of the accesses: pass `i` reads element `i + 1` and stores into
element `i`. -/
def shiftIndices (n : Int) : List Int :=
  (List.range' 1 n.toNat).flatMap (fun (i : Nat) => [(i : Int) + 1, (i : Int)])

/-- The indices that `system_arrival`, entered in state `s`, uses on `time_arrival`: the store
`time_arrival[num_in_q[0]]` behind the increment and the overflow check. -/
def system_arrival_indices (s : State) : List Int :=
  if s.server_status 0 = BUSY then
    if s.num_in_q 0 + 1 > Q_LIMIT then [] else [s.num_in_q 0 + 1]
  else []

/-- The indices that `queue1_departure`, entered in state `s`, uses on `time_arrival`: the
read of `time_arrival[1]` and the accesses of the shift loop, which runs up to the decremented
counter. -/
def queue1_departure_indices (s : State) : List Int :=
  if s.num_in_q 0 = 0 then [] else 1 :: shiftIndices (s.num_in_q 0 - 1)

/-- The indices that `queue2_arrival`, entered in state `s`, uses on `second_time_arrival`. -/
def queue2_arrival_indices (s : State) : List Int :=
  if s.server_status 1 = BUSY then
    if s.num_in_q 1 + 1 > Q_LIMIT then [] else [s.num_in_q 1 + 1]
  else []

/-- The indices that `system_departure`, entered in state `s`, uses on
`second_time_arrival`. -/
def system_departure_indices (s : State) : List Int :=
  if s.num_in_q 1 = 0 then [] else 1 :: shiftIndices (s.num_in_q 1 - 1)

/-- The array indices used by the pass of the event loop that begins in state `s`: those of
the handler that the `switch` of `main` calls. -/
def indicesUsed (s : State) : List Int :=
  match beforeHandler s with
  | none => []
  | some su =>
    if su.next_event_type = 1 then system_arrival_indices su
    else if su.next_event_type = 2 then system_departure_indices su
    else if su.next_event_type = 3 then queue1_departure_indices su
    else if su.next_event_type = 4 then queue2_arrival_indices su
    else []

end Tandem

/-- The linked list behind a head pointer holds one node more than the counter of its line
counts, at least, and the counter is not negative. -/
def ListCovers (n : Int) (l : List ℚ) : Prop :=
  0 ≤ n ∧ n + 1 ≤ (l.length : Int)

/-! ## Concrete inputs used to exercise the definitions -/

/-- A slot table used to exercise `timing`: slots 2 and 4 tie at the minimum 3. -/
def sampleSlots : Nat → ℚ := fun i =>
  if i = 1 then 7 else if i = 2 then 3 else if i = 3 then SENTINEL else if i = 4 then 3 else 9

namespace Demo

/-- Variates of the first sample run: interarrival draws 1, 1, 100; service draws 5, 10, 50;
every uniform draw is 1/2, so every transit time is 1. -/
def variatesA : Variates :=
  { expon := fun _ k =>
      if k = 0 then 1 else if k = 1 then 1 else if k = 2 then 5 else if k = 3 then 100
      else if k = 4 then 10 else 50
    mrand := fun _ => 1 / 2 }

/-- Variates of the second sample run: the first customer arrives at time 1 and is served for
2 minutes; the second customer arrives 10 minutes after the first. -/
def variatesB : Variates :=
  { expon := fun _ k => if k = 0 then 1 else if k = 1 then 10 else if k = 2 then 2 else 20
    mrand := fun _ => 1 / 2 }

/-- Variates of the third sample run: arrivals at times 1/2 and 3/2, first service time 5. -/
def variatesC : Variates :=
  { expon := fun _ k => if k = 0 then 1 / 2 else if k = 1 then 1 else if k = 2 then 5 else 100
    mrand := fun _ => 1 / 2 }

/-- First sample run of `dynamic.c`: all means 1, run length 1000. -/
def dynA : Dynamic.State := Dynamic.initialize_sim variatesA (Dynamic.start 1 1 1 1000)

/-- The same start with run length 3: the replication ends while a customer waits. -/
def dynShort : Dynamic.State := Dynamic.initialize_sim variatesA (Dynamic.start 1 1 1 3)

/-- Second sample run of `dynamic.c`. -/
def dynB : Dynamic.State := Dynamic.initialize_sim variatesB (Dynamic.start 1 1 1 1000)

/-- Third sample run of `dynamic.c`. -/
def dynC : Dynamic.State := Dynamic.initialize_sim variatesC (Dynamic.start 1 1 1 1000)

/-- Second sample run of `tandem_system.c`. -/
def tanB : Tandem.State := Tandem.initialize_sim variatesB (Tandem.start 1 1 1 1000)

/-- First sample run of `tandem_system.c`. -/
def tanA : Tandem.State := Tandem.initialize_sim variatesA (Tandem.start 1 1 1 1000)

/-- Run A of `dynamic.c` after three passes (two arrivals, one stage-1 completion), at the
entry of the handler of the fourth pass. -/
def dynA_pass4 : Option Dynamic.State :=
  (Dynamic.history variatesA 3 dynA).getLast?.bind Dynamic.beforeHandler

/-- Run B of `dynamic.c` after one pass (one arrival), at the entry of the handler of the
second pass. -/
def dynB_pass2 : Option Dynamic.State :=
  (Dynamic.history variatesB 1 dynB).getLast?.bind Dynamic.beforeHandler

/-- Run B of `tandem_system.c` after one pass, at the entry of the handler of the second. -/
def tanB_pass2 : Option Tandem.State :=
  (Tandem.history variatesB 1 tanB).getLast?.bind Tandem.beforeHandler

/-- Run A of `tandem_system.c` after two passes (two arrivals), at the entry of the handler
of the third pass. -/
def tanA_pass3 : Option Tandem.State :=
  (Tandem.history variatesA 2 tanA).getLast?.bind Tandem.beforeHandler

/-- Run C of `dynamic.c` after one pass (one arrival), at the entry of the handler of the
second pass. -/
def dynC_pass2 : Option Dynamic.State :=
  (Dynamic.history variatesC 1 dynC).getLast?.bind Dynamic.beforeHandler

/-- The state in which the first replication of the short run hands over to the second one:
the result of the event loop, `none` on a fault or when 10 passes do not reach the end. -/
def dynShort_end : Option Dynamic.State :=
  match Dynamic.runLoop variatesA 10 dynShort with
  | Except.ok (some s) => some s
  | _ => none

/-- A state of `tandem_system.c` at time 6 with both servers busy and both lines empty. -/
def tanBusy : Tandem.State :=
  { Tandem.start 1 1 1 1000 with sim_time := 6, server_status := fun _ => BUSY }

/-- A state of `dynamic.c` at time 6 with both servers busy and both lines empty. -/
def dynBusy : Dynamic.State :=
  { Dynamic.start 1 1 1 1000 with sim_time := 6, server_status := fun _ => BUSY }

/-- Variates of run D, all binary32 values: arrivals at times 1, 2, 3; service times 3, 1/2,
10; the first uniform draw is 1/2 (transit time 1), the later ones 7/8 (transit time 7/4). -/
def variatesD : Variates :=
  { expon := fun _ k =>
      if k = 0 then 1 else if k = 1 then 1 else if k = 2 then 3 else if k = 3 then 1
      else if k = 4 then 100 else if k = 5 then 1 / 2 else 10
    mrand := fun k => if k = 0 then 1 / 2 else 7 / 8 }

/-- Run D of `dynamic.c`: all means 1, run length 1000. -/
def dynD : Dynamic.State := Dynamic.initialize_sim variatesD (Dynamic.start 1 1 1 1000)

/-- Run D after four passes (three arrivals, one stage-1 completion), at the entry of the
handler of the fifth pass. -/
def dynD_pass5 : Option Dynamic.State :=
  (Dynamic.history variatesD 4 dynD).getLast?.bind Dynamic.beforeHandler

/-- Run A of `dynamic.c` after three passes and the call of `timing` of the fourth pass,
before `update_time_avg_stats`. -/
def dynA_timed4 : Option Dynamic.State :=
  (Dynamic.history variatesA 3 dynA).getLast?.bind (fun s => (Dynamic.timing s).toOption)

/-- Variates of run E, by call number: the first replication (calls 0 to 3) has arrivals at
times 1 and 2 and a first service time 5; the second replication (calls 4 onwards) has
arrivals at times 1/4, 1/2, 5/8 and service times 1/2, 1/4. -/
def variatesE : Variates :=
  { expon := fun _ k =>
      if k = 0 then 1 else if k = 1 then 1 else if k = 2 then 5 else if k = 3 then 100
      else if k = 4 then 1 / 4 else if k = 5 then 1 / 4 else if k = 6 then 1 / 2
      else if k = 7 then 1 / 8 else if k = 8 then 100 else if k = 9 then 1 / 4 else 100
    mrand := fun _ => 1 / 2 }

/-- Run E of `dynamic.c`, all means 1 and run length 3: the state left by the event loop of
the first replication (`none` on a fault or when 10 passes do not reach the end). -/
def dynE_end1 : Option Dynamic.State :=
  match Dynamic.runLoop variatesE 10
      (Dynamic.initialize_sim variatesE (Dynamic.start 1 1 1 3)) with
  | Except.ok (some s) => some s
  | _ => none

/-- Run E: the state in which the second replication begins, after its call of
`initialize`. -/
def dynE_rep2 : Option Dynamic.State :=
  dynE_end1.map (Dynamic.initialize_sim variatesE)

/-- A state of `dynamic.c` at time 6 in which one customer waits at stage 1 (list nodes 0, 2),
one customer is in transit and the transit arrival is scheduled for time 13/2. -/
def dynQueued : Dynamic.State :=
  { Dynamic.start 1 1 1 1000 with
    sim_time := 6
    num_in_q := fun i => if i = 0 then 1 else 0
    server_status := fun _ => BUSY
    num_in_transit := 1
    head1 := [0, 2]
    time_next_event := fun i =>
      if i = 2 then 6 else if i = 3 then 13 / 2 else if i = 5 then 1000 else SENTINEL }

/-- Run A of `dynamic.c` after its first pass (the first arrival, at time 1). -/
def dynA_after1 : Dynamic.State := (Dynamic.step variatesA dynA).toOption.getD dynA

/-- Run A of `dynamic.c` after its second pass (the second arrival, at time 2, finds the
stage-1 server busy). -/
def dynA_after2 : Dynamic.State := (Dynamic.step variatesA dynA_after1).toOption.getD dynA

/-- Run A of `tandem_system.c` after its first pass (the first arrival, at time 1). -/
def tanA_after1 : Tandem.State := (Tandem.step variatesA tanA).toOption.getD tanA

/-- Run A of `tandem_system.c` after its second pass (the second arrival, at time 2, finds
the stage-1 server busy). -/
def tanA_after2 : Tandem.State := (Tandem.step variatesA tanA_after1).toOption.getD tanA

/-- Run D of `tandem_system.c`: all means 1, run length 1000; arrivals at times 1, 2 and 3,
the first service at stage 1 ends at time 4. -/
def tanD : Tandem.State := Tandem.initialize_sim variatesD (Tandem.start 1 1 1 1000)

/-- Run D of `tandem_system.c` after its first pass (the arrival at time 1). -/
def tanD_after1 : Tandem.State := (Tandem.step variatesD tanD).toOption.getD tanD

/-- Run D of `tandem_system.c` after its second pass (the arrival at time 2 joins the line). -/
def tanD_after2 : Tandem.State := (Tandem.step variatesD tanD_after1).toOption.getD tanD

/-- Run D of `tandem_system.c` after its third pass (the arrival at time 3 joins the line, which
now holds two customers); the next pass is the stage-1 completion at time 4. -/
def tanD_after3 : Tandem.State := (Tandem.step variatesD tanD_after2).toOption.getD tanD

/-- Variates of run F, all binary32 values: the first arrival comes at time 0, the second
131071/65536 = 1.9999847412109375 later; every other draw is 1000. -/
def variatesF : Variates :=
  { expon := fun _ k => if k = 0 then 0 else if k = 1 then 131071 / 65536 else 1000
    mrand := fun _ => 1 / 2 }

/-- Run F of `dynamic.c`: all means 1, run length 9830401/32768 = 300.000030517578125. -/
def dynF : Dynamic.State :=
  Dynamic.initialize_sim variatesF (Dynamic.start 1 1 1 (9830401 / 32768))

/-- Run F after its first pass (the arrival at time 0 finds the stage-1 server idle). -/
def dynF_after1 : Dynamic.State := (Dynamic.step variatesF dynF).toOption.getD dynF

/-- Run F after its second pass (the arrival at time 131071/65536 joins the line). -/
def dynF_after2 : Dynamic.State := (Dynamic.step variatesF dynF_after1).toOption.getD dynF

/-- Run F after its third pass, the end of the simulation at time 9830401/32768: the state
from which `report` prints. -/
def dynF_end : Dynamic.State := (Dynamic.step variatesF dynF_after2).toOption.getD dynF

end Demo

/-! # Theorems -/

/-! ## Rounding to binary32 -/

theorem pow2_pos (k : Int) : 0 < pow2 k := by
  unfold pow2
  split_ifs
  · exact_mod_cast Nat.two_pow_pos _
  · apply one_div_pos.mpr
    exact_mod_cast Nat.two_pow_pos _

theorem roundHalfEven_nonneg (r : ℚ) (h : 0 ≤ r) : 0 ≤ roundHalfEven r := by
  have hf : (0 : Int) ≤ Rat.floor r := Rat.le_floor.mpr (by simpa using h)
  unfold roundHalfEven
  dsimp only
  split_ifs <;> omega

/-- Known roundings: 1/10 goes to its binary32 neighbour 13421773 / 2^27, the ties
2^24 + 1 and 2^24 + 3 go to the even neighbours, a value with 17 significant bits is kept,
and half of the smallest subnormal goes to 0. -/
theorem fl32_examples :
    fl32 (1 / 10) = 13421773 / 134217728 ∧ fl32 16777217 = 16777216 ∧
    fl32 16777219 = 16777220 ∧ fl32 (131071 / 65536) = 131071 / 65536 ∧
    fl32 (1 / 2 ^ 150) = 0 := by
  decide!

/-- Rounding keeps the sign: a value that is not negative is rounded to one that is not. -/
theorem fl32_nonneg (q : ℚ) (h : 0 ≤ q) : 0 ≤ fl32 q := by
  unfold fl32
  split_ifs
  · exact le_refl 0
  · have hp := pow2_pos (max (binade q) (-126) - 23)
    have hr := roundHalfEven_nonneg (q / pow2 (max (binade q) (-126) - 23))
      (div_nonneg h (le_of_lt hp))
    have hc : (0 : ℚ) ≤ (roundHalfEven (q / pow2 (max (binade q) (-126) - 23)) : ℚ) := by
      exact_mod_cast hr
    exact mul_nonneg hc (le_of_lt hp)

theorem accumulate_nonneg (acc : ℚ) (n : Int) (dt : ℚ) (ha : 0 ≤ acc) (hn : 0 ≤ n)
    (hd : 0 ≤ dt) : 0 ≤ accumulate acc n dt := by
  unfold accumulate
  have h1 : (0 : ℚ) ≤ fl32 (n : ℚ) := fl32_nonneg _ (by exact_mod_cast hn)
  exact fl32_nonneg _ (add_nonneg ha (fl32_nonneg _ (mul_nonneg h1 hd)))

theorem timingLoop_succ (tne : Nat → ℚ) (n : Nat) :
    timingLoop tne (n + 1) = timingBody tne (timingLoop tne n) (n + 1) := by
  unfold timingLoop
  rw [List.range'_concat, List.foldl_append]
  simp [Nat.add_comm]

/-- What the scan of slots `1 .. n` computes: either no slot is below `1.0e+29` and the pair
is still `(1.0e+29, 0)`, or the pair is the minimum and the first index that holds it. -/
theorem timingLoop_spec (tne : Nat → ℚ) (n : Nat) :
    ((timingLoop tne n).2 = 0 ∧ (timingLoop tne n).1 = MIN_INIT ∧
        ∀ j, 1 ≤ j → j ≤ n → MIN_INIT ≤ tne j) ∨
    (∃ k : Nat, (timingLoop tne n).2 = (k : Int) ∧ 1 ≤ k ∧ k ≤ n ∧
        (timingLoop tne n).1 = tne k ∧ tne k < MIN_INIT ∧
        (∀ j, 1 ≤ j → j ≤ n → tne k ≤ tne j) ∧ (∀ j, 1 ≤ j → j < k → tne k < tne j)) := by
  induction n with
  | zero =>
    left
    refine ⟨by simp [timingLoop], by simp [timingLoop], ?_⟩
    intro j h1 h2
    omega
  | succ n ih =>
    rw [timingLoop_succ]
    rcases ih with ⟨h2, h1, hall⟩ | ⟨k, hk2, hk1, hkn, hm, hlt, hmin, hfirst⟩
    · by_cases hc : tne (n + 1) < MIN_INIT
      · right
        refine ⟨n + 1, ?_, by omega, le_refl _, ?_, hc, ?_, ?_⟩
        · simp [timingBody, h1, hc]
        · simp [timingBody, h1, hc]
        · intro j hj1 hj2
          rcases Nat.lt_or_ge j (n + 1) with hj | hj
          · exact le_trans (le_of_lt hc) (hall j hj1 (by omega))
          · have : j = n + 1 := by omega
            rw [this]
        · intro j hj1 hj2
          exact lt_of_lt_of_le hc (hall j hj1 (by omega))
      · left
        refine ⟨?_, ?_, ?_⟩
        · simp [timingBody, h1, hc, h2]
        · simp [timingBody, h1, hc]
        · intro j hj1 hj2
          rcases Nat.lt_or_ge j (n + 1) with hj | hj
          · exact hall j hj1 (by omega)
          · have : j = n + 1 := by omega
            rw [this]
            exact not_lt.mp hc
    · by_cases hc : tne (n + 1) < tne k
      · right
        refine ⟨n + 1, ?_, by omega, le_refl _, ?_, lt_trans hc hlt, ?_, ?_⟩
        · simp [timingBody, hm, hc]
        · simp [timingBody, hm, hc]
        · intro j hj1 hj2
          rcases Nat.lt_or_ge j (n + 1) with hj | hj
          · exact le_trans (le_of_lt hc) (hmin j hj1 (by omega))
          · have : j = n + 1 := by omega
            rw [this]
        · intro j hj1 hj2
          exact lt_of_lt_of_le hc (hmin j hj1 (by omega))
      · right
        refine ⟨k, ?_, hk1, by omega, ?_, hlt, ?_, hfirst⟩
        · simp [timingBody, hm, hc, hk2]
        · simp [timingBody, hm, hc]
        · intro j hj1 hj2
          rcases Nat.lt_or_ge j (n + 1) with hj | hj
          · exact hmin j hj1 (by omega)
          · have : j = n + 1 := by omega
            rw [this]
            exact not_lt.mp hc

/-- C1: when at least one of the slots `time_next_event[1..5]` holds a time below `1.0e+29`,
`timing` (the same code in `dynamic.c` and `tandem_system.c`) returns normally, sets `sim_time`
to the minimum of the five slot times and `next_event_type` to the lowest-numbered slot that
holds this minimum; nothing else changes. -/
theorem timing_selects_first_minimum (tne : Nat → ℚ)
    (h : ∃ i, 1 ≤ i ∧ i ≤ 5 ∧ tne i < MIN_INIT) :
    ∃ k : Nat, 1 ≤ k ∧ k ≤ 5 ∧
      (∀ j, 1 ≤ j → j ≤ 5 → tne k ≤ tne j) ∧
      (∀ j, 1 ≤ j → j < k → tne k < tne j) ∧
      (∀ s : Dynamic.State, s.time_next_event = tne →
        Dynamic.timing s = Except.ok { s with next_event_type := (k : Int), sim_time := tne k }) ∧
      (∀ s : Tandem.State, s.time_next_event = tne →
        Tandem.timing s = Except.ok { s with next_event_type := (k : Int), sim_time := tne k }) := by
  rcases timingLoop_spec tne 5 with ⟨_, _, hall⟩ | ⟨k, hk2, hk1, hkn, hm, _, hmin, hfirst⟩
  · obtain ⟨i, hi1, hi5, hi⟩ := h
    exact absurd hi (not_lt.mpr (hall i hi1 hi5))
  · have hk0 : ((k : Int) = 0) = False := by
      simp only [eq_iff_iff, iff_false]
      omega
    refine ⟨k, hk1, hkn, hmin, hfirst, ?_, ?_⟩
    · intro s hs
      simp only [Dynamic.timing, num_events, hs, hk2, hm, hk0, if_false]
    · intro s hs
      simp only [Tandem.timing, num_events, hs, hk2, hm, hk0, if_false]

/-- Witness of C1 on `sampleSlots`: slots 2 and 4 tie at the minimum, slot 2 is selected. -/
theorem timing_selects_first_minimum_witness :
    (∃ i, 1 ≤ i ∧ i ≤ 5 ∧ sampleSlots i < MIN_INIT) ∧
    ∃ k : Nat, 1 ≤ k ∧ k ≤ 5 ∧
      (∀ j, 1 ≤ j → j ≤ 5 → sampleSlots k ≤ sampleSlots j) ∧
      (∀ j, 1 ≤ j → j < k → sampleSlots k < sampleSlots j) ∧
      (∀ s : Dynamic.State, s.time_next_event = sampleSlots →
        Dynamic.timing s =
          Except.ok { s with next_event_type := (k : Int), sim_time := sampleSlots k }) ∧
      (∀ s : Tandem.State, s.time_next_event = sampleSlots →
        Tandem.timing s =
          Except.ok { s with next_event_type := (k : Int), sim_time := sampleSlots k }) :=
  have h : ∃ i, 1 ≤ i ∧ i ≤ 5 ∧ sampleSlots i < MIN_INIT :=
    ⟨2, by decide, by decide, by norm_num [sampleSlots, MIN_INIT]⟩
  ⟨h, timing_selects_first_minimum sampleSlots h⟩

/-! ## Loop combinators -/

theorem forIndices_cons {α : Type} (body : α → Nat → Except Fault α) (i : Nat)
    (rest : List Nat) (a : α) :
    forIndices body (i :: rest) a = (body a i).bind (forIndices body rest) := by
  rw [forIndices]
  cases body a i with
  | error e => rfl
  | ok a1 => rfl

namespace Tandem

theorem readArr_ok (a : Int → ℚ) (i : Int) (h : 0 ≤ i ∧ i < Q_LIMIT + 1) :
    readArr a i = Except.ok (a i) := by
  unfold readArr
  rw [if_pos h]

theorem writeArr_ok (a : Int → ℚ) (i : Int) (v : ℚ) (h : 0 ≤ i ∧ i < Q_LIMIT + 1) :
    writeArr a i v = Except.ok (Function.update a i v) := by
  unfold writeArr
  rw [if_pos h]

theorem shiftBody_ok (a : Int → ℚ) (i : Nat) (h : (i : Int) + 1 < Q_LIMIT + 1) :
    shiftBody a i = Except.ok (Function.update a (i : Int) (a ((i : Int) + 1))) := by
  unfold shiftBody
  rw [readArr_ok a _ ⟨by omega, h⟩]
  exact writeArr_ok a _ _ ⟨by omega, by omega⟩

end Tandem

namespace Tandem

theorem system_arrival_busy (V : Variates) (s : State) (hb : s.server_status 0 = BUSY)
    (h0 : 0 ≤ s.num_in_q 0) (hl : s.num_in_q 0 < Q_LIMIT) :
    system_arrival V s = Except.ok
      { s with
        lcg_calls := s.lcg_calls + 1
        time_next_event := Function.update s.time_next_event 1
          (s.sim_time + V.expon s.mean_interarrival s.lcg_calls)
        num_in_q := Function.update s.num_in_q 0 (s.num_in_q 0 + 1)
        time_arrival := Function.update s.time_arrival (s.num_in_q 0 + 1) s.sim_time } := by
  have hw := writeArr_ok s.time_arrival (s.num_in_q 0 + 1) s.sim_time ⟨by omega, by omega⟩
  have hno : ¬ (s.num_in_q 0 + 1 > Q_LIMIT) := by omega
  simp only [system_arrival, expon, hb, if_true, Function.update_same, hno, if_false, hw]

theorem queue2_arrival_busy_tandem (V : Variates) (s : State) (hb : s.server_status 1 = BUSY)
    (h0 : 0 ≤ s.num_in_q 1) (hl : s.num_in_q 1 < Q_LIMIT) :
    queue2_arrival V s = Except.ok
      { s with
        time_next_event := Function.update s.time_next_event 4 SENTINEL
        num_in_q := Function.update s.num_in_q 1 (s.num_in_q 1 + 1)
        second_time_arrival :=
          Function.update s.second_time_arrival (s.num_in_q 1 + 1) s.sim_time } := by
  have hw := writeArr_ok s.second_time_arrival (s.num_in_q 1 + 1) s.sim_time
    ⟨by omega, by omega⟩
  have hno : ¬ (s.num_in_q 1 + 1 > Q_LIMIT) := by omega
  simp only [queue2_arrival, hb, if_true, Function.update_same, hno, if_false, hw]

end Tandem

/-! ## Busy-server arrivals and the overflow exit -/

theorem iterate_succ_last {σ : Type} (h : σ → Except Fault σ) (n : Nat) (s : σ) :
    iterate h (n + 1) s = (iterate h n s).bind h := by
  induction n generalizing s with
  | zero =>
    show iterate h 1 s = h s
    rw [iterate]
    cases h s with
    | error e => rfl
    | ok s1 => rfl
  | succ n ih =>
    rw [iterate]
    cases hs : h s with
    | error e =>
      have : iterate h (n + 1) s = Except.error e := by rw [iterate, hs]
      rw [this]
      rfl
    | ok s1 =>
      have : iterate h (n + 1) s = iterate h n s1 := by rw [iterate, hs]
      rw [this]
      exact ih s1

namespace Linked

theorem enqueue_ne_nil (l : List ℚ) (t : Int) (h : l ≠ []) :
    enqueue l t = some (l ++ [(t : ℚ)]) := by
  induction l with
  | nil => exact absurd rfl h
  | cons x rest ih =>
    cases rest with
    | nil => rfl
    | cons y r =>
      rw [enqueue, ih (List.cons_ne_nil y r)]
      rfl

end Linked

namespace Dynamic

theorem queue1_arrival_overflow (V : Variates) (s : State) (hb : s.server_status 0 = BUSY)
    (ho : Q_LIMIT < s.num_in_q 0 + 1) :
    queue1_arrival V s = Except.error (Fault.overflow 1) := by
  have ho1 : s.num_in_q 0 + 1 > Q_LIMIT := ho
  simp only [queue1_arrival, expon, hb, if_true, Function.update_same, ho1]

theorem queue1_arrival_busy (V : Variates) (s : State) (hb : s.server_status 0 = BUSY)
    (hl : s.num_in_q 0 < Q_LIMIT) (hh : s.head1 ≠ []) :
    queue1_arrival V s = Except.ok
      { s with
        lcg_calls := s.lcg_calls + 1
        time_next_event := Function.update s.time_next_event 1
          (s.sim_time + V.expon s.mean_interarrival s.lcg_calls)
        num_in_q := Function.update s.num_in_q 0 (s.num_in_q 0 + 1)
        head1 := s.head1 ++ [((float_to_int s.sim_time : Int) : ℚ)] } := by
  have he := Linked.enqueue_ne_nil s.head1 (float_to_int s.sim_time) hh
  have hno : ¬ (s.num_in_q 0 + 1 > Q_LIMIT) := by omega
  simp only [queue1_arrival, expon, hb, if_true, Function.update_same, hno, if_false, he]

theorem queue1_arrival_not_overflow (V : Variates) (s : State) (hb : s.server_status 0 = BUSY)
    (hl : s.num_in_q 0 < Q_LIMIT) :
    queue1_arrival V s ≠ Except.error (Fault.overflow 1) := by
  by_cases hh : s.head1 = []
  · have hno : ¬ (s.num_in_q 0 + 1 > Q_LIMIT) := by omega
    have he : Linked.enqueue s.head1 (float_to_int s.sim_time) = none := by rw [hh]; rfl
    simp only [queue1_arrival, expon, hb, if_true, Function.update_same, hno, if_false, he]
    intro hc
    cases hc
  · rw [queue1_arrival_busy V s hb hl hh]
    intro hc
    cases hc

end Dynamic

namespace Dynamic

theorem queue2_arrival_overflow (V : Variates) (s : State) (hb : s.server_status 1 = BUSY)
    (ho : Q_LIMIT < s.num_in_q 1 + 1) :
    queue2_arrival V s = Except.error (Fault.overflow 2) := by
  have ho1 : s.num_in_q 1 + 1 > Q_LIMIT := ho
  by_cases ht : s.num_in_transit = 0
  · simp only [queue2_arrival, ht, hb, if_true, Function.update_same, ho1]
  · simp only [queue2_arrival, ht, hb, if_true, if_false, Function.update_same, ho1]

theorem queue2_arrival_busy (V : Variates) (s : State) (hb : s.server_status 1 = BUSY)
    (hl : s.num_in_q 1 < Q_LIMIT) (hh : s.head2 ≠ []) :
    ∃ s1, queue2_arrival V s = Except.ok s1 ∧
      s1.num_in_q = Function.update s.num_in_q 1 (s.num_in_q 1 + 1) ∧
      s1.server_status = s.server_status ∧
      s1.head1 = s.head1 ∧
      s1.head2 = s.head2 ++ [((float_to_int s.sim_time : Int) : ℚ)] ∧
      s1.sim_time = s.sim_time := by
  have he := Linked.enqueue_ne_nil s.head2 (float_to_int s.sim_time) hh
  have hno : ¬ (s.num_in_q 1 + 1 > Q_LIMIT) := by omega
  by_cases ht : s.num_in_transit = 0
  · refine ⟨{ s with
        time_next_event := Function.update s.time_next_event 3 SENTINEL
        num_in_q := Function.update s.num_in_q 1 (s.num_in_q 1 + 1)
        head2 := s.head2 ++ [((float_to_int s.sim_time : Int) : ℚ)] }, ?_, ?_⟩
    · simp only [queue2_arrival, ht, hb, if_true, Function.update_same, hno, if_false, he]
    · exact ⟨rfl, rfl, rfl, rfl, rfl⟩
  · refine ⟨{ s with
        num_in_transit := s.num_in_transit - 1
        num_in_q := Function.update s.num_in_q 1 (s.num_in_q 1 + 1)
        head2 := s.head2 ++ [((float_to_int s.sim_time : Int) : ℚ)] }, ?_, ?_⟩
    · simp only [queue2_arrival, ht, hb, if_true, Function.update_same, hno, if_false, he]
    · exact ⟨rfl, rfl, rfl, rfl, rfl⟩

end Dynamic

namespace Tandem

theorem system_arrival_overflow (V : Variates) (s : State) (hb : s.server_status 0 = BUSY)
    (ho : Q_LIMIT < s.num_in_q 0 + 1) :
    system_arrival V s = Except.error (Fault.overflow 1) := by
  have ho1 : s.num_in_q 0 + 1 > Q_LIMIT := ho
  simp only [system_arrival, expon, hb, if_true, Function.update_same, ho1]

theorem queue2_arrival_overflow_tandem (V : Variates) (s : State) (hb : s.server_status 1 = BUSY)
    (ho : Q_LIMIT < s.num_in_q 1 + 1) :
    queue2_arrival V s = Except.error (Fault.overflow 2) := by
  have ho1 : s.num_in_q 1 + 1 > Q_LIMIT := ho
  simp only [queue2_arrival, hb, if_true, Function.update_same, ho1]

end Tandem

/-- A handler that overflows when the line is full and otherwise lengthens the line by one,
on the states picked out by `ready`, meets the arrival contract on those states. -/
theorem arrivalContract_of {σ : Type} (h : σ → Except Fault σ) (len : σ → Int) (L : Int)
    (stage : Nat) (ready : σ → Prop) (hL : 0 ≤ L)
    (hovf : ∀ s, ready s → L < len s + 1 → h s = Except.error (Fault.overflow stage))
    (hstep : ∀ s, ready s → len s < L → ∃ s1, h s = Except.ok s1 ∧ ready s1 ∧ len s1 = len s + 1)
    (s : σ) (hs : ready s) : ArrivalContract h len L stage s := by
  have hiff : h s = Except.error (Fault.overflow stage) ↔ L < len s + 1 := by
    constructor
    · intro he
      by_contra hc
      obtain ⟨s1, h1, _, _⟩ := hstep s hs (by omega)
      rw [h1] at he
      cases he
    · exact hovf s hs
  have hrun : ∀ (n : Nat) (s0 : σ), ready s0 → (len s0 + (n : Int) ≤ L) →
      ∃ sn, iterate h n s0 = Except.ok sn ∧ ready sn ∧ len sn = len s0 + (n : Int) := by
    intro n
    induction n with
    | zero =>
      intro s0 h0 _
      exact ⟨s0, rfl, h0, by simp⟩
    | succ n ih =>
      intro s0 h0 hle
      obtain ⟨s1, h1, hr1, hl1⟩ := hstep s0 h0 (by push_cast at hle; omega)
      obtain ⟨sn, h2, hr2, hl2⟩ := ih s1 hr1 (by push_cast at hle; omega)
      refine ⟨sn, ?_, hr2, ?_⟩
      · rw [iterate, h1]
        exact h2
      · rw [hl2, hl1]
        push_cast
        ring
  refine ⟨hiff, ?_, ?_, ?_⟩
  · intro hle
    rw [hiff]
    constructor <;> intro hx <;> omega
  · intro hlt
    obtain ⟨s1, h1, _, hl1⟩ := hstep s hs hlt
    exact ⟨s1, h1, hl1⟩
  · intro hz
    constructor
    · intro n hn
      obtain ⟨sn, h1, _, hl1⟩ := hrun n s hs (by omega)
      exact ⟨sn, h1, by omega⟩
    · obtain ⟨sn, h1, hr1, hl1⟩ := hrun L.toNat s hs (by rw [Int.toNat_of_nonneg hL]; omega)
      rw [iterate_succ_last, h1]
      exact hovf sn hr1 (by rw [hl1, Int.toNat_of_nonneg hL]; omega)

/-- C10: each stage arrival handler fired while the server is busy meets the overflow
contract `ArrivalContract` with the `Q_LIMIT` of its program: it stops with the overflow error
exactly when the queue length after the arrival would exceed `Q_LIMIT` (for a length within
the limit, exactly when the length already equals `Q_LIMIT`); otherwise it returns with the
length grown by one; from an empty line `Q_LIMIT` consecutive arrivals succeed and the next
one overflows. In `dynamic.c` the list head is not `NULL`, in `tandem_system.c` the length is
not negative. -/
theorem busy_arrival_overflow_contract (V : Variates) :
    (∀ s : Dynamic.State, s.server_status 0 = BUSY → s.head1 ≠ [] →
      ArrivalContract (Dynamic.queue1_arrival V) (fun s => s.num_in_q 0) Dynamic.Q_LIMIT 1 s) ∧
    (∀ s : Dynamic.State, s.server_status 1 = BUSY → s.head2 ≠ [] →
      ArrivalContract (Dynamic.queue2_arrival V) (fun s => s.num_in_q 1) Dynamic.Q_LIMIT 2 s) ∧
    (∀ s : Tandem.State, s.server_status 0 = BUSY → 0 ≤ s.num_in_q 0 →
      ArrivalContract (Tandem.system_arrival V) (fun s => s.num_in_q 0) Tandem.Q_LIMIT 1 s) ∧
    (∀ s : Tandem.State, s.server_status 1 = BUSY → 0 ≤ s.num_in_q 1 →
      ArrivalContract (Tandem.queue2_arrival V) (fun s => s.num_in_q 1) Tandem.Q_LIMIT 2 s) := by
  have hd : (0 : Int) ≤ Dynamic.Q_LIMIT := by unfold Dynamic.Q_LIMIT; decide
  have ht : (0 : Int) ≤ Tandem.Q_LIMIT := by unfold Tandem.Q_LIMIT; decide
  refine ⟨?_, ?_, ?_, ?_⟩
  · intro s hb hh
    refine arrivalContract_of _ _ _ _
      (fun s : Dynamic.State => s.server_status 0 = BUSY ∧ s.head1 ≠ []) hd ?_ ?_ s ⟨hb, hh⟩
    · intro s0 hr ho
      exact Dynamic.queue1_arrival_overflow V s0 hr.1 ho
    · intro s0 hr hl
      refine ⟨_, Dynamic.queue1_arrival_busy V s0 hr.1 hl hr.2, ⟨hr.1, ?_⟩, ?_⟩
      · simp
      · simp only [Function.update_same]
  · intro s hb hh
    refine arrivalContract_of _ _ _ _
      (fun s : Dynamic.State => s.server_status 1 = BUSY ∧ s.head2 ≠ []) hd ?_ ?_ s ⟨hb, hh⟩
    · intro s0 hr ho
      exact Dynamic.queue2_arrival_overflow V s0 hr.1 ho
    · intro s0 hr hl
      obtain ⟨s1, h1, hq, hs, _, h2, _⟩ := Dynamic.queue2_arrival_busy V s0 hr.1 hl hr.2
      refine ⟨s1, h1, ⟨?_, ?_⟩, ?_⟩
      · rw [hs]
        exact hr.1
      · rw [h2]
        simp
      · simp only [hq, Function.update_same]
  · intro s hb h0
    refine arrivalContract_of _ _ _ _
      (fun s : Tandem.State => s.server_status 0 = BUSY ∧ 0 ≤ s.num_in_q 0) ht ?_ ?_ s ⟨hb, h0⟩
    · intro s0 hr ho
      exact Tandem.system_arrival_overflow V s0 hr.1 ho
    · intro s0 hr hl
      refine ⟨_, Tandem.system_arrival_busy V s0 hr.1 hr.2 hl, ⟨hr.1, ?_⟩, ?_⟩
      · simp only [Function.update_same]
        omega
      · simp only [Function.update_same]
  · intro s hb h0
    refine arrivalContract_of _ _ _ _
      (fun s : Tandem.State => s.server_status 1 = BUSY ∧ 0 ≤ s.num_in_q 1) ht ?_ ?_ s ⟨hb, h0⟩
    · intro s0 hr ho
      exact Tandem.queue2_arrival_overflow_tandem V s0 hr.1 ho
    · intro s0 hr hl
      refine ⟨_, Tandem.queue2_arrival_busy_tandem V s0 hr.1 hr.2 hl, ⟨hr.1, ?_⟩, ?_⟩
      · simp only [Function.update_same]
        omega
      · simp only [Function.update_same]

/-- Witness of C10 on the busy states `Demo.dynBusy` and `Demo.tanBusy` with empty lines. -/
theorem busy_arrival_overflow_contract_witness :
    ArrivalContract (Dynamic.queue1_arrival Demo.variatesA) (fun s => s.num_in_q 0)
      Dynamic.Q_LIMIT 1 Demo.dynBusy ∧
    ArrivalContract (Dynamic.queue2_arrival Demo.variatesA) (fun s => s.num_in_q 1)
      Dynamic.Q_LIMIT 2 Demo.dynBusy ∧
    ArrivalContract (Tandem.system_arrival Demo.variatesA) (fun s => s.num_in_q 0)
      Tandem.Q_LIMIT 1 Demo.tanBusy ∧
    ArrivalContract (Tandem.queue2_arrival Demo.variatesA) (fun s => s.num_in_q 1)
      Tandem.Q_LIMIT 2 Demo.tanBusy :=
  have h := busy_arrival_overflow_contract Demo.variatesA
  ⟨h.1 Demo.dynBusy (by decide!) (by decide!),
    h.2.1 Demo.dynBusy (by decide!) (by decide!),
    h.2.2.1 Demo.tanBusy (by decide!) (by decide!),
    h.2.2.2 Demo.tanBusy (by decide!) (by decide!)⟩

/-! ## Evaluations of the handlers on sample runs -/

/-- C2: in run A of `dynamic.c` (arrivals at times 1 and 2, first service 5 minutes, transit
time 1) the first five passes fire `queue1_arrival`, `queue1_arrival`, `queue1_departure`,
`queue2_arrival`, `queue2_arrival`: the stage-2 arrival logic has run twice after a single
stage-1 completion. -/
theorem dynamic_second_transit_arrival_without_completion :
    Dynamic.trace Demo.variatesA 5 Demo.dynA = [1, 1, 2, 3, 3] ∧
    (Dynamic.trace Demo.variatesA 5 Demo.dynA).count 3 = 2 ∧
    (Dynamic.trace Demo.variatesA 5 Demo.dynA).count 2 = 1 := by
  decide!

/-- C3: on the list as `main` creates it, enqueueing 1, 2, 3 and then dequeuing three times
returns 0, 1, 2 (the first dequeue returns the value of the initial head node) and leaves the
node 3 in the list. -/
theorem linked_dequeue_returns_previous_head :
    Linked.runOps [Linked.Op.enq 1, Linked.Op.enq 2, Linked.Op.enq 3,
        Linked.Op.deq, Linked.Op.deq, Linked.Op.deq] Linked.initial
      = some ([0, 1, 2], [3]) := by
  decide!

/-- C4: in run B the stage-1 completion of the first customer fires with an empty stage-1
waiting line. In `dynamic.c` it leaves `num_in_transit` at 0 and slot 3 at the sentinel; in
`tandem_system.c` it leaves slot 4 at the sentinel: the finished customer is not handed on. -/
theorem queue1_departure_empty_line_no_handoff :
    Demo.dynB_pass2.map (fun s =>
        (s.next_event_type, s.num_in_q 0, s.num_in_transit,
          (Dynamic.queue1_departure Demo.variatesB s).toOption.map (fun s1 =>
            (s1.num_in_transit, decide (s1.time_next_event 3 = SENTINEL)))))
      = some (2, 0, 0, some (0, true)) ∧
    Demo.tanB_pass2.map (fun s =>
        (s.next_event_type, s.num_in_q 0,
          (Tandem.queue1_departure Demo.variatesB s).toOption.map (fun s1 =>
            decide (s1.time_next_event 4 = SENTINEL))))
      = some (3, 0, some true) := by
  decide!

/-- C5: in run A the fourth pass fires `queue2_arrival` at time 7 with `num_in_transit = 1`
and slot 3 equal to 7; afterwards `num_in_transit` is 0 and slot 3 still holds 7, not the
sentinel. -/
theorem queue2_arrival_last_in_transit_keeps_slot :
    Demo.dynA_pass4.map (fun s =>
        (s.next_event_type, s.sim_time, s.num_in_transit, s.time_next_event 3))
      = some (3, 7, 1, 7) ∧
    (Demo.dynA_pass4.bind (fun s => (Dynamic.queue2_arrival Demo.variatesA s).toOption)).map
        (fun s1 => (s1.num_in_transit, s1.time_next_event 3,
          decide (s1.time_next_event 3 = SENTINEL)))
      = some (0, 7, false) := by
  decide!

/-- C6: in run A of `tandem_system.c` the third pass fires `queue1_departure` at time 6 with
one customer waiting and the service draw 10; afterwards the queue length is 0, the server is
busy, `num_custs_delayed` went from 1 to 2, but slot 3 (the stage-1 completion) still holds 6
and the time 16 went to slot 4. -/
theorem tandem_queue1_departure_keeps_own_slot :
    Demo.tanA_pass3.map (fun s =>
        (s.next_event_type, s.sim_time, s.num_in_q 0, s.num_custs_delayed))
      = some (3, 6, 1, 1) ∧
    Demo.tanA_pass3.map (fun s =>
        (s.time_next_event 3, Demo.variatesA.expon (s.mean_service 0) s.lcg_calls))
      = some (6, 10) ∧
    (Demo.tanA_pass3.bind (fun s => (Tandem.queue1_departure Demo.variatesA s).toOption)).map
        (fun s1 => (s1.num_in_q 0, s1.num_custs_delayed, s1.server_status 0))
      = some (0, 2, 1) ∧
    (Demo.tanA_pass3.bind (fun s => (Tandem.queue1_departure Demo.variatesA s).toOption)).map
        (fun s1 => (s1.time_next_event 3, s1.time_next_event 4))
      = some (6, 16) := by
  decide!

/-- C7: the first replication of the short run (run length 3) ends while the customer that
arrived at time 2 waits at stage 1; `initialize` then resets the counter `num_in_q[0]` to 0
but leaves the node of that customer in the stage-1 list, where the first call of `initialize`
left the single initial node. -/
theorem initialize_keeps_waiting_line_nodes :
    Demo.dynShort_end.map (fun s =>
        (s.next_event_type, s.num_in_q 0, s.head1,
          (Dynamic.initialize_sim Demo.variatesA s).num_in_q 0,
          (Dynamic.initialize_sim Demo.variatesA s).head1))
      = some (5, 1, [0, 2], 0, [0, 2]) ∧
    Demo.dynShort.head1 = [0] := by
  decide!

/-- C8: in run C the second pass fires `queue1_arrival` at time 3/2 with the server busy and
no overflow; the node appended to the stage-1 list holds 1 (the time converted to `int`),
not 3/2. -/
theorem queue1_arrival_appends_truncated_time :
    Demo.dynC_pass2.map (fun s =>
        (s.next_event_type, s.sim_time, s.server_status 0, s.num_in_q 0))
      = some (1, 3 / 2, 1, 0) ∧
    Demo.dynC_pass2.map (fun s => s.head1) = some [0] ∧
    (Demo.dynC_pass2.bind (fun s => (Dynamic.queue1_arrival Demo.variatesC s).toOption)).map
        (fun s1 => (s1.num_in_q 0, s1.head1))
      = some (1, [0, 1]) := by
  decide!

/-! ## The outcome of `timing` -/

theorem timingLoop_cases (tne : Nat → ℚ) :
    ((timingLoop tne num_events).2 = 0 ∧ ∀ j, 1 ≤ j → j ≤ 5 → MIN_INIT ≤ tne j) ∨
    (∃ k : Nat, timingLoop tne num_events = (tne k, (k : Int)) ∧ 1 ≤ k ∧ k ≤ 5 ∧
        tne k < MIN_INIT ∧ (∀ j, 1 ≤ j → j ≤ 5 → tne k ≤ tne j) ∧
        (∀ j, 1 ≤ j → j < k → tne k < tne j)) := by
  rcases timingLoop_spec tne 5 with ⟨h2, _, hall⟩ | ⟨k, hk2, hk1, hkn, hm, hlt, hmin, hfirst⟩
  · exact Or.inl ⟨h2, hall⟩
  · exact Or.inr ⟨k, Prod.ext hm hk2, hk1, hkn, hlt, hmin, hfirst⟩

theorem exists_ok_of_isSome {ε α : Type} (x : Except ε α) (h : x.toOption.isSome = true) :
    ∃ a, x = Except.ok a := by
  cases x with
  | error e => cases h
  | ok a => exact ⟨a, rfl⟩

namespace Dynamic

theorem timing_ok (s s1 : State) (h : timing s = Except.ok s1) :
    ∃ k : Nat, 1 ≤ k ∧ k ≤ 5 ∧ s.time_next_event k < MIN_INIT ∧
      (∀ j, 1 ≤ j → j ≤ 5 → s.time_next_event k ≤ s.time_next_event j) ∧
      (∀ j, 1 ≤ j → j < k → s.time_next_event k < s.time_next_event j) ∧
      s1 = { s with next_event_type := (k : Int), sim_time := s.time_next_event k } := by
  rcases timingLoop_cases s.time_next_event with ⟨h2, _⟩ | ⟨k, hk, hk1, hk5, hlt, hmin, hfirst⟩
  · simp only [timing, h2, if_true] at h
    cases h
  · have hk0 : ¬ ((k : Int) = 0) := by omega
    simp only [timing, hk, hk0, if_false, Except.ok.injEq] at h
    exact ⟨k, hk1, hk5, hlt, hmin, hfirst, h.symm⟩

theorem timing_error_iff (s : State) :
    timing s = Except.error Fault.eventListEmpty ↔
      ∀ j, 1 ≤ j → j ≤ 5 → ¬ (s.time_next_event j < MIN_INIT) := by
  rcases timingLoop_cases s.time_next_event with ⟨h2, hall⟩ | ⟨k, hk, hk1, hk5, hlt, _, _⟩
  · simp only [timing, h2, if_true, true_iff]
    intro j h1 h5
    exact not_lt.mpr (hall j h1 h5)
  · have hk0 : ¬ ((k : Int) = 0) := by omega
    simp only [timing, hk, hk0, if_false]
    constructor
    · intro h
      cases h
    · intro h
      exact absurd hlt (h k hk1 hk5)

end Dynamic

namespace Tandem

theorem timing_ok_tandem (s s1 : State) (h : timing s = Except.ok s1) :
    ∃ k : Nat, 1 ≤ k ∧ k ≤ 5 ∧ s.time_next_event k < MIN_INIT ∧
      (∀ j, 1 ≤ j → j ≤ 5 → s.time_next_event k ≤ s.time_next_event j) ∧
      (∀ j, 1 ≤ j → j < k → s.time_next_event k < s.time_next_event j) ∧
      s1 = { s with next_event_type := (k : Int), sim_time := s.time_next_event k } := by
  rcases timingLoop_cases s.time_next_event with ⟨h2, _⟩ | ⟨k, hk, hk1, hk5, hlt, hmin, hfirst⟩
  · simp only [timing, h2, if_true] at h
    cases h
  · have hk0 : ¬ ((k : Int) = 0) := by omega
    simp only [timing, hk, hk0, if_false, Except.ok.injEq] at h
    exact ⟨k, hk1, hk5, hlt, hmin, hfirst, h.symm⟩

theorem timing_error_iff_tandem (s : State) :
    timing s = Except.error Fault.eventListEmpty ↔
      ∀ j, 1 ≤ j → j ≤ 5 → ¬ (s.time_next_event j < MIN_INIT) := by
  rcases timingLoop_cases s.time_next_event with ⟨h2, hall⟩ | ⟨k, hk, hk1, hk5, hlt, _, _⟩
  · simp only [timing, h2, if_true, true_iff]
    intro j h1 h5
    exact not_lt.mpr (hall j h1 h5)
  · have hk0 : ¬ ((k : Int) = 0) := by omega
    simp only [timing, hk, hk0, if_false]
    constructor
    · intro h
      cases h
    · intro h
      exact absurd hlt (h k hk1 hk5)

end Tandem

/-! ## Idle-server arrivals in `dynamic.c` -/

namespace Dynamic

theorem queue1_arrival_idle (V : Variates) (s : State) (hi : s.server_status 0 ≠ BUSY) :
    queue1_arrival V s = Except.ok
      { s with
        lcg_calls := s.lcg_calls + 1 + 1
        total_of_delays := Function.update s.total_of_delays 0 (s.total_of_delays 0 + 0)
        num_custs_delayed := s.num_custs_delayed + 1
        server_status := Function.update s.server_status 0 BUSY
        time_next_event :=
          Function.update
            (Function.update s.time_next_event 1
              (s.sim_time + V.expon s.mean_interarrival s.lcg_calls))
            2 (s.sim_time + V.expon (s.mean_service 0) (s.lcg_calls + 1)) } := by
  simp only [queue1_arrival, expon, hi, if_false]

theorem queue2_arrival_idle (V : Variates) (s : State) (hi : s.server_status 1 ≠ BUSY) :
    queue2_arrival V s = Except.ok
      { s with
        lcg_calls := s.lcg_calls + 1
        num_in_transit := if s.num_in_transit = 0 then s.num_in_transit else s.num_in_transit - 1
        total_of_delays := Function.update s.total_of_delays 1 (s.total_of_delays 1 + 0)
        server_status := Function.update s.server_status 1 BUSY
        time_next_event :=
          Function.update
            (if s.num_in_transit = 0 then Function.update s.time_next_event 3 SENTINEL
              else s.time_next_event)
            4 (s.sim_time + V.expon (s.mean_service 1) s.lcg_calls) } := by
  by_cases ht : s.num_in_transit = 0
  · simp only [queue2_arrival, expon, ht, hi, if_true, if_false]
  · simp only [queue2_arrival, expon, ht, hi, if_false]

theorem range_two : List.range 2 = [0, 1] := by decide

theorem update_time_avg_stats_eq (s : State) :
    update_time_avg_stats s =
      { s with
        time_last_event := s.sim_time
        area_num_in_q :=
          Function.update
            (Function.update s.area_num_in_q 0
              (accumulate (s.area_num_in_q 0) (s.num_in_q 0)
                (fl32 (s.sim_time - s.time_last_event))))
            1 (accumulate (s.area_num_in_q 1) (s.num_in_q 1)
                (fl32 (s.sim_time - s.time_last_event)))
        area_server_status :=
          Function.update
            (Function.update s.area_server_status 0
              (accumulate (s.area_server_status 0) (s.server_status 0)
                (fl32 (s.sim_time - s.time_last_event))))
            1 (accumulate (s.area_server_status 1) (s.server_status 1)
                (fl32 (s.sim_time - s.time_last_event)))
        area_in_transit :=
          accumulate
            (accumulate s.area_in_transit s.num_in_transit
              (fl32 (s.sim_time - s.time_last_event)))
            s.num_in_transit (fl32 (s.sim_time - s.time_last_event))
        max_in_transit :=
          if s.num_in_transit > s.max_in_transit then s.num_in_transit else s.max_in_transit } := by
  have h10 : (1 : Nat) ≠ 0 := by decide
  by_cases hm : s.num_in_transit > s.max_in_transit
  · simp only [update_time_avg_stats, range_two, List.foldl, statsBody, hm, if_true,
      Function.update_noteq h10]
  · simp only [update_time_avg_stats, range_two, List.foldl, statsBody, hm, if_false,
      Function.update_noteq h10]

end Dynamic

/-! ## What the handlers of `dynamic.c` return -/

namespace Dynamic

theorem queue1_arrival_null (V : Variates) (s : State) (hb : s.server_status 0 = BUSY)
    (hl : s.num_in_q 0 < Q_LIMIT) (hh : s.head1 = []) :
    queue1_arrival V s = Except.error Fault.nullDeref := by
  have hno : ¬ (s.num_in_q 0 + 1 > Q_LIMIT) := by omega
  have he : Linked.enqueue s.head1 (float_to_int s.sim_time) = none := by rw [hh]; rfl
  simp only [queue1_arrival, expon, hb, if_true, Function.update_same, hno, if_false, he]

/-- The two ways in which `queue1_arrival` returns normally. -/
theorem queue1_arrival_cases (V : Variates) (s s1 : State)
    (h : queue1_arrival V s = Except.ok s1) :
    (s.server_status 0 = BUSY ∧ s.num_in_q 0 < Q_LIMIT ∧ s.head1 ≠ [] ∧
      s1 = { s with
        lcg_calls := s.lcg_calls + 1
        time_next_event := Function.update s.time_next_event 1
          (s.sim_time + V.expon s.mean_interarrival s.lcg_calls)
        num_in_q := Function.update s.num_in_q 0 (s.num_in_q 0 + 1)
        head1 := s.head1 ++ [((float_to_int s.sim_time : Int) : ℚ)] }) ∨
    (s.server_status 0 ≠ BUSY ∧
      s1 = { s with
        lcg_calls := s.lcg_calls + 1 + 1
        total_of_delays := Function.update s.total_of_delays 0 (s.total_of_delays 0 + 0)
        num_custs_delayed := s.num_custs_delayed + 1
        server_status := Function.update s.server_status 0 BUSY
        time_next_event :=
          Function.update
            (Function.update s.time_next_event 1
              (s.sim_time + V.expon s.mean_interarrival s.lcg_calls))
            2 (s.sim_time + V.expon (s.mean_service 0) (s.lcg_calls + 1)) }) := by
  by_cases hb : s.server_status 0 = BUSY
  · left
    by_cases ho : Q_LIMIT < s.num_in_q 0 + 1
    · rw [queue1_arrival_overflow V s hb ho] at h
      cases h
    · have hl : s.num_in_q 0 < Q_LIMIT := by omega
      by_cases hh : s.head1 = []
      · rw [queue1_arrival_null V s hb hl hh] at h
        cases h
      · rw [queue1_arrival_busy V s hb hl hh] at h
        exact ⟨hb, hl, hh, (Except.ok.inj h).symm⟩
  · right
    rw [queue1_arrival_idle V s hb] at h
    exact ⟨hb, (Except.ok.inj h).symm⟩

theorem queue1_departure_empty (V : Variates) (s : State) (h0 : s.num_in_q 0 = 0) :
    queue1_departure V s = Except.ok
      { s with
        server_status := Function.update s.server_status 0 IDLE
        time_next_event := Function.update s.time_next_event 2 SENTINEL } := by
  simp only [queue1_departure, h0, if_true]

theorem queue1_departure_null (V : Variates) (s : State) (h0 : s.num_in_q 0 ≠ 0)
    (hh : s.head1 = []) :
    queue1_departure V s = Except.error Fault.nullDeref := by
  simp only [queue1_departure, h0, if_false, hh, Linked.dequeue]

theorem queue1_departure_pop (V : Variates) (s : State) (h0 : s.num_in_q 0 ≠ 0)
    (x : ℚ) (l : List ℚ) (hh : s.head1 = x :: l) :
    queue1_departure V s = Except.ok
      { s with
        num_in_q := Function.update s.num_in_q 0 (s.num_in_q 0 - 1)
        head1 := l
        total_of_delays := Function.update s.total_of_delays 0
          (s.total_of_delays 0 + (s.sim_time - x))
        num_custs_delayed := s.num_custs_delayed + 1
        server_status := Function.update s.server_status 0 BUSY
        lcg_calls := s.lcg_calls + 1
        mrand_calls := s.mrand_calls + 1
        time_next_event :=
          Function.update
            (Function.update s.time_next_event 2
              (s.sim_time + V.expon (s.mean_service 0) s.lcg_calls))
            3 (s.sim_time + V.mrand s.mrand_calls * ((2 : Int) : ℚ))
        num_in_transit := s.num_in_transit + 1 } := by
  simp only [queue1_departure, h0, if_false, hh, Linked.dequeue, expon, uniform]

/-- The two ways in which `queue1_departure` returns normally. -/
theorem queue1_departure_cases (V : Variates) (s s1 : State)
    (h : queue1_departure V s = Except.ok s1) :
    (s.num_in_q 0 = 0 ∧
      s1 = { s with
        server_status := Function.update s.server_status 0 IDLE
        time_next_event := Function.update s.time_next_event 2 SENTINEL }) ∨
    (s.num_in_q 0 ≠ 0 ∧ ∃ x l, s.head1 = x :: l ∧
      s1 = { s with
        num_in_q := Function.update s.num_in_q 0 (s.num_in_q 0 - 1)
        head1 := l
        total_of_delays := Function.update s.total_of_delays 0
          (s.total_of_delays 0 + (s.sim_time - x))
        num_custs_delayed := s.num_custs_delayed + 1
        server_status := Function.update s.server_status 0 BUSY
        lcg_calls := s.lcg_calls + 1
        mrand_calls := s.mrand_calls + 1
        time_next_event :=
          Function.update
            (Function.update s.time_next_event 2
              (s.sim_time + V.expon (s.mean_service 0) s.lcg_calls))
            3 (s.sim_time + V.mrand s.mrand_calls * ((2 : Int) : ℚ))
        num_in_transit := s.num_in_transit + 1 }) := by
  by_cases h0 : s.num_in_q 0 = 0
  · left
    rw [queue1_departure_empty V s h0] at h
    exact ⟨h0, (Except.ok.inj h).symm⟩
  · right
    cases hh : s.head1 with
    | nil =>
      rw [queue1_departure_null V s h0 hh] at h
      cases h
    | cons x l =>
      rw [queue1_departure_pop V s h0 x l hh] at h
      exact ⟨h0, x, l, rfl, (Except.ok.inj h).symm⟩

theorem queue2_arrival_null (V : Variates) (s : State) (hb : s.server_status 1 = BUSY)
    (hl : s.num_in_q 1 < Q_LIMIT) (hh : s.head2 = []) :
    queue2_arrival V s = Except.error Fault.nullDeref := by
  have hno : ¬ (s.num_in_q 1 + 1 > Q_LIMIT) := by omega
  have he : Linked.enqueue s.head2 (float_to_int s.sim_time) = none := by rw [hh]; rfl
  by_cases ht : s.num_in_transit = 0
  · simp only [queue2_arrival, ht, hb, if_true, Function.update_same, hno, if_false, he]
  · simp only [queue2_arrival, ht, hb, if_true, Function.update_same, hno, if_false, he]

theorem queue2_arrival_append (V : Variates) (s : State) (hb : s.server_status 1 = BUSY)
    (hl : s.num_in_q 1 < Q_LIMIT) (hh : s.head2 ≠ []) :
    queue2_arrival V s = Except.ok
      { s with
        num_in_transit := if s.num_in_transit = 0 then s.num_in_transit else s.num_in_transit - 1
        time_next_event :=
          if s.num_in_transit = 0 then Function.update s.time_next_event 3 SENTINEL
          else s.time_next_event
        num_in_q := Function.update s.num_in_q 1 (s.num_in_q 1 + 1)
        head2 := s.head2 ++ [((float_to_int s.sim_time : Int) : ℚ)] } := by
  have he := Linked.enqueue_ne_nil s.head2 (float_to_int s.sim_time) hh
  have hno : ¬ (s.num_in_q 1 + 1 > Q_LIMIT) := by omega
  by_cases ht : s.num_in_transit = 0
  · simp only [queue2_arrival, ht, hb, if_true, Function.update_same, hno, if_false, he]
  · simp only [queue2_arrival, ht, hb, if_true, Function.update_same, hno, if_false, he]

/-- The two ways in which `queue2_arrival` returns normally. -/
theorem queue2_arrival_cases (V : Variates) (s s1 : State)
    (h : queue2_arrival V s = Except.ok s1) :
    (s.server_status 1 = BUSY ∧ s.num_in_q 1 < Q_LIMIT ∧ s.head2 ≠ [] ∧
      s1 = { s with
        num_in_transit := if s.num_in_transit = 0 then s.num_in_transit else s.num_in_transit - 1
        time_next_event :=
          if s.num_in_transit = 0 then Function.update s.time_next_event 3 SENTINEL
          else s.time_next_event
        num_in_q := Function.update s.num_in_q 1 (s.num_in_q 1 + 1)
        head2 := s.head2 ++ [((float_to_int s.sim_time : Int) : ℚ)] }) ∨
    (s.server_status 1 ≠ BUSY ∧
      s1 = { s with
        lcg_calls := s.lcg_calls + 1
        num_in_transit := if s.num_in_transit = 0 then s.num_in_transit else s.num_in_transit - 1
        total_of_delays := Function.update s.total_of_delays 1 (s.total_of_delays 1 + 0)
        server_status := Function.update s.server_status 1 BUSY
        time_next_event :=
          Function.update
            (if s.num_in_transit = 0 then Function.update s.time_next_event 3 SENTINEL
              else s.time_next_event)
            4 (s.sim_time + V.expon (s.mean_service 1) s.lcg_calls) }) := by
  by_cases hb : s.server_status 1 = BUSY
  · left
    by_cases ho : Q_LIMIT < s.num_in_q 1 + 1
    · rw [queue2_arrival_overflow V s hb ho] at h
      cases h
    · have hl : s.num_in_q 1 < Q_LIMIT := by omega
      by_cases hh : s.head2 = []
      · rw [queue2_arrival_null V s hb hl hh] at h
        cases h
      · rw [queue2_arrival_append V s hb hl hh] at h
        exact ⟨hb, hl, hh, (Except.ok.inj h).symm⟩
  · right
    rw [queue2_arrival_idle V s hb] at h
    exact ⟨hb, (Except.ok.inj h).symm⟩

theorem queue2_departure_empty (V : Variates) (s : State) (h0 : s.num_in_q 1 = 0) :
    queue2_departure V s = Except.ok
      { s with
        server_status := Function.update s.server_status 1 IDLE
        time_next_event := Function.update s.time_next_event 4 SENTINEL } := by
  simp only [queue2_departure, h0, if_true]

theorem queue2_departure_null (V : Variates) (s : State) (h0 : s.num_in_q 1 ≠ 0)
    (hh : s.head2 = []) :
    queue2_departure V s = Except.error Fault.nullDeref := by
  simp only [queue2_departure, h0, if_false, hh, Linked.dequeue]

theorem queue2_departure_pop (V : Variates) (s : State) (h0 : s.num_in_q 1 ≠ 0)
    (x : ℚ) (l : List ℚ) (hh : s.head2 = x :: l) :
    queue2_departure V s = Except.ok
      { s with
        num_in_q := Function.update s.num_in_q 1 (s.num_in_q 1 - 1)
        head2 := l
        total_of_delays := Function.update s.total_of_delays 1
          (s.total_of_delays 1 + (s.sim_time - x))
        num_custs_delayed := s.num_custs_delayed + 1
        server_status := Function.update s.server_status 1 BUSY
        lcg_calls := s.lcg_calls + 1
        time_next_event := Function.update s.time_next_event 4
          (s.sim_time + V.expon (s.mean_service 1) s.lcg_calls) } := by
  simp only [queue2_departure, h0, if_false, hh, Linked.dequeue, expon]

/-- The two ways in which `queue2_departure` returns normally. -/
theorem queue2_departure_cases (V : Variates) (s s1 : State)
    (h : queue2_departure V s = Except.ok s1) :
    (s.num_in_q 1 = 0 ∧
      s1 = { s with
        server_status := Function.update s.server_status 1 IDLE
        time_next_event := Function.update s.time_next_event 4 SENTINEL }) ∨
    (s.num_in_q 1 ≠ 0 ∧ ∃ x l, s.head2 = x :: l ∧
      s1 = { s with
        num_in_q := Function.update s.num_in_q 1 (s.num_in_q 1 - 1)
        head2 := l
        total_of_delays := Function.update s.total_of_delays 1
          (s.total_of_delays 1 + (s.sim_time - x))
        num_custs_delayed := s.num_custs_delayed + 1
        server_status := Function.update s.server_status 1 BUSY
        lcg_calls := s.lcg_calls + 1
        time_next_event := Function.update s.time_next_event 4
          (s.sim_time + V.expon (s.mean_service 1) s.lcg_calls) }) := by
  by_cases h0 : s.num_in_q 1 = 0
  · left
    rw [queue2_departure_empty V s h0] at h
    exact ⟨h0, (Except.ok.inj h).symm⟩
  · right
    cases hh : s.head2 with
    | nil =>
      rw [queue2_departure_null V s h0 hh] at h
      cases h
    | cons x l =>
      rw [queue2_departure_pop V s h0 x l hh] at h
      exact ⟨h0, x, l, rfl, (Except.ok.inj h).symm⟩

theorem initialize_sim_eq (V : Variates) (s : State) :
    initialize_sim V s =
      { s with
        sim_time := 0
        server_status := Function.update (Function.update s.server_status 0 IDLE) 1 IDLE
        num_in_q := Function.update (Function.update s.num_in_q 0 0) 1 0
        total_of_delays := Function.update (Function.update s.total_of_delays 0 0) 1 0
        area_num_in_q := Function.update (Function.update s.area_num_in_q 0 0) 1 0
        area_server_status := Function.update (Function.update s.area_server_status 0 0) 1 0
        area_in_transit := 0
        num_in_transit := 0
        max_in_transit := 0
        num_custs_delayed := 0
        time_last_event := 0
        lcg_calls := s.lcg_calls + 1
        time_next_event :=
          Function.update
            (Function.update
              (Function.update
                (Function.update
                  (Function.update s.time_next_event 1
                    (0 + V.expon s.mean_interarrival s.lcg_calls))
                  2 SENTINEL)
                3 SENTINEL)
              4 SENTINEL)
            5 s.time_end } := by
  simp only [initialize_sim, range_two, List.foldl, initBody, expon]

/-- The anatomy of one pass of the event loop: `timing` selects the first slot `k` with the
minimum time, the statistics are updated, and the handler of event `k` runs. -/
theorem step_cases (V : Variates) (s s1 : State) (h : step V s = Except.ok s1) :
    ∃ k : Nat, 1 ≤ k ∧ k ≤ 5 ∧ s.time_next_event k < MIN_INIT ∧
      (∀ j, 1 ≤ j → j ≤ 5 → s.time_next_event k ≤ s.time_next_event j) ∧
      (∀ j, 1 ≤ j → j < k → s.time_next_event k < s.time_next_event j) ∧
      beforeHandler s = some (update_time_avg_stats
        { s with next_event_type := (k : Int), sim_time := s.time_next_event k }) ∧
      ((k = 1 ∧ queue1_arrival V (update_time_avg_stats
          { s with next_event_type := (k : Int), sim_time := s.time_next_event k })
            = Except.ok s1) ∨
       (k = 2 ∧ queue1_departure V (update_time_avg_stats
          { s with next_event_type := (k : Int), sim_time := s.time_next_event k })
            = Except.ok s1) ∨
       (k = 3 ∧ queue2_arrival V (update_time_avg_stats
          { s with next_event_type := (k : Int), sim_time := s.time_next_event k })
            = Except.ok s1) ∨
       (k = 4 ∧ queue2_departure V (update_time_avg_stats
          { s with next_event_type := (k : Int), sim_time := s.time_next_event k })
            = Except.ok s1) ∨
       (k = 5 ∧ s1 = update_time_avg_stats
          { s with next_event_type := (k : Int), sim_time := s.time_next_event k })) := by
  cases ht : timing s with
  | error e =>
    simp only [step, ht] at h
    cases h
  | ok st =>
    obtain ⟨k, hk1, hk5, hlt, hmin, hfirst, hst⟩ := timing_ok s st ht
    refine ⟨k, hk1, hk5, hlt, hmin, hfirst, ?_, ?_⟩
    · simp only [beforeHandler, ht, hst]
    · simp only [step, ht] at h
      subst hst
      have hnt : (update_time_avg_stats
          { s with next_event_type := (k : Int), sim_time := s.time_next_event k }).next_event_type
            = (k : Int) := by
        rw [update_time_avg_stats_eq]
      unfold dispatch at h
      rw [hnt] at h
      have hk : k = 1 ∨ k = 2 ∨ k = 3 ∨ k = 4 ∨ k = 5 := by omega
      rcases hk with rfl | rfl | rfl | rfl | rfl
      · exact Or.inl ⟨rfl, by simpa using h⟩
      · exact Or.inr (Or.inl ⟨rfl, by simpa using h⟩)
      · exact Or.inr (Or.inr (Or.inl ⟨rfl, by simpa using h⟩))
      · exact Or.inr (Or.inr (Or.inr (Or.inl ⟨rfl, by simpa using h⟩)))
      · exact Or.inr (Or.inr (Or.inr (Or.inr ⟨rfl, by simpa using h.symm⟩)))

end Dynamic

/-! ## What the handlers of `tandem_system.c` return -/

namespace Tandem

theorem range_two_tandem : List.range 2 = [0, 1] := by decide

theorem one_in_range : (0 : Int) ≤ 1 ∧ (1 : Int) < Q_LIMIT + 1 := by
  unfold Q_LIMIT
  decide

theorem writeArr_error (a : Int → ℚ) (i : Int) (v : ℚ) (h : ¬ (0 ≤ i ∧ i < Q_LIMIT + 1)) :
    writeArr a i v = Except.error Fault.outOfRange := by
  unfold writeArr
  rw [if_neg h]

theorem system_arrival_range (V : Variates) (s : State) (hb : s.server_status 0 = BUSY)
    (hl : s.num_in_q 0 < Q_LIMIT) (h0 : ¬ (0 ≤ s.num_in_q 0 + 1)) :
    system_arrival V s = Except.error Fault.outOfRange := by
  have hw := writeArr_error s.time_arrival (s.num_in_q 0 + 1) s.sim_time (fun hc => h0 hc.1)
  have hno : ¬ (s.num_in_q 0 + 1 > Q_LIMIT) := by omega
  simp only [system_arrival, expon, hb, if_true, Function.update_same, hno, if_false, hw]

theorem system_arrival_store (V : Variates) (s : State) (hb : s.server_status 0 = BUSY)
    (hl : s.num_in_q 0 < Q_LIMIT) (h0 : 0 ≤ s.num_in_q 0 + 1) :
    system_arrival V s = Except.ok
      { s with
        lcg_calls := s.lcg_calls + 1
        time_next_event := Function.update s.time_next_event 1
          (s.sim_time + V.expon s.mean_interarrival s.lcg_calls)
        num_in_q := Function.update s.num_in_q 0 (s.num_in_q 0 + 1)
        time_arrival := Function.update s.time_arrival (s.num_in_q 0 + 1) s.sim_time } := by
  have hw := writeArr_ok s.time_arrival (s.num_in_q 0 + 1) s.sim_time ⟨h0, by omega⟩
  have hno : ¬ (s.num_in_q 0 + 1 > Q_LIMIT) := by omega
  simp only [system_arrival, expon, hb, if_true, Function.update_same, hno, if_false, hw]

theorem system_arrival_idle (V : Variates) (s : State) (hi : s.server_status 0 ≠ BUSY) :
    system_arrival V s = Except.ok
      { s with
        lcg_calls := s.lcg_calls + 1 + 1
        total_of_delays := s.total_of_delays + 0
        num_custs_delayed := s.num_custs_delayed + 1
        server_status := Function.update s.server_status 0 BUSY
        time_next_event :=
          Function.update
            (Function.update s.time_next_event 1
              (s.sim_time + V.expon s.mean_interarrival s.lcg_calls))
            3 (s.sim_time + V.expon (s.mean_service 0) (s.lcg_calls + 1)) } := by
  simp only [system_arrival, expon, hi, if_false]

/-- The two ways in which `system_arrival` returns normally. -/
theorem system_arrival_cases (V : Variates) (s s1 : State)
    (h : system_arrival V s = Except.ok s1) :
    (s.server_status 0 = BUSY ∧ s.num_in_q 0 < Q_LIMIT ∧ 0 ≤ s.num_in_q 0 + 1 ∧
      s1 = { s with
        lcg_calls := s.lcg_calls + 1
        time_next_event := Function.update s.time_next_event 1
          (s.sim_time + V.expon s.mean_interarrival s.lcg_calls)
        num_in_q := Function.update s.num_in_q 0 (s.num_in_q 0 + 1)
        time_arrival := Function.update s.time_arrival (s.num_in_q 0 + 1) s.sim_time }) ∨
    (s.server_status 0 ≠ BUSY ∧
      s1 = { s with
        lcg_calls := s.lcg_calls + 1 + 1
        total_of_delays := s.total_of_delays + 0
        num_custs_delayed := s.num_custs_delayed + 1
        server_status := Function.update s.server_status 0 BUSY
        time_next_event :=
          Function.update
            (Function.update s.time_next_event 1
              (s.sim_time + V.expon s.mean_interarrival s.lcg_calls))
            3 (s.sim_time + V.expon (s.mean_service 0) (s.lcg_calls + 1)) }) := by
  by_cases hb : s.server_status 0 = BUSY
  · left
    by_cases ho : Q_LIMIT < s.num_in_q 0 + 1
    · rw [system_arrival_overflow V s hb ho] at h
      cases h
    · have hl : s.num_in_q 0 < Q_LIMIT := by omega
      by_cases h0 : 0 ≤ s.num_in_q 0 + 1
      · rw [system_arrival_store V s hb hl h0] at h
        exact ⟨hb, hl, h0, (Except.ok.inj h).symm⟩
      · rw [system_arrival_range V s hb hl h0] at h
        cases h
  · right
    rw [system_arrival_idle V s hb] at h
    exact ⟨hb, (Except.ok.inj h).symm⟩

theorem queue2_arrival_range (V : Variates) (s : State) (hb : s.server_status 1 = BUSY)
    (hl : s.num_in_q 1 < Q_LIMIT) (h0 : ¬ (0 ≤ s.num_in_q 1 + 1)) :
    queue2_arrival V s = Except.error Fault.outOfRange := by
  have hw := writeArr_error s.second_time_arrival (s.num_in_q 1 + 1) s.sim_time
    (fun hc => h0 hc.1)
  have hno : ¬ (s.num_in_q 1 + 1 > Q_LIMIT) := by omega
  simp only [queue2_arrival, hb, if_true, Function.update_same, hno, if_false, hw]

theorem queue2_arrival_store (V : Variates) (s : State) (hb : s.server_status 1 = BUSY)
    (hl : s.num_in_q 1 < Q_LIMIT) (h0 : 0 ≤ s.num_in_q 1 + 1) :
    queue2_arrival V s = Except.ok
      { s with
        time_next_event := Function.update s.time_next_event 4 SENTINEL
        num_in_q := Function.update s.num_in_q 1 (s.num_in_q 1 + 1)
        second_time_arrival :=
          Function.update s.second_time_arrival (s.num_in_q 1 + 1) s.sim_time } := by
  have hw := writeArr_ok s.second_time_arrival (s.num_in_q 1 + 1) s.sim_time ⟨h0, by omega⟩
  have hno : ¬ (s.num_in_q 1 + 1 > Q_LIMIT) := by omega
  simp only [queue2_arrival, hb, if_true, Function.update_same, hno, if_false, hw]

theorem queue2_arrival_idle_tandem (V : Variates) (s : State)
    (hi : s.server_status 1 ≠ BUSY) :
    queue2_arrival V s = Except.ok
      { s with
        lcg_calls := s.lcg_calls + 1
        total_of_delays := s.total_of_delays + 0
        server_status := Function.update s.server_status 1 BUSY
        time_next_event :=
          Function.update (Function.update s.time_next_event 4 SENTINEL)
            2 (s.sim_time + V.expon (s.mean_service 1) s.lcg_calls) } := by
  simp only [queue2_arrival, expon, hi, if_false]

/-- The two ways in which `queue2_arrival` returns normally. -/
theorem queue2_arrival_cases_tandem (V : Variates) (s s1 : State)
    (h : queue2_arrival V s = Except.ok s1) :
    (s.server_status 1 = BUSY ∧ s.num_in_q 1 < Q_LIMIT ∧ 0 ≤ s.num_in_q 1 + 1 ∧
      s1 = { s with
        time_next_event := Function.update s.time_next_event 4 SENTINEL
        num_in_q := Function.update s.num_in_q 1 (s.num_in_q 1 + 1)
        second_time_arrival :=
          Function.update s.second_time_arrival (s.num_in_q 1 + 1) s.sim_time }) ∨
    (s.server_status 1 ≠ BUSY ∧
      s1 = { s with
        lcg_calls := s.lcg_calls + 1
        total_of_delays := s.total_of_delays + 0
        server_status := Function.update s.server_status 1 BUSY
        time_next_event :=
          Function.update (Function.update s.time_next_event 4 SENTINEL)
            2 (s.sim_time + V.expon (s.mean_service 1) s.lcg_calls) }) := by
  by_cases hb : s.server_status 1 = BUSY
  · left
    by_cases ho : Q_LIMIT < s.num_in_q 1 + 1
    · rw [queue2_arrival_overflow_tandem V s hb ho] at h
      cases h
    · have hl : s.num_in_q 1 < Q_LIMIT := by omega
      by_cases h0 : 0 ≤ s.num_in_q 1 + 1
      · rw [queue2_arrival_store V s hb hl h0] at h
        exact ⟨hb, hl, h0, (Except.ok.inj h).symm⟩
      · rw [queue2_arrival_range V s hb hl h0] at h
        cases h
  · right
    rw [queue2_arrival_idle_tandem V s hb] at h
    exact ⟨hb, (Except.ok.inj h).symm⟩

theorem queue1_departure_empty_tandem (V : Variates) (s : State) (h0 : s.num_in_q 0 = 0) :
    queue1_departure V s = Except.ok
      { s with
        server_status := Function.update s.server_status 0 IDLE
        time_next_event := Function.update s.time_next_event 3 SENTINEL } := by
  simp only [queue1_departure, h0, if_true]

theorem queue1_departure_shift_error (V : Variates) (s : State) (h0 : s.num_in_q 0 ≠ 0)
    (e : Fault) (hs : shiftLoop s.time_arrival (s.num_in_q 0 - 1) = Except.error e) :
    queue1_departure V s = Except.error e := by
  have hr := readArr_ok s.time_arrival 1 one_in_range
  simp only [queue1_departure, expon, h0, if_false, Function.update_same, hr, hs]

theorem queue1_departure_shift (V : Variates) (s : State) (h0 : s.num_in_q 0 ≠ 0)
    (a1 : Int → ℚ) (hs : shiftLoop s.time_arrival (s.num_in_q 0 - 1) = Except.ok a1) :
    queue1_departure V s = Except.ok
      { s with
        num_in_q := Function.update s.num_in_q 0 (s.num_in_q 0 - 1)
        total_of_delays := s.total_of_delays + (s.sim_time - s.time_arrival 1)
        num_custs_delayed := s.num_custs_delayed + 1
        server_status := Function.update s.server_status 0 BUSY
        lcg_calls := s.lcg_calls + 1
        time_next_event := Function.update s.time_next_event 4
          (s.sim_time + V.expon (s.mean_service 0) s.lcg_calls)
        time_arrival := a1 } := by
  have hr := readArr_ok s.time_arrival 1 one_in_range
  simp only [queue1_departure, expon, h0, if_false, Function.update_same, hr, hs]

/-- The two ways in which `queue1_departure` returns normally. -/
theorem queue1_departure_cases_tandem (V : Variates) (s s1 : State)
    (h : queue1_departure V s = Except.ok s1) :
    (s.num_in_q 0 = 0 ∧
      s1 = { s with
        server_status := Function.update s.server_status 0 IDLE
        time_next_event := Function.update s.time_next_event 3 SENTINEL }) ∨
    (s.num_in_q 0 ≠ 0 ∧ ∃ a1, shiftLoop s.time_arrival (s.num_in_q 0 - 1) = Except.ok a1 ∧
      s1 = { s with
        num_in_q := Function.update s.num_in_q 0 (s.num_in_q 0 - 1)
        total_of_delays := s.total_of_delays + (s.sim_time - s.time_arrival 1)
        num_custs_delayed := s.num_custs_delayed + 1
        server_status := Function.update s.server_status 0 BUSY
        lcg_calls := s.lcg_calls + 1
        time_next_event := Function.update s.time_next_event 4
          (s.sim_time + V.expon (s.mean_service 0) s.lcg_calls)
        time_arrival := a1 }) := by
  by_cases h0 : s.num_in_q 0 = 0
  · left
    rw [queue1_departure_empty_tandem V s h0] at h
    exact ⟨h0, (Except.ok.inj h).symm⟩
  · right
    cases hs : shiftLoop s.time_arrival (s.num_in_q 0 - 1) with
    | error e =>
      rw [queue1_departure_shift_error V s h0 e hs] at h
      cases h
    | ok a1 =>
      rw [queue1_departure_shift V s h0 a1 hs] at h
      exact ⟨h0, a1, rfl, (Except.ok.inj h).symm⟩

theorem system_departure_empty (V : Variates) (s : State) (h0 : s.num_in_q 1 = 0) :
    system_departure V s = Except.ok
      { s with
        server_status := Function.update s.server_status 1 IDLE
        time_next_event := Function.update s.time_next_event 2 SENTINEL } := by
  simp only [system_departure, h0, if_true]

theorem system_departure_shift_error (V : Variates) (s : State) (h0 : s.num_in_q 1 ≠ 0)
    (e : Fault) (hs : shiftLoop s.second_time_arrival (s.num_in_q 1 - 1) = Except.error e) :
    system_departure V s = Except.error e := by
  have hr := readArr_ok s.second_time_arrival 1 one_in_range
  simp only [system_departure, expon, h0, if_false, Function.update_same, hr, hs]

theorem system_departure_shift (V : Variates) (s : State) (h0 : s.num_in_q 1 ≠ 0)
    (a1 : Int → ℚ) (hs : shiftLoop s.second_time_arrival (s.num_in_q 1 - 1) = Except.ok a1) :
    system_departure V s = Except.ok
      { s with
        num_in_q := Function.update s.num_in_q 1 (s.num_in_q 1 - 1)
        total_of_delays := s.total_of_delays + (s.sim_time - s.second_time_arrival 1)
        num_custs_delayed := s.num_custs_delayed + 1
        server_status := Function.update s.server_status 1 BUSY
        lcg_calls := s.lcg_calls + 1
        time_next_event := Function.update s.time_next_event 2
          (s.sim_time + V.expon (s.mean_service 1) s.lcg_calls)
        second_time_arrival := a1 } := by
  have hr := readArr_ok s.second_time_arrival 1 one_in_range
  simp only [system_departure, expon, h0, if_false, Function.update_same, hr, hs]

/-- The two ways in which `system_departure` returns normally. -/
theorem system_departure_cases (V : Variates) (s s1 : State)
    (h : system_departure V s = Except.ok s1) :
    (s.num_in_q 1 = 0 ∧
      s1 = { s with
        server_status := Function.update s.server_status 1 IDLE
        time_next_event := Function.update s.time_next_event 2 SENTINEL }) ∨
    (s.num_in_q 1 ≠ 0 ∧
      ∃ a1, shiftLoop s.second_time_arrival (s.num_in_q 1 - 1) = Except.ok a1 ∧
      s1 = { s with
        num_in_q := Function.update s.num_in_q 1 (s.num_in_q 1 - 1)
        total_of_delays := s.total_of_delays + (s.sim_time - s.second_time_arrival 1)
        num_custs_delayed := s.num_custs_delayed + 1
        server_status := Function.update s.server_status 1 BUSY
        lcg_calls := s.lcg_calls + 1
        time_next_event := Function.update s.time_next_event 2
          (s.sim_time + V.expon (s.mean_service 1) s.lcg_calls)
        second_time_arrival := a1 }) := by
  by_cases h0 : s.num_in_q 1 = 0
  · left
    rw [system_departure_empty V s h0] at h
    exact ⟨h0, (Except.ok.inj h).symm⟩
  · right
    cases hs : shiftLoop s.second_time_arrival (s.num_in_q 1 - 1) with
    | error e =>
      rw [system_departure_shift_error V s h0 e hs] at h
      cases h
    | ok a1 =>
      rw [system_departure_shift V s h0 a1 hs] at h
      exact ⟨h0, a1, rfl, (Except.ok.inj h).symm⟩

theorem update_time_avg_stats_eq_tandem (s : State) :
    update_time_avg_stats s =
      { s with
        time_last_event := s.sim_time
        area_num_in_q :=
          Function.update
            (Function.update s.area_num_in_q 0
              (accumulate (s.area_num_in_q 0) (s.num_in_q 0)
                (fl32 (s.sim_time - s.time_last_event))))
            1 (accumulate (s.area_num_in_q 1) (s.num_in_q 1)
                (fl32 (s.sim_time - s.time_last_event)))
        area_server_status :=
          Function.update
            (Function.update s.area_server_status 0
              (accumulate (s.area_server_status 0) (s.server_status 0)
                (fl32 (s.sim_time - s.time_last_event))))
            1 (accumulate (s.area_server_status 1) (s.server_status 1)
                (fl32 (s.sim_time - s.time_last_event))) } := by
  have h10 : (1 : Nat) ≠ 0 := by decide
  simp only [update_time_avg_stats, range_two_tandem, List.foldl, statsBody,
    Function.update_noteq h10]

theorem initialize_sim_eq_tandem (V : Variates) (s : State) :
    initialize_sim V s =
      { s with
        sim_time := 0
        server_status := Function.update (Function.update s.server_status 0 IDLE) 1 IDLE
        num_in_q := Function.update (Function.update s.num_in_q 0 0) 1 0
        area_num_in_q := Function.update (Function.update s.area_num_in_q 0 0) 1 0
        area_server_status := Function.update (Function.update s.area_server_status 0 0) 1 0
        num_custs_delayed := 0
        total_of_delays := 0
        time_last_event := 0
        lcg_calls := s.lcg_calls + 1
        time_next_event :=
          Function.update
            (Function.update
              (Function.update
                (Function.update
                  (Function.update s.time_next_event 1
                    (0 + V.expon s.mean_interarrival s.lcg_calls))
                  2 SENTINEL)
                3 SENTINEL)
              4 SENTINEL)
            5 s.time_end } := by
  simp only [initialize_sim, range_two_tandem, List.foldl, initBody, expon]

/-- The anatomy of one pass of the event loop of `tandem_system.c`. -/
theorem step_cases_tandem (V : Variates) (s s1 : State) (h : step V s = Except.ok s1) :
    ∃ k : Nat, 1 ≤ k ∧ k ≤ 5 ∧ s.time_next_event k < MIN_INIT ∧
      (∀ j, 1 ≤ j → j ≤ 5 → s.time_next_event k ≤ s.time_next_event j) ∧
      (∀ j, 1 ≤ j → j < k → s.time_next_event k < s.time_next_event j) ∧
      beforeHandler s = some (update_time_avg_stats
        { s with next_event_type := (k : Int), sim_time := s.time_next_event k }) ∧
      ((k = 1 ∧ system_arrival V (update_time_avg_stats
          { s with next_event_type := (k : Int), sim_time := s.time_next_event k })
            = Except.ok s1) ∨
       (k = 2 ∧ system_departure V (update_time_avg_stats
          { s with next_event_type := (k : Int), sim_time := s.time_next_event k })
            = Except.ok s1) ∨
       (k = 3 ∧ queue1_departure V (update_time_avg_stats
          { s with next_event_type := (k : Int), sim_time := s.time_next_event k })
            = Except.ok s1) ∨
       (k = 4 ∧ queue2_arrival V (update_time_avg_stats
          { s with next_event_type := (k : Int), sim_time := s.time_next_event k })
            = Except.ok s1) ∨
       (k = 5 ∧ s1 = update_time_avg_stats
          { s with next_event_type := (k : Int), sim_time := s.time_next_event k })) := by
  cases ht : timing s with
  | error e =>
    simp only [step, ht] at h
    cases h
  | ok st =>
    obtain ⟨k, hk1, hk5, hlt, hmin, hfirst, hst⟩ := timing_ok_tandem s st ht
    refine ⟨k, hk1, hk5, hlt, hmin, hfirst, ?_, ?_⟩
    · simp only [beforeHandler, ht, hst]
    · simp only [step, ht] at h
      subst hst
      have hnt : (update_time_avg_stats
          { s with next_event_type := (k : Int), sim_time := s.time_next_event k }).next_event_type
            = (k : Int) := by
        rw [update_time_avg_stats_eq_tandem]
      unfold dispatch at h
      rw [hnt] at h
      have hk : k = 1 ∨ k = 2 ∨ k = 3 ∨ k = 4 ∨ k = 5 := by omega
      rcases hk with rfl | rfl | rfl | rfl | rfl
      · exact Or.inl ⟨rfl, by simpa using h⟩
      · exact Or.inr (Or.inl ⟨rfl, by simpa using h⟩)
      · exact Or.inr (Or.inr (Or.inl ⟨rfl, by simpa using h⟩))
      · exact Or.inr (Or.inr (Or.inr (Or.inl ⟨rfl, by simpa using h⟩)))
      · exact Or.inr (Or.inr (Or.inr (Or.inr ⟨rfl, by simpa using h.symm⟩)))

end Tandem

/-! ## Induction over the reachable states -/

namespace Dynamic

theorem AtTop_invariant (V : Variates) (s0 : State) (P : State → Prop)
    (h0 : P (initialize_sim V s0))
    (hstep : ∀ s s1, P s → step V s = Except.ok s1 → P s1)
    (hinit : ∀ s, P s → P (initialize_sim V s)) :
    ∀ r s, AtTop V s0 r s → P s := by
  intro r s h
  induction h with
  | first => exact h0
  | next _ hs _ ih => exact hstep _ _ ih hs
  | again _ hs _ _ ih => exact hinit _ (hstep _ _ ih hs)

theorem Reachable_invariant (V : Variates) (s0 : State) (P : State → Prop)
    (h0 : P (initialize_sim V s0))
    (hstep : ∀ s s1, P s → step V s = Except.ok s1 → P s1)
    (hinit : ∀ s, P s → P (initialize_sim V s)) :
    ∀ s, Reachable V s0 s → P s := by
  intro s h
  cases h with
  | top ht => exact AtTop_invariant V s0 P h0 hstep hinit _ _ ht
  | last ht hs _ => exact hstep _ _ (AtTop_invariant V s0 P h0 hstep hinit _ _ ht) hs

/-- No pass of the event loop changes slot 5 of the event list or `time_end`. -/
theorem step_keeps_end_slot (V : Variates) (s s1 : State) (h : step V s = Except.ok s1) :
    s1.time_next_event 5 = s.time_next_event 5 ∧ s1.time_end = s.time_end := by
  obtain ⟨k, _, _, _, _, _, _, hc⟩ := step_cases V s s1 h
  rcases hc with ⟨_, h1⟩ | ⟨_, h1⟩ | ⟨_, h1⟩ | ⟨_, h1⟩ | ⟨_, h1⟩
  · rcases queue1_arrival_cases V _ _ h1 with ⟨_, _, _, rfl⟩ | ⟨_, rfl⟩ <;>
      simp [update_time_avg_stats_eq, Function.update_apply]
  · rcases queue1_departure_cases V _ _ h1 with ⟨_, rfl⟩ | ⟨_, x, l, _, rfl⟩ <;>
      simp [update_time_avg_stats_eq, Function.update_apply]
  · rcases queue2_arrival_cases V _ _ h1 with ⟨_, _, _, rfl⟩ | ⟨_, rfl⟩ <;>
      simp only [update_time_avg_stats_eq] <;> split_ifs <;>
      simp [Function.update_apply]
  · rcases queue2_departure_cases V _ _ h1 with ⟨_, rfl⟩ | ⟨_, x, l, _, rfl⟩ <;>
      simp [update_time_avg_stats_eq, Function.update_apply]
  · subst h1
    simp [update_time_avg_stats_eq]

end Dynamic

namespace Tandem

theorem AtTop_invariant_tandem (V : Variates) (s0 : State) (P : State → Prop)
    (h0 : P (initialize_sim V s0))
    (hstep : ∀ s s1, P s → step V s = Except.ok s1 → P s1)
    (hinit : ∀ s, P s → P (initialize_sim V s)) :
    ∀ r s, AtTop V s0 r s → P s := by
  intro r s h
  induction h with
  | first => exact h0
  | next _ hs _ ih => exact hstep _ _ ih hs
  | again _ hs _ _ ih => exact hinit _ (hstep _ _ ih hs)

theorem Reachable_invariant_tandem (V : Variates) (s0 : State) (P : State → Prop)
    (h0 : P (initialize_sim V s0))
    (hstep : ∀ s s1, P s → step V s = Except.ok s1 → P s1)
    (hinit : ∀ s, P s → P (initialize_sim V s)) :
    ∀ s, Reachable V s0 s → P s := by
  intro s h
  cases h with
  | top ht => exact AtTop_invariant_tandem V s0 P h0 hstep hinit _ _ ht
  | last ht hs _ => exact hstep _ _ (AtTop_invariant_tandem V s0 P h0 hstep hinit _ _ ht) hs

/-- No pass of the event loop changes slot 5 of the event list or `time_end`. -/
theorem step_keeps_end_slot_tandem (V : Variates) (s s1 : State)
    (h : step V s = Except.ok s1) :
    s1.time_next_event 5 = s.time_next_event 5 ∧ s1.time_end = s.time_end := by
  obtain ⟨k, _, _, _, _, _, _, hc⟩ := step_cases_tandem V s s1 h
  rcases hc with ⟨_, h1⟩ | ⟨_, h1⟩ | ⟨_, h1⟩ | ⟨_, h1⟩ | ⟨_, h1⟩
  · rcases system_arrival_cases V _ _ h1 with ⟨_, _, _, rfl⟩ | ⟨_, rfl⟩ <;>
      simp [update_time_avg_stats_eq_tandem, Function.update_apply]
  · rcases system_departure_cases V _ _ h1 with ⟨_, rfl⟩ | ⟨_, a1, _, rfl⟩ <;>
      simp [update_time_avg_stats_eq_tandem, Function.update_apply]
  · rcases queue1_departure_cases_tandem V _ _ h1 with ⟨_, rfl⟩ | ⟨_, a1, _, rfl⟩ <;>
      simp [update_time_avg_stats_eq_tandem, Function.update_apply]
  · rcases queue2_arrival_cases_tandem V _ _ h1 with ⟨_, _, _, rfl⟩ | ⟨_, rfl⟩ <;>
      simp [update_time_avg_stats_eq_tandem, Function.update_apply]
  · subst h1
    simp [update_time_avg_stats_eq_tandem]

end Tandem

/-- C16: in both variants `timing` takes the event-list-empty exit if and only if no slot
`1 .. 5` holds a time below `1.0e+29`; and when the run length `time_end` is below `1.0e+29`,
in every state reachable through the replication loop slot 5 still holds `time_end` (no pass
changes it), so that `timing` returns normally from every reachable state. -/
theorem timing_exit_only_on_empty_list (V : Variates) :
    (∀ s : Dynamic.State, Dynamic.timing s = Except.error Fault.eventListEmpty ↔
      ∀ j, 1 ≤ j → j ≤ 5 → ¬ (s.time_next_event j < MIN_INIT)) ∧
    (∀ s : Tandem.State, Tandem.timing s = Except.error Fault.eventListEmpty ↔
      ∀ j, 1 ≤ j → j ≤ 5 → ¬ (s.time_next_event j < MIN_INIT)) ∧
    (∀ s0 s : Dynamic.State, s0.time_end < MIN_INIT → Dynamic.Reachable V s0 s →
      s.time_next_event 5 = s0.time_end ∧ s.time_end = s0.time_end ∧
      ∃ s1, Dynamic.timing s = Except.ok s1) ∧
    (∀ s0 s : Tandem.State, s0.time_end < MIN_INIT → Tandem.Reachable V s0 s →
      s.time_next_event 5 = s0.time_end ∧ s.time_end = s0.time_end ∧
      ∃ s1, Tandem.timing s = Except.ok s1) := by
  refine ⟨Dynamic.timing_error_iff, Tandem.timing_error_iff_tandem, ?_, ?_⟩
  · intro s0 s hlt hr
    have hinv : s.time_next_event 5 = s0.time_end ∧ s.time_end = s0.time_end := by
      refine Dynamic.Reachable_invariant V s0
        (fun s => s.time_next_event 5 = s0.time_end ∧ s.time_end = s0.time_end) ?_ ?_ ?_ s hr
      · simp [Dynamic.initialize_sim_eq]
      · intro a b hab hs
        obtain ⟨h5, he⟩ := Dynamic.step_keeps_end_slot V a b hs
        exact ⟨h5.trans hab.1, he.trans hab.2⟩
      · intro a hab
        simp [Dynamic.initialize_sim_eq, hab.2]
    refine ⟨hinv.1, hinv.2, ?_⟩
    cases ht : Dynamic.timing s with
    | ok s1 => exact ⟨s1, rfl⟩
    | error e =>
      exfalso
      have he : e = Fault.eventListEmpty := by
        unfold Dynamic.timing at ht
        simp only [] at ht
        split_ifs at ht
        exact (Except.error.inj ht).symm
      rw [he, Dynamic.timing_error_iff] at ht
      exact ht 5 (by decide) (by decide) (by rw [hinv.1]; exact hlt)
  · intro s0 s hlt hr
    have hinv : s.time_next_event 5 = s0.time_end ∧ s.time_end = s0.time_end := by
      refine Tandem.Reachable_invariant_tandem V s0
        (fun s => s.time_next_event 5 = s0.time_end ∧ s.time_end = s0.time_end) ?_ ?_ ?_ s hr
      · simp [Tandem.initialize_sim_eq_tandem]
      · intro a b hab hs
        obtain ⟨h5, he⟩ := Tandem.step_keeps_end_slot_tandem V a b hs
        exact ⟨h5.trans hab.1, he.trans hab.2⟩
      · intro a hab
        simp [Tandem.initialize_sim_eq_tandem, hab.2]
    refine ⟨hinv.1, hinv.2, ?_⟩
    cases ht : Tandem.timing s with
    | ok s1 => exact ⟨s1, rfl⟩
    | error e =>
      exfalso
      have he : e = Fault.eventListEmpty := by
        unfold Tandem.timing at ht
        simp only [] at ht
        split_ifs at ht
        exact (Except.error.inj ht).symm
      rw [he, Tandem.timing_error_iff_tandem] at ht
      exact ht 5 (by decide) (by decide) (by rw [hinv.1]; exact hlt)

/-- Witness of C16 on the start of run A in both variants (run length 1000). -/
theorem timing_exit_only_on_empty_list_witness :
    (Demo.dynA.time_next_event 5 = 1000 ∧ Demo.dynA.time_end = 1000 ∧
      ∃ s1, Dynamic.timing Demo.dynA = Except.ok s1) ∧
    (Demo.tanA.time_next_event 5 = 1000 ∧ Demo.tanA.time_end = 1000 ∧
      ∃ s1, Tandem.timing Demo.tanA = Except.ok s1) :=
  have h := timing_exit_only_on_empty_list Demo.variatesA
  ⟨h.2.2.1 (Dynamic.start 1 1 1 1000) Demo.dynA (by decide!)
      (Dynamic.Reachable.top Dynamic.AtTop.first),
    h.2.2.2 (Tandem.start 1 1 1 1000) Demo.tanA (by decide!)
      (Tandem.Reachable.top Tandem.AtTop.first)⟩

/-! ## The clock never runs backwards -/

theorem SlotsFrom_update (t : ℚ) (f : Nat → ℚ) (i : Nat) (v : ℚ) (h : SlotsFrom t f)
    (hv : t ≤ v) : SlotsFrom t (Function.update f i v) := by
  intro j h1 h5
  rw [Function.update_apply]
  split_ifs
  · exact hv
  · exact h j h1 h5

theorem le_sentinel_of_lt_min (t : ℚ) (h : t < MIN_INIT) : t ≤ SENTINEL := by
  have : MIN_INIT ≤ SENTINEL := by
    unfold MIN_INIT SENTINEL
    norm_num
  exact le_trans (le_of_lt h) this

theorem zero_le_sentinel : (0 : ℚ) ≤ SENTINEL := by
  unfold SENTINEL
  norm_num

namespace Dynamic

theorem queue1_arrival_clock (V : Variates) (hV : V.NonNeg) (s s1 : State)
    (h : queue1_arrival V s = Except.ok s1) (hs : SlotsFrom s.sim_time s.time_next_event) :
    SlotsFrom s1.sim_time s1.time_next_event ∧ s1.sim_time = s.sim_time ∧
      s1.time_last_event = s.time_last_event ∧ s1.time_end = s.time_end := by
  rcases queue1_arrival_cases V s s1 h with ⟨_, _, _, rfl⟩ | ⟨_, rfl⟩
  · exact ⟨SlotsFrom_update _ _ _ _ hs (le_add_of_nonneg_right (hV.1 _ _)), rfl, rfl, rfl⟩
  · exact ⟨SlotsFrom_update _ _ _ _
      (SlotsFrom_update _ _ _ _ hs (le_add_of_nonneg_right (hV.1 _ _)))
      (le_add_of_nonneg_right (hV.1 _ _)), rfl, rfl, rfl⟩

theorem queue1_departure_clock (V : Variates) (hV : V.NonNeg) (s s1 : State)
    (h : queue1_departure V s = Except.ok s1) (hs : SlotsFrom s.sim_time s.time_next_event)
    (hlt : s.sim_time < MIN_INIT) :
    SlotsFrom s1.sim_time s1.time_next_event ∧ s1.sim_time = s.sim_time ∧
      s1.time_last_event = s.time_last_event ∧ s1.time_end = s.time_end := by
  rcases queue1_departure_cases V s s1 h with ⟨_, rfl⟩ | ⟨_, x, l, _, rfl⟩
  · exact ⟨SlotsFrom_update _ _ _ _ hs (le_sentinel_of_lt_min _ hlt), rfl, rfl, rfl⟩
  · have hu : (0 : ℚ) ≤ V.mrand s.mrand_calls * ((2 : Int) : ℚ) :=
      mul_nonneg (hV.2 _) (by norm_num)
    exact ⟨SlotsFrom_update _ _ _ _
      (SlotsFrom_update _ _ _ _ hs (le_add_of_nonneg_right (hV.1 _ _)))
      (le_add_of_nonneg_right hu), rfl, rfl, rfl⟩

theorem transit_slots (s : State) (hs : SlotsFrom s.sim_time s.time_next_event)
    (hlt : s.sim_time < MIN_INIT) :
    SlotsFrom s.sim_time
      (if s.num_in_transit = 0 then Function.update s.time_next_event 3 SENTINEL
        else s.time_next_event) := by
  split_ifs
  · exact SlotsFrom_update _ _ _ _ hs (le_sentinel_of_lt_min _ hlt)
  · exact hs

theorem queue2_arrival_clock (V : Variates) (hV : V.NonNeg) (s s1 : State)
    (h : queue2_arrival V s = Except.ok s1) (hs : SlotsFrom s.sim_time s.time_next_event)
    (hlt : s.sim_time < MIN_INIT) :
    SlotsFrom s1.sim_time s1.time_next_event ∧ s1.sim_time = s.sim_time ∧
      s1.time_last_event = s.time_last_event ∧ s1.time_end = s.time_end := by
  rcases queue2_arrival_cases V s s1 h with ⟨_, _, _, rfl⟩ | ⟨_, rfl⟩
  · exact ⟨transit_slots s hs hlt, rfl, rfl, rfl⟩
  · exact ⟨SlotsFrom_update _ _ _ _ (transit_slots s hs hlt)
      (le_add_of_nonneg_right (hV.1 _ _)), rfl, rfl, rfl⟩

theorem queue2_departure_clock (V : Variates) (hV : V.NonNeg) (s s1 : State)
    (h : queue2_departure V s = Except.ok s1) (hs : SlotsFrom s.sim_time s.time_next_event)
    (hlt : s.sim_time < MIN_INIT) :
    SlotsFrom s1.sim_time s1.time_next_event ∧ s1.sim_time = s.sim_time ∧
      s1.time_last_event = s.time_last_event ∧ s1.time_end = s.time_end := by
  rcases queue2_departure_cases V s s1 h with ⟨_, rfl⟩ | ⟨_, x, l, _, rfl⟩
  · exact ⟨SlotsFrom_update _ _ _ _ hs (le_sentinel_of_lt_min _ hlt), rfl, rfl, rfl⟩
  · exact ⟨SlotsFrom_update _ _ _ _ hs (le_add_of_nonneg_right (hV.1 _ _)), rfl, rfl, rfl⟩

theorem entry_clock (s : State) (k : Nat) :
    (update_time_avg_stats
        { s with next_event_type := (k : Int), sim_time := s.time_next_event k }).sim_time
      = s.time_next_event k ∧
    (update_time_avg_stats
        { s with next_event_type := (k : Int), sim_time := s.time_next_event k }).time_next_event
      = s.time_next_event ∧
    (update_time_avg_stats
        { s with next_event_type := (k : Int), sim_time := s.time_next_event k }).time_last_event
      = s.time_next_event k ∧
    (update_time_avg_stats
        { s with next_event_type := (k : Int), sim_time := s.time_next_event k }).time_end
      = s.time_end := by
  simp [update_time_avg_stats_eq]

/-- One pass of the event loop moves the clock to the selected slot time, which is the
minimum of the slots, and leaves every slot at or after the new clock. -/
theorem step_clock (V : Variates) (hV : V.NonNeg) (s s1 : State)
    (h : step V s = Except.ok s1) :
    SlotsFrom s1.sim_time s1.time_next_event ∧ s1.time_last_event = s1.sim_time ∧
      s1.time_end = s.time_end ∧ s1.sim_time < MIN_INIT ∧
      SlotsFrom s1.sim_time s.time_next_event := by
  obtain ⟨k, hk1, hk5, hlt, hmin, _, _, hc⟩ := step_cases V s s1 h
  obtain ⟨e1, e2, e3, e4⟩ := entry_clock s k
  have hs : SlotsFrom
      (update_time_avg_stats
        { s with next_event_type := (k : Int), sim_time := s.time_next_event k }).sim_time
      (update_time_avg_stats
        { s with next_event_type := (k : Int), sim_time := s.time_next_event k }).time_next_event
      := by
    rw [e1, e2]
    exact hmin
  have hl : (update_time_avg_stats
        { s with next_event_type := (k : Int), sim_time := s.time_next_event k }).sim_time
      < MIN_INIT := by
    rw [e1]
    exact hlt
  have key : SlotsFrom s1.sim_time s1.time_next_event ∧
      s1.sim_time = s.time_next_event k ∧ s1.time_last_event = s.time_next_event k ∧
      s1.time_end = s.time_end := by
    rcases hc with ⟨_, h1⟩ | ⟨_, h1⟩ | ⟨_, h1⟩ | ⟨_, h1⟩ | ⟨_, h1⟩
    · obtain ⟨a, b, c, d⟩ := queue1_arrival_clock V hV _ _ h1 hs
      exact ⟨a, b.trans e1, c.trans e3, d.trans e4⟩
    · obtain ⟨a, b, c, d⟩ := queue1_departure_clock V hV _ _ h1 hs hl
      exact ⟨a, b.trans e1, c.trans e3, d.trans e4⟩
    · obtain ⟨a, b, c, d⟩ := queue2_arrival_clock V hV _ _ h1 hs hl
      exact ⟨a, b.trans e1, c.trans e3, d.trans e4⟩
    · obtain ⟨a, b, c, d⟩ := queue2_departure_clock V hV _ _ h1 hs hl
      exact ⟨a, b.trans e1, c.trans e3, d.trans e4⟩
    · rw [h1, e1, e2, e3, e4]
      exact ⟨hmin, rfl, rfl, rfl⟩
  obtain ⟨a, b, c, d⟩ := key
  refine ⟨a, c.trans b.symm, d, by rw [b]; exact hlt, ?_⟩
  rw [b]
  exact hmin

theorem initialize_clock (V : Variates) (hV : V.NonNeg) (s : State) (he : 0 ≤ s.time_end) :
    SlotsFrom (initialize_sim V s).sim_time (initialize_sim V s).time_next_event ∧
      (initialize_sim V s).time_last_event = (initialize_sim V s).sim_time ∧
      (initialize_sim V s).time_end = s.time_end ∧ (initialize_sim V s).sim_time = 0 := by
  rw [initialize_sim_eq]
  refine ⟨?_, rfl, rfl, rfl⟩
  intro j h1 h5
  have hj : j = 1 ∨ j = 2 ∨ j = 3 ∨ j = 4 ∨ j = 5 := by omega
  have hz := zero_le_sentinel
  have hx := hV.1 s.mean_interarrival s.lcg_calls
  rcases hj with rfl | rfl | rfl | rfl | rfl <;> simp [Function.update_apply] <;> assumption

end Dynamic

namespace Tandem

theorem system_arrival_clock (V : Variates) (hV : V.NonNeg) (s s1 : State)
    (h : system_arrival V s = Except.ok s1) (hs : SlotsFrom s.sim_time s.time_next_event) :
    SlotsFrom s1.sim_time s1.time_next_event ∧ s1.sim_time = s.sim_time ∧
      s1.time_last_event = s.time_last_event ∧ s1.time_end = s.time_end := by
  rcases system_arrival_cases V s s1 h with ⟨_, _, _, rfl⟩ | ⟨_, rfl⟩
  · exact ⟨SlotsFrom_update _ _ _ _ hs (le_add_of_nonneg_right (hV.1 _ _)), rfl, rfl, rfl⟩
  · exact ⟨SlotsFrom_update _ _ _ _
      (SlotsFrom_update _ _ _ _ hs (le_add_of_nonneg_right (hV.1 _ _)))
      (le_add_of_nonneg_right (hV.1 _ _)), rfl, rfl, rfl⟩

theorem queue1_departure_clock_tandem (V : Variates) (hV : V.NonNeg) (s s1 : State)
    (h : queue1_departure V s = Except.ok s1) (hs : SlotsFrom s.sim_time s.time_next_event)
    (hlt : s.sim_time < MIN_INIT) :
    SlotsFrom s1.sim_time s1.time_next_event ∧ s1.sim_time = s.sim_time ∧
      s1.time_last_event = s.time_last_event ∧ s1.time_end = s.time_end := by
  rcases queue1_departure_cases_tandem V s s1 h with ⟨_, rfl⟩ | ⟨_, a1, _, rfl⟩
  · exact ⟨SlotsFrom_update _ _ _ _ hs (le_sentinel_of_lt_min _ hlt), rfl, rfl, rfl⟩
  · exact ⟨SlotsFrom_update _ _ _ _ hs (le_add_of_nonneg_right (hV.1 _ _)), rfl, rfl, rfl⟩

theorem queue2_arrival_clock_tandem (V : Variates) (hV : V.NonNeg) (s s1 : State)
    (h : queue2_arrival V s = Except.ok s1) (hs : SlotsFrom s.sim_time s.time_next_event)
    (hlt : s.sim_time < MIN_INIT) :
    SlotsFrom s1.sim_time s1.time_next_event ∧ s1.sim_time = s.sim_time ∧
      s1.time_last_event = s.time_last_event ∧ s1.time_end = s.time_end := by
  rcases queue2_arrival_cases_tandem V s s1 h with ⟨_, _, _, rfl⟩ | ⟨_, rfl⟩
  · exact ⟨SlotsFrom_update _ _ _ _ hs (le_sentinel_of_lt_min _ hlt), rfl, rfl, rfl⟩
  · exact ⟨SlotsFrom_update _ _ _ _
      (SlotsFrom_update _ _ _ _ hs (le_sentinel_of_lt_min _ hlt))
      (le_add_of_nonneg_right (hV.1 _ _)), rfl, rfl, rfl⟩

theorem system_departure_clock (V : Variates) (hV : V.NonNeg) (s s1 : State)
    (h : system_departure V s = Except.ok s1) (hs : SlotsFrom s.sim_time s.time_next_event)
    (hlt : s.sim_time < MIN_INIT) :
    SlotsFrom s1.sim_time s1.time_next_event ∧ s1.sim_time = s.sim_time ∧
      s1.time_last_event = s.time_last_event ∧ s1.time_end = s.time_end := by
  rcases system_departure_cases V s s1 h with ⟨_, rfl⟩ | ⟨_, a1, _, rfl⟩
  · exact ⟨SlotsFrom_update _ _ _ _ hs (le_sentinel_of_lt_min _ hlt), rfl, rfl, rfl⟩
  · exact ⟨SlotsFrom_update _ _ _ _ hs (le_add_of_nonneg_right (hV.1 _ _)), rfl, rfl, rfl⟩

theorem entry_clock_tandem (s : State) (k : Nat) :
    (update_time_avg_stats
        { s with next_event_type := (k : Int), sim_time := s.time_next_event k }).sim_time
      = s.time_next_event k ∧
    (update_time_avg_stats
        { s with next_event_type := (k : Int), sim_time := s.time_next_event k }).time_next_event
      = s.time_next_event ∧
    (update_time_avg_stats
        { s with next_event_type := (k : Int), sim_time := s.time_next_event k }).time_last_event
      = s.time_next_event k ∧
    (update_time_avg_stats
        { s with next_event_type := (k : Int), sim_time := s.time_next_event k }).time_end
      = s.time_end := by
  simp [update_time_avg_stats_eq_tandem]

/-- One pass of the event loop moves the clock to the selected slot time, which is the
minimum of the slots, and leaves every slot at or after the new clock. -/
theorem step_clock_tandem (V : Variates) (hV : V.NonNeg) (s s1 : State)
    (h : step V s = Except.ok s1) :
    SlotsFrom s1.sim_time s1.time_next_event ∧ s1.time_last_event = s1.sim_time ∧
      s1.time_end = s.time_end ∧ s1.sim_time < MIN_INIT ∧
      SlotsFrom s1.sim_time s.time_next_event := by
  obtain ⟨k, hk1, hk5, hlt, hmin, _, _, hc⟩ := step_cases_tandem V s s1 h
  obtain ⟨e1, e2, e3, e4⟩ := entry_clock_tandem s k
  have hs : SlotsFrom
      (update_time_avg_stats
        { s with next_event_type := (k : Int), sim_time := s.time_next_event k }).sim_time
      (update_time_avg_stats
        { s with next_event_type := (k : Int), sim_time := s.time_next_event k }).time_next_event
      := by
    rw [e1, e2]
    exact hmin
  have hl : (update_time_avg_stats
        { s with next_event_type := (k : Int), sim_time := s.time_next_event k }).sim_time
      < MIN_INIT := by
    rw [e1]
    exact hlt
  have key : SlotsFrom s1.sim_time s1.time_next_event ∧
      s1.sim_time = s.time_next_event k ∧ s1.time_last_event = s.time_next_event k ∧
      s1.time_end = s.time_end := by
    rcases hc with ⟨_, h1⟩ | ⟨_, h1⟩ | ⟨_, h1⟩ | ⟨_, h1⟩ | ⟨_, h1⟩
    · obtain ⟨a, b, c, d⟩ := system_arrival_clock V hV _ _ h1 hs
      exact ⟨a, b.trans e1, c.trans e3, d.trans e4⟩
    · obtain ⟨a, b, c, d⟩ := system_departure_clock V hV _ _ h1 hs hl
      exact ⟨a, b.trans e1, c.trans e3, d.trans e4⟩
    · obtain ⟨a, b, c, d⟩ := queue1_departure_clock_tandem V hV _ _ h1 hs hl
      exact ⟨a, b.trans e1, c.trans e3, d.trans e4⟩
    · obtain ⟨a, b, c, d⟩ := queue2_arrival_clock_tandem V hV _ _ h1 hs hl
      exact ⟨a, b.trans e1, c.trans e3, d.trans e4⟩
    · rw [h1, e1, e2, e3, e4]
      exact ⟨hmin, rfl, rfl, rfl⟩
  obtain ⟨a, b, c, d⟩ := key
  refine ⟨a, c.trans b.symm, d, by rw [b]; exact hlt, ?_⟩
  rw [b]
  exact hmin

theorem initialize_clock_tandem (V : Variates) (hV : V.NonNeg) (s : State)
    (he : 0 ≤ s.time_end) :
    SlotsFrom (initialize_sim V s).sim_time (initialize_sim V s).time_next_event ∧
      (initialize_sim V s).time_last_event = (initialize_sim V s).sim_time ∧
      (initialize_sim V s).time_end = s.time_end ∧ (initialize_sim V s).sim_time = 0 := by
  rw [initialize_sim_eq_tandem]
  refine ⟨?_, rfl, rfl, rfl⟩
  intro j h1 h5
  have hj : j = 1 ∨ j = 2 ∨ j = 3 ∨ j = 4 ∨ j = 5 := by omega
  have hz := zero_le_sentinel
  have hx := hV.1 s.mean_interarrival s.lcg_calls
  rcases hj with rfl | rfl | rfl | rfl | rfl <;> simp [Function.update_apply] <;> assumption

end Tandem

/-- C15: for a variate source whose draws are non-negative and a run length `time_end >= 0`,
in every state reachable through the replication loop (both variants) every slot `1 .. 5` of
the event list holds a time `>= sim_time` and `time_last_event <= sim_time`; hence every call
of `timing` from a reachable state returns a clock value `>= ` the previous `sim_time` and
`>= time_last_event`: the clock never decreases from one event to the next within a
replication and every elapsed interval is non-negative. -/
theorem clock_never_decreases (V : Variates) (hV : V.NonNeg) :
    (∀ s0 s : Dynamic.State, 0 ≤ s0.time_end → Dynamic.Reachable V s0 s →
      SlotsFrom s.sim_time s.time_next_event ∧ s.time_last_event ≤ s.sim_time ∧
      ∀ s1, Dynamic.timing s = Except.ok s1 →
        s.sim_time ≤ s1.sim_time ∧ s.time_last_event ≤ s1.sim_time ∧
        0 ≤ s1.sim_time - s.time_last_event) ∧
    (∀ s0 s : Tandem.State, 0 ≤ s0.time_end → Tandem.Reachable V s0 s →
      SlotsFrom s.sim_time s.time_next_event ∧ s.time_last_event ≤ s.sim_time ∧
      ∀ s1, Tandem.timing s = Except.ok s1 →
        s.sim_time ≤ s1.sim_time ∧ s.time_last_event ≤ s1.sim_time ∧
        0 ≤ s1.sim_time - s.time_last_event) := by
  constructor
  · intro s0 s he hr
    have hinv : SlotsFrom s.sim_time s.time_next_event ∧ s.time_last_event = s.sim_time ∧
        s.time_end = s0.time_end := by
      refine Dynamic.Reachable_invariant V s0
        (fun s => SlotsFrom s.sim_time s.time_next_event ∧ s.time_last_event = s.sim_time ∧
          s.time_end = s0.time_end) ?_ ?_ ?_ s hr
      · obtain ⟨a, b, c, _⟩ := Dynamic.initialize_clock V hV s0 he
        exact ⟨a, b, c⟩
      · intro a b hab hs
        obtain ⟨x, y, z, _, _⟩ := Dynamic.step_clock V hV a b hs
        exact ⟨x, y, z.trans hab.2.2⟩
      · intro a hab
        obtain ⟨x, y, z, _⟩ := Dynamic.initialize_clock V hV a (by rw [hab.2.2]; exact he)
        exact ⟨x, y, z.trans hab.2.2⟩
    refine ⟨hinv.1, le_of_eq hinv.2.1, ?_⟩
    intro s1 ht
    obtain ⟨k, hk1, hk5, _, _, _, rfl⟩ := Dynamic.timing_ok s s1 ht
    have hk := hinv.1 k hk1 hk5
    have hl : s.time_last_event ≤ s.time_next_event k := by
      rw [hinv.2.1]
      exact hk
    exact ⟨hk, hl, sub_nonneg.mpr hl⟩
  · intro s0 s he hr
    have hinv : SlotsFrom s.sim_time s.time_next_event ∧ s.time_last_event = s.sim_time ∧
        s.time_end = s0.time_end := by
      refine Tandem.Reachable_invariant_tandem V s0
        (fun s => SlotsFrom s.sim_time s.time_next_event ∧ s.time_last_event = s.sim_time ∧
          s.time_end = s0.time_end) ?_ ?_ ?_ s hr
      · obtain ⟨a, b, c, _⟩ := Tandem.initialize_clock_tandem V hV s0 he
        exact ⟨a, b, c⟩
      · intro a b hab hs
        obtain ⟨x, y, z, _, _⟩ := Tandem.step_clock_tandem V hV a b hs
        exact ⟨x, y, z.trans hab.2.2⟩
      · intro a hab
        obtain ⟨x, y, z, _⟩ :=
          Tandem.initialize_clock_tandem V hV a (by rw [hab.2.2]; exact he)
        exact ⟨x, y, z.trans hab.2.2⟩
    refine ⟨hinv.1, le_of_eq hinv.2.1, ?_⟩
    intro s1 ht
    obtain ⟨k, hk1, hk5, _, _, _, rfl⟩ := Tandem.timing_ok_tandem s s1 ht
    have hk := hinv.1 k hk1 hk5
    have hl : s.time_last_event ≤ s.time_next_event k := by
      rw [hinv.2.1]
      exact hk
    exact ⟨hk, hl, sub_nonneg.mpr hl⟩

theorem variatesA_nonneg : Demo.variatesA.NonNeg := by
  constructor
  · intro mean k
    simp only [Demo.variatesA]
    split_ifs <;> norm_num
  · intro k
    simp only [Demo.variatesA]
    norm_num

/-- Witness of C15 on the start of run A in both variants (non-negative variates, run
length 1000). -/
theorem clock_never_decreases_witness :
    Demo.variatesA.NonNeg ∧
    (SlotsFrom Demo.dynA.sim_time Demo.dynA.time_next_event ∧
      Demo.dynA.time_last_event ≤ Demo.dynA.sim_time ∧
      ∀ s1, Dynamic.timing Demo.dynA = Except.ok s1 →
        Demo.dynA.sim_time ≤ s1.sim_time ∧ Demo.dynA.time_last_event ≤ s1.sim_time ∧
        0 ≤ s1.sim_time - Demo.dynA.time_last_event) ∧
    (SlotsFrom Demo.tanA.sim_time Demo.tanA.time_next_event ∧
      Demo.tanA.time_last_event ≤ Demo.tanA.sim_time ∧
      ∀ s1, Tandem.timing Demo.tanA = Except.ok s1 →
        Demo.tanA.sim_time ≤ s1.sim_time ∧ Demo.tanA.time_last_event ≤ s1.sim_time ∧
        0 ≤ s1.sim_time - Demo.tanA.time_last_event) :=
  have h := clock_never_decreases Demo.variatesA variatesA_nonneg
  ⟨variatesA_nonneg,
    h.1 (Dynamic.start 1 1 1 1000) Demo.dynA (by decide!)
      (Dynamic.Reachable.top Dynamic.AtTop.first),
    h.2 (Tandem.start 1 1 1 1000) Demo.tanA (by decide!)
      (Tandem.Reachable.top Tandem.AtTop.first)⟩

/-! ## The queue counters and the in-transit counter -/

namespace Dynamic

/-- One pass of the event loop, with the state `su` in which the handler is entered named:
the selected event `k`, and the handler call that produced the result. -/
theorem step_entry (V : Variates) (s s1 : State) (h : step V s = Except.ok s1) :
    ∃ (k : Nat) (su : State),
      su = update_time_avg_stats
        { s with next_event_type := (k : Int), sim_time := s.time_next_event k } ∧
      ((k = 1 ∧ queue1_arrival V su = Except.ok s1) ∨
       (k = 2 ∧ queue1_departure V su = Except.ok s1) ∨
       (k = 3 ∧ queue2_arrival V su = Except.ok s1) ∨
       (k = 4 ∧ queue2_departure V su = Except.ok s1) ∨
       (k = 5 ∧ s1 = su)) := by
  obtain ⟨k, _, _, _, _, _, _, hc⟩ := step_cases V s s1 h
  exact ⟨k, _, rfl, hc⟩

theorem entry_counters (s su : State) (k : Nat)
    (hsu : su = update_time_avg_stats
      { s with next_event_type := (k : Int), sim_time := s.time_next_event k }) :
    su.num_in_q = s.num_in_q ∧ su.server_status = s.server_status ∧
    su.num_in_transit = s.num_in_transit ∧ su.next_event_type = (k : Int) ∧
    su.head1 = s.head1 ∧ su.head2 = s.head2 := by
  subst hsu
  simp [update_time_avg_stats_eq]

/-- How one pass of the event loop of `dynamic.c` moves the three counters: `num_in_q[0]`
goes up only in `queue1_arrival` with a busy server and room in the line, down only in
`queue1_departure` with a non-empty line; `num_in_q[1]` likewise with `queue2_arrival` and
`queue2_departure`; `num_in_transit` goes up only in the dequeuing branch of
`queue1_departure` and down only in `queue2_arrival` when it is not zero. -/
theorem step_counters (V : Variates) (s s1 : State) (h : step V s = Except.ok s1) :
    CounterStep (s.num_in_q 0) (s1.num_in_q 0)
      (s1.next_event_type = 1 ∧ s.server_status 0 = BUSY ∧ s.num_in_q 0 < Q_LIMIT)
      (s1.next_event_type = 2 ∧ s.num_in_q 0 ≠ 0 ∧ ∃ x, s.head1 = x :: s1.head1) ∧
    CounterStep (s.num_in_q 1) (s1.num_in_q 1)
      (s1.next_event_type = 3 ∧ s.server_status 1 = BUSY ∧ s.num_in_q 1 < Q_LIMIT)
      (s1.next_event_type = 4 ∧ s.num_in_q 1 ≠ 0 ∧ ∃ x, s.head2 = x :: s1.head2) ∧
    CounterStep s.num_in_transit s1.num_in_transit
      (s1.next_event_type = 2 ∧ s.num_in_q 0 ≠ 0)
      (s1.next_event_type = 3 ∧ s.num_in_transit ≠ 0) := by
  obtain ⟨k, su, hsu, hc⟩ := step_entry V s s1 h
  obtain ⟨e1, e2, e3, e4, e5, e6⟩ := entry_counters s su k hsu
  clear hsu h
  have h10 : (1 : Nat) ≠ 0 := by decide
  have h01 : (0 : Nat) ≠ 1 := by decide
  rcases hc with ⟨hk, h1⟩ | ⟨hk, h1⟩ | ⟨hk, h1⟩ | ⟨hk, h1⟩ | ⟨hk, h1⟩
  · rw [hk] at e4
    rcases queue1_arrival_cases V _ _ h1 with ⟨hb, hl, _, rfl⟩ | ⟨_, rfl⟩
    · rw [e2] at hb
      rw [e1] at hl
      refine ⟨Or.inl ⟨?_, e4, hb, hl⟩, Or.inr (Or.inr ?_), Or.inr (Or.inr e3)⟩
      · simp only [Function.update_same, e1]
      · simp only [Function.update_noteq h10, e1]
    · exact ⟨Or.inr (Or.inr (by rw [e1])), Or.inr (Or.inr (by rw [e1])), Or.inr (Or.inr e3)⟩
  · rw [hk] at e4
    rcases queue1_departure_cases V _ _ h1 with ⟨_, rfl⟩ | ⟨hn, x, l, hh, rfl⟩
    · exact ⟨Or.inr (Or.inr (by rw [e1])), Or.inr (Or.inr (by rw [e1])), Or.inr (Or.inr e3)⟩
    · rw [e1] at hn
      rw [e5] at hh
      refine ⟨Or.inr (Or.inl ⟨?_, e4, hn, x, hh⟩), Or.inr (Or.inr ?_), Or.inl ⟨?_, e4, hn⟩⟩
      · simp only [Function.update_same, e1]
      · simp only [Function.update_noteq h10, e1]
      · simp only [e3]
  · rw [hk] at e4
    have ht : CounterStep s.num_in_transit
        (if su.num_in_transit = 0 then su.num_in_transit else su.num_in_transit - 1)
        (su.next_event_type = 2 ∧ s.num_in_q 0 ≠ 0)
        (su.next_event_type = 3 ∧ s.num_in_transit ≠ 0) := by
      rw [e3]
      by_cases ht : s.num_in_transit = 0
      · exact Or.inr (Or.inr (by rw [if_pos ht]))
      · exact Or.inr (Or.inl ⟨by rw [if_neg ht], e4, ht⟩)
    rcases queue2_arrival_cases V _ _ h1 with ⟨hb, hl, _, rfl⟩ | ⟨_, rfl⟩
    · rw [e2] at hb
      rw [e1] at hl
      refine ⟨Or.inr (Or.inr ?_), Or.inl ⟨?_, e4, hb, hl⟩, ht⟩
      · simp only [Function.update_noteq h01, e1]
      · simp only [Function.update_same, e1]
    · exact ⟨Or.inr (Or.inr (by rw [e1])), Or.inr (Or.inr (by rw [e1])), ht⟩
  · rw [hk] at e4
    rcases queue2_departure_cases V _ _ h1 with ⟨_, rfl⟩ | ⟨hn, x, l, hh, rfl⟩
    · exact ⟨Or.inr (Or.inr (by rw [e1])), Or.inr (Or.inr (by rw [e1])), Or.inr (Or.inr e3)⟩
    · rw [e1] at hn
      rw [e6] at hh
      refine ⟨Or.inr (Or.inr ?_), Or.inr (Or.inl ⟨?_, e4, hn, x, hh⟩), Or.inr (Or.inr e3)⟩
      · simp only [Function.update_noteq h01, e1]
      · simp only [Function.update_same, e1]
  · subst h1
    exact ⟨Or.inr (Or.inr (by rw [e1])), Or.inr (Or.inr (by rw [e1])),
      Or.inr (Or.inr e3)⟩

end Dynamic

namespace Tandem

/-- One pass of the event loop, with the state `su` in which the handler is entered named. -/
theorem step_entry_tandem (V : Variates) (s s1 : State) (h : step V s = Except.ok s1) :
    ∃ (k : Nat) (su : State),
      su = update_time_avg_stats
        { s with next_event_type := (k : Int), sim_time := s.time_next_event k } ∧
      ((k = 1 ∧ system_arrival V su = Except.ok s1) ∨
       (k = 2 ∧ system_departure V su = Except.ok s1) ∨
       (k = 3 ∧ queue1_departure V su = Except.ok s1) ∨
       (k = 4 ∧ queue2_arrival V su = Except.ok s1) ∨
       (k = 5 ∧ s1 = su)) := by
  obtain ⟨k, _, _, _, _, _, _, hc⟩ := step_cases_tandem V s s1 h
  exact ⟨k, _, rfl, hc⟩

theorem entry_counters_tandem (s su : State) (k : Nat)
    (hsu : su = update_time_avg_stats
      { s with next_event_type := (k : Int), sim_time := s.time_next_event k }) :
    su.num_in_q = s.num_in_q ∧ su.server_status = s.server_status ∧
    su.next_event_type = (k : Int) := by
  subst hsu
  simp [update_time_avg_stats_eq_tandem]

/-- How one pass of the event loop of `tandem_system.c` moves the two queue counters:
`num_in_q[0]` goes up only in `system_arrival` with a busy server and room in the line, down
only in `queue1_departure` with a non-empty line; `num_in_q[1]` likewise with `queue2_arrival`
and `system_departure`. -/
theorem step_counters_tandem (V : Variates) (s s1 : State) (h : step V s = Except.ok s1) :
    CounterStep (s.num_in_q 0) (s1.num_in_q 0)
      (s1.next_event_type = 1 ∧ s.server_status 0 = BUSY ∧ s.num_in_q 0 < Q_LIMIT)
      (s1.next_event_type = 3 ∧ s.num_in_q 0 ≠ 0) ∧
    CounterStep (s.num_in_q 1) (s1.num_in_q 1)
      (s1.next_event_type = 4 ∧ s.server_status 1 = BUSY ∧ s.num_in_q 1 < Q_LIMIT)
      (s1.next_event_type = 2 ∧ s.num_in_q 1 ≠ 0) := by
  obtain ⟨k, su, hsu, hc⟩ := step_entry_tandem V s s1 h
  obtain ⟨e1, e2, e4⟩ := entry_counters_tandem s su k hsu
  clear hsu h
  have h10 : (1 : Nat) ≠ 0 := by decide
  have h01 : (0 : Nat) ≠ 1 := by decide
  rcases hc with ⟨hk, h1⟩ | ⟨hk, h1⟩ | ⟨hk, h1⟩ | ⟨hk, h1⟩ | ⟨hk, h1⟩
  · rw [hk] at e4
    rcases system_arrival_cases V _ _ h1 with ⟨hb, hl, _, rfl⟩ | ⟨_, rfl⟩
    · rw [e2] at hb
      rw [e1] at hl
      refine ⟨Or.inl ⟨?_, e4, hb, hl⟩, Or.inr (Or.inr ?_)⟩
      · simp only [Function.update_same, e1]
      · simp only [Function.update_noteq h10, e1]
    · exact ⟨Or.inr (Or.inr (by rw [e1])), Or.inr (Or.inr (by rw [e1]))⟩
  · rw [hk] at e4
    rcases system_departure_cases V _ _ h1 with ⟨_, rfl⟩ | ⟨hn, a1, _, rfl⟩
    · exact ⟨Or.inr (Or.inr (by rw [e1])), Or.inr (Or.inr (by rw [e1]))⟩
    · rw [e1] at hn
      refine ⟨Or.inr (Or.inr ?_), Or.inr (Or.inl ⟨?_, e4, hn⟩)⟩
      · simp only [Function.update_noteq h01, e1]
      · simp only [Function.update_same, e1]
  · rw [hk] at e4
    rcases queue1_departure_cases_tandem V _ _ h1 with ⟨_, rfl⟩ | ⟨hn, a1, _, rfl⟩
    · exact ⟨Or.inr (Or.inr (by rw [e1])), Or.inr (Or.inr (by rw [e1]))⟩
    · rw [e1] at hn
      refine ⟨Or.inr (Or.inl ⟨?_, e4, hn⟩), Or.inr (Or.inr ?_)⟩
      · simp only [Function.update_same, e1]
      · simp only [Function.update_noteq h10, e1]
  · rw [hk] at e4
    rcases queue2_arrival_cases_tandem V _ _ h1 with ⟨hb, hl, _, rfl⟩ | ⟨_, rfl⟩
    · rw [e2] at hb
      rw [e1] at hl
      refine ⟨Or.inr (Or.inr ?_), Or.inl ⟨?_, e4, hb, hl⟩⟩
      · simp only [Function.update_noteq h01, e1]
      · simp only [Function.update_same, e1]
    · exact ⟨Or.inr (Or.inr (by rw [e1])), Or.inr (Or.inr (by rw [e1]))⟩
  · subst h1
    exact ⟨Or.inr (Or.inr (by rw [e1])), Or.inr (Or.inr (by rw [e1]))⟩

end Tandem

/-- C19: in every state reachable through the replication loop (states from which the run
goes on: every pass returned normally) `num_in_q[0]` and `num_in_q[1]` lie in `0 .. Q_LIMIT`
of the program, and in `dynamic.c` `num_in_transit >= 0`. Every pass moves a queue counter by
at most one: up only when the pass ran the arrival handler of that stage and found the server
busy, down only when it ran the completion handler of that stage on a non-empty line (the
branch that dequeues). -/
theorem queue_counters_stay_in_range (V : Variates) :
    (∀ s0 s : Dynamic.State, Dynamic.Reachable V s0 s →
      (0 ≤ s.num_in_q 0 ∧ s.num_in_q 0 ≤ Dynamic.Q_LIMIT) ∧
      (0 ≤ s.num_in_q 1 ∧ s.num_in_q 1 ≤ Dynamic.Q_LIMIT) ∧ 0 ≤ s.num_in_transit) ∧
    (∀ s s1 : Dynamic.State, Dynamic.step V s = Except.ok s1 →
      CounterStep (s.num_in_q 0) (s1.num_in_q 0)
        (s1.next_event_type = 1 ∧ s.server_status 0 = BUSY ∧ s.num_in_q 0 < Dynamic.Q_LIMIT)
        (s1.next_event_type = 2 ∧ s.num_in_q 0 ≠ 0 ∧ ∃ x, s.head1 = x :: s1.head1) ∧
      CounterStep (s.num_in_q 1) (s1.num_in_q 1)
        (s1.next_event_type = 3 ∧ s.server_status 1 = BUSY ∧ s.num_in_q 1 < Dynamic.Q_LIMIT)
        (s1.next_event_type = 4 ∧ s.num_in_q 1 ≠ 0 ∧ ∃ x, s.head2 = x :: s1.head2)) ∧
    (∀ s0 s : Tandem.State, Tandem.Reachable V s0 s →
      (0 ≤ s.num_in_q 0 ∧ s.num_in_q 0 ≤ Tandem.Q_LIMIT) ∧
      (0 ≤ s.num_in_q 1 ∧ s.num_in_q 1 ≤ Tandem.Q_LIMIT)) ∧
    (∀ s s1 : Tandem.State, Tandem.step V s = Except.ok s1 →
      CounterStep (s.num_in_q 0) (s1.num_in_q 0)
        (s1.next_event_type = 1 ∧ s.server_status 0 = BUSY ∧ s.num_in_q 0 < Tandem.Q_LIMIT)
        (s1.next_event_type = 3 ∧ s.num_in_q 0 ≠ 0) ∧
      CounterStep (s.num_in_q 1) (s1.num_in_q 1)
        (s1.next_event_type = 4 ∧ s.server_status 1 = BUSY ∧ s.num_in_q 1 < Tandem.Q_LIMIT)
        (s1.next_event_type = 2 ∧ s.num_in_q 1 ≠ 0)) := by
  have hd : (0 : Int) ≤ Dynamic.Q_LIMIT := by unfold Dynamic.Q_LIMIT; decide
  have ht : (0 : Int) ≤ Tandem.Q_LIMIT := by unfold Tandem.Q_LIMIT; decide
  refine ⟨?_, ?_, ?_, ?_⟩
  · intro s0 s hr
    refine Dynamic.Reachable_invariant V s0
      (fun s => (0 ≤ s.num_in_q 0 ∧ s.num_in_q 0 ≤ Dynamic.Q_LIMIT) ∧
        (0 ≤ s.num_in_q 1 ∧ s.num_in_q 1 ≤ Dynamic.Q_LIMIT) ∧ 0 ≤ s.num_in_transit)
      ?_ ?_ ?_ s hr
    · simp [Dynamic.initialize_sim_eq, hd]
    · intro a b hab hs
      obtain ⟨c0, c1, c2⟩ := Dynamic.step_counters V a b hs
      refine ⟨?_, ?_, ?_⟩
      · rcases c0 with ⟨hb, _, _, hl⟩ | ⟨hb, _, hn, _⟩ | hb <;> omega
      · rcases c1 with ⟨hb, _, _, hl⟩ | ⟨hb, _, hn, _⟩ | hb <;> omega
      · rcases c2 with ⟨hb, _⟩ | ⟨hb, _, hn⟩ | hb <;> omega
    · intro a _
      simp [Dynamic.initialize_sim_eq, hd]
  · intro s s1 hs
    obtain ⟨c0, c1, _⟩ := Dynamic.step_counters V s s1 hs
    exact ⟨c0, c1⟩
  · intro s0 s hr
    refine Tandem.Reachable_invariant_tandem V s0
      (fun s => (0 ≤ s.num_in_q 0 ∧ s.num_in_q 0 ≤ Tandem.Q_LIMIT) ∧
        (0 ≤ s.num_in_q 1 ∧ s.num_in_q 1 ≤ Tandem.Q_LIMIT))
      ?_ ?_ ?_ s hr
    · simp [Tandem.initialize_sim_eq_tandem, ht]
    · intro a b hab hs
      obtain ⟨c0, c1⟩ := Tandem.step_counters_tandem V a b hs
      refine ⟨?_, ?_⟩
      · rcases c0 with ⟨hb, _, _, hl⟩ | ⟨hb, _, hn⟩ | hb <;> omega
      · rcases c1 with ⟨hb, _, _, hl⟩ | ⟨hb, _, hn⟩ | hb <;> omega
    · intro a _
      simp [Tandem.initialize_sim_eq_tandem, ht]
  · intro s s1 hs
    exact Tandem.step_counters_tandem V s s1 hs

/-- Witness of C19: the start of run A is reachable in both variants, and one pass from the
busy states `Demo.dynBusy` and `Demo.tanBusy` returns normally. -/
theorem queue_counters_stay_in_range_witness :
    ((0 ≤ Demo.dynA.num_in_q 0 ∧ Demo.dynA.num_in_q 0 ≤ Dynamic.Q_LIMIT) ∧
      (0 ≤ Demo.dynA.num_in_q 1 ∧ Demo.dynA.num_in_q 1 ≤ Dynamic.Q_LIMIT) ∧
      0 ≤ Demo.dynA.num_in_transit) ∧
    ((0 ≤ Demo.tanA.num_in_q 0 ∧ Demo.tanA.num_in_q 0 ≤ Tandem.Q_LIMIT) ∧
      (0 ≤ Demo.tanA.num_in_q 1 ∧ Demo.tanA.num_in_q 1 ≤ Tandem.Q_LIMIT)) ∧
    (∃ s1, Dynamic.step Demo.variatesA Demo.dynBusy = Except.ok s1 ∧
      CounterStep (Demo.dynBusy.num_in_q 0) (s1.num_in_q 0)
        (s1.next_event_type = 1 ∧ Demo.dynBusy.server_status 0 = BUSY ∧
          Demo.dynBusy.num_in_q 0 < Dynamic.Q_LIMIT)
        (s1.next_event_type = 2 ∧ Demo.dynBusy.num_in_q 0 ≠ 0 ∧
          ∃ x, Demo.dynBusy.head1 = x :: s1.head1)) ∧
    (∃ s1, Tandem.step Demo.variatesA Demo.tanBusy = Except.ok s1 ∧
      CounterStep (Demo.tanBusy.num_in_q 0) (s1.num_in_q 0)
        (s1.next_event_type = 1 ∧ Demo.tanBusy.server_status 0 = BUSY ∧
          Demo.tanBusy.num_in_q 0 < Tandem.Q_LIMIT)
        (s1.next_event_type = 3 ∧ Demo.tanBusy.num_in_q 0 ≠ 0)) :=
  have h := queue_counters_stay_in_range Demo.variatesA
  ⟨h.1 (Dynamic.start 1 1 1 1000) Demo.dynA (Dynamic.Reachable.top Dynamic.AtTop.first),
    h.2.2.1 (Tandem.start 1 1 1 1000) Demo.tanA (Tandem.Reachable.top Tandem.AtTop.first),
    (exists_ok_of_isSome (Dynamic.step Demo.variatesA Demo.dynBusy) (by decide!)).elim
      (fun s1 hs => ⟨s1, hs, (h.2.1 Demo.dynBusy s1 hs).1⟩),
    (exists_ok_of_isSome (Tandem.step Demo.variatesA Demo.tanBusy) (by decide!)).elim
      (fun s1 hs => ⟨s1, hs, (h.2.2.2 Demo.tanBusy s1 hs).1⟩)⟩

/-! ## Idle-server arrivals, the transit slot and the statistics update -/

/-- C12: in run D the fourth pass (`queue1_departure` at time 4) puts the first customer into
transit with delay 1, so its arrival at stage 2 is scheduled for time 5. The fifth pass fires
`queue1_departure` at time 9/2 with a customer waiting; the drawn transit delay is 7/4.
Afterwards slot 3 holds 9/2 + 7/4 = 25/4, not `min(5, 25/4) = 5`: the pending earlier transit
arrival was pushed later, and the customer that left stage 1 at time 4 reaches stage 2 no
earlier than time 25/4, after more than the 2 minutes that bound a transit time. -/
theorem queue1_departure_overwrites_transit_slot :
    Demo.dynD_pass5.map (fun s =>
        (s.next_event_type, s.sim_time, s.num_in_transit, s.time_next_event 3))
      = some (2, 9 / 2, 1, 5) ∧
    Demo.dynD_pass5.map (fun s =>
        (Demo.variatesD.mrand s.mrand_calls * 2,
          min (s.time_next_event 3) (s.sim_time + Demo.variatesD.mrand s.mrand_calls * 2)))
      = some (7 / 4, 5) ∧
    (Demo.dynD_pass5.bind (fun s => (Dynamic.queue1_departure Demo.variatesD s).toOption)).map
        (fun s1 => (s1.num_in_transit, s1.time_next_event 3))
      = some (2, 25 / 4) := by
  decide!

/-- C13: in run A the fourth pass calls `update_time_avg_stats` with `num_in_transit = 1` and
an elapsed interval of 1; `area_in_transit` goes from 0 to 2 (the update stands inside the
two-pass loop over the stages), not to `0 + 1 * 1 = 1`. -/
theorem update_time_avg_stats_counts_transit_twice :
    Demo.dynA_timed4.map (fun s =>
        (s.num_in_transit, s.sim_time - s.time_last_event, s.area_in_transit,
          (Dynamic.update_time_avg_stats s).area_in_transit))
      = some (1, 1, 0, 2) := by
  decide!

/-- C17: run E of `dynamic.c` (run length 3, non-negative variates). The first replication
ends while the customer that arrived at time 2 waits at stage 1, so the second replication
starts with the stage-1 list 0, 2. In the second replication customers arrive at times 1/4,
1/2, 5/8; the completion at time 3/4 adds the delay 3/4 - 0, and the completion at time 1
dequeues the node 2 of the first replication and adds the delay 1 - 2 = -1:
`total_of_delays[0]` is -1/4. -/
theorem stale_node_gives_negative_delay :
    Demo.dynE_end1.map (fun s => (s.next_event_type, s.sim_time, s.num_in_q 0, s.head1))
      = some (5, 3, 1, [0, 2]) ∧
    Demo.dynE_rep2.map (fun s =>
        (Dynamic.history Demo.variatesE 5 s).map
          (fun s1 => (s1.next_event_type, s1.sim_time, s1.total_of_delays 0)))
      = some [(1, 1 / 4, 0), (1, 1 / 2, 0), (1, 5 / 8, 0), (2, 3 / 4, 3 / 4), (2, 1, -1 / 4)] ∧
    Demo.dynE_rep2.map (fun s =>
        (Dynamic.history Demo.variatesE 5 s).map (fun s1 => s1.head1))
      = some [[0, 2], [0, 2, 0], [0, 2, 0, 0], [2, 0, 0], [0, 0]] := by
  decide!

/-! ## A run of length zero -/

namespace Dynamic

end Dynamic

namespace Tandem

end Tandem

namespace Dynamic

theorem handler_transit (V : Variates) (k : Nat) (su s1 : State)
    (hc : (k = 1 ∧ queue1_arrival V su = Except.ok s1) ∨
       (k = 2 ∧ queue1_departure V su = Except.ok s1) ∨
       (k = 3 ∧ queue2_arrival V su = Except.ok s1) ∨
       (k = 4 ∧ queue2_departure V su = Except.ok s1) ∨
       (k = 5 ∧ s1 = su)) :
    s1.max_in_transit = su.max_in_transit ∧ s1.num_in_transit ≤ su.num_in_transit + 1 := by
  rcases hc with ⟨_, h1⟩ | ⟨_, h1⟩ | ⟨_, h1⟩ | ⟨_, h1⟩ | ⟨_, h1⟩
  · rcases queue1_arrival_cases V _ _ h1 with ⟨_, _, _, rfl⟩ | ⟨_, rfl⟩ <;>
      exact ⟨rfl, by simp⟩
  · rcases queue1_departure_cases V _ _ h1 with ⟨_, rfl⟩ | ⟨_, x, l, _, rfl⟩ <;>
      exact ⟨rfl, by simp⟩
  · rcases queue2_arrival_cases V _ _ h1 with ⟨_, _, _, rfl⟩ | ⟨_, rfl⟩ <;>
      refine ⟨rfl, ?_⟩ <;> dsimp only <;> split_ifs <;> omega
  · rcases queue2_departure_cases V _ _ h1 with ⟨_, rfl⟩ | ⟨_, x, l, _, rfl⟩ <;>
      exact ⟨rfl, by simp⟩
  · subst h1
    exact ⟨rfl, by simp⟩

theorem entry_transit (s su : State) (k : Nat)
    (hsu : su = update_time_avg_stats
      { s with next_event_type := (k : Int), sim_time := s.time_next_event k }) :
    su.num_in_transit = s.num_in_transit ∧
    su.max_in_transit =
      (if s.num_in_transit > s.max_in_transit then s.num_in_transit else s.max_in_transit) := by
  subst hsu
  simp [update_time_avg_stats_eq]

end Dynamic

/-- C20 (counterexample): in run A the third pass fires `queue1_departure`, which takes
`num_in_transit` from 0 to 1; in the state it leaves `max_in_transit` is still 0, below
`num_in_transit`. The next pass raises `max_in_transit` to 1 in `update_time_avg_stats`. -/
theorem max_in_transit_lags_behind :
    (Dynamic.history Demo.variatesA 4 Demo.dynA).map
        (fun s => (s.next_event_type, s.num_in_transit, s.max_in_transit))
      = [(1, 0, 0), (1, 0, 0), (2, 1, 0), (3, 0, 1)] := by
  decide!

/-- C20 (amended): in `dynamic.c`, for every pass of the event loop that returns normally,
with `su` the state in which the handler of the pass is entered (after `timing` and
`update_time_avg_stats`): `max_in_transit` does not decrease from the state before the pass to
`su` and is left unchanged by the handler, so it never decreases over the pass; in `su` it is
at least `num_in_transit`; and the handler raises `num_in_transit` by at most one, so that in
the state left by a handler that has just increased `num_in_transit`,
`max_in_transit >= num_in_transit - 1` (the update to `num_in_transit` itself is made by
`update_time_avg_stats` of the next pass). -/
theorem max_in_transit_updated_at_next_event (V : Variates) (s s1 : Dynamic.State)
    (h : Dynamic.step V s = Except.ok s1) :
    ∃ su, Dynamic.beforeHandler s = some su ∧
      s.max_in_transit ≤ su.max_in_transit ∧ su.num_in_transit ≤ su.max_in_transit ∧
      s1.max_in_transit = su.max_in_transit ∧ s.max_in_transit ≤ s1.max_in_transit ∧
      s1.num_in_transit ≤ su.num_in_transit + 1 ∧
      s1.num_in_transit - 1 ≤ s1.max_in_transit := by
  obtain ⟨k, _, _, _, _, _, hb, hc⟩ := Dynamic.step_cases V s s1 h
  obtain ⟨e1, e2⟩ := Dynamic.entry_transit s _ k rfl
  obtain ⟨m1, m2⟩ := Dynamic.handler_transit V k _ s1 hc
  refine ⟨_, hb, ?_, ?_, m1, ?_, m2, ?_⟩
  · rw [e2]
    split_ifs <;> omega
  · rw [e1, e2]
    split_ifs <;> omega
  · rw [m1, e2]
    split_ifs <;> omega
  · rw [m1]
    rw [e1] at m2
    rw [e2]
    split_ifs <;> omega

/-- Witness of C20 (amended) on `Demo.dynQueued`: the pass fires `queue1_departure`, which
takes `num_in_transit` from 1 to 2 while `max_in_transit` was raised to 1 before it. -/
theorem max_in_transit_updated_at_next_event_witness :
    ∃ s1, Dynamic.step Demo.variatesA Demo.dynQueued = Except.ok s1 ∧
      ∃ su, Dynamic.beforeHandler Demo.dynQueued = some su ∧
        Demo.dynQueued.max_in_transit ≤ su.max_in_transit ∧
        su.num_in_transit ≤ su.max_in_transit ∧
        s1.max_in_transit = su.max_in_transit ∧
        Demo.dynQueued.max_in_transit ≤ s1.max_in_transit ∧
        s1.num_in_transit ≤ su.num_in_transit + 1 ∧
        s1.num_in_transit - 1 ≤ s1.max_in_transit :=
  (exists_ok_of_isSome (Dynamic.step Demo.variatesA Demo.dynQueued) (by decide!)).elim
    (fun s1 h => ⟨s1, h, max_in_transit_updated_at_next_event Demo.variatesA Demo.dynQueued s1 h⟩)

/-! ## Server statuses and the area accumulators -/

theorem StatusBits_update (f : Nat → Int) (i : Nat) (v : Int) (h : StatusBits f)
    (hv : v = 0 ∨ v = 1) : StatusBits (Function.update f i v) := by
  unfold StatusBits at h ⊢
  simp only [Function.update_apply]
  constructor <;> split_ifs
  · exact hv
  · exact h.1
  · exact hv
  · exact h.2

theorem busy_bit : BUSY = 0 ∨ BUSY = 1 := Or.inr rfl

theorem idle_bit : IDLE = 0 ∨ IDLE = 1 := Or.inl rfl

theorem bit_nonneg (b : Int) (hb : b = 0 ∨ b = 1) : 0 ≤ b := by
  rcases hb with rfl | rfl <;> decide

namespace Dynamic

theorem handler_areas (V : Variates) (k : Nat) (su s1 : State)
    (hc : (k = 1 ∧ queue1_arrival V su = Except.ok s1) ∨
       (k = 2 ∧ queue1_departure V su = Except.ok s1) ∨
       (k = 3 ∧ queue2_arrival V su = Except.ok s1) ∨
       (k = 4 ∧ queue2_departure V su = Except.ok s1) ∨
       (k = 5 ∧ s1 = su)) :
    s1.area_num_in_q = su.area_num_in_q ∧ s1.area_server_status = su.area_server_status ∧
      s1.sim_time = su.sim_time ∧
      (StatusBits su.server_status → StatusBits s1.server_status) := by
  rcases hc with ⟨_, h1⟩ | ⟨_, h1⟩ | ⟨_, h1⟩ | ⟨_, h1⟩ | ⟨_, h1⟩
  · rcases queue1_arrival_cases V _ _ h1 with ⟨_, _, _, rfl⟩ | ⟨_, rfl⟩
    · exact ⟨rfl, rfl, rfl, fun h => h⟩
    · exact ⟨rfl, rfl, rfl, fun h => StatusBits_update _ _ _ h busy_bit⟩
  · rcases queue1_departure_cases V _ _ h1 with ⟨_, rfl⟩ | ⟨_, x, l, _, rfl⟩
    · exact ⟨rfl, rfl, rfl, fun h => StatusBits_update _ _ _ h idle_bit⟩
    · exact ⟨rfl, rfl, rfl, fun h => StatusBits_update _ _ _ h busy_bit⟩
  · rcases queue2_arrival_cases V _ _ h1 with ⟨_, _, _, rfl⟩ | ⟨_, rfl⟩
    · exact ⟨rfl, rfl, rfl, fun h => h⟩
    · exact ⟨rfl, rfl, rfl, fun h => StatusBits_update _ _ _ h busy_bit⟩
  · rcases queue2_departure_cases V _ _ h1 with ⟨_, rfl⟩ | ⟨_, x, l, _, rfl⟩
    · exact ⟨rfl, rfl, rfl, fun h => StatusBits_update _ _ _ h idle_bit⟩
    · exact ⟨rfl, rfl, rfl, fun h => StatusBits_update _ _ _ h busy_bit⟩
  · subst h1
    exact ⟨rfl, rfl, rfl, fun h => h⟩

theorem entry_areas (s su : State) (k : Nat)
    (hsu : su = update_time_avg_stats
      { s with next_event_type := (k : Int), sim_time := s.time_next_event k }) :
    su.sim_time = s.time_next_event k ∧ su.server_status = s.server_status ∧
    su.area_num_in_q 0 =
      accumulate (s.area_num_in_q 0) (s.num_in_q 0)
        (fl32 (s.time_next_event k - s.time_last_event)) ∧
    su.area_num_in_q 1 =
      accumulate (s.area_num_in_q 1) (s.num_in_q 1)
        (fl32 (s.time_next_event k - s.time_last_event)) ∧
    su.area_server_status 0 =
      accumulate (s.area_server_status 0) (s.server_status 0)
        (fl32 (s.time_next_event k - s.time_last_event)) ∧
    su.area_server_status 1 =
      accumulate (s.area_server_status 1) (s.server_status 1)
        (fl32 (s.time_next_event k - s.time_last_event)) := by
  subst hsu
  simp [update_time_avg_stats_eq, Function.update_apply]

/-- What one pass of the event loop does to the area accumulators and the status bits. -/
theorem step_areas (V : Variates) (s s1 : State) (h : step V s = Except.ok s1) :
    s1.area_num_in_q 0 =
      accumulate (s.area_num_in_q 0) (s.num_in_q 0)
        (fl32 (s1.sim_time - s.time_last_event)) ∧
    s1.area_num_in_q 1 =
      accumulate (s.area_num_in_q 1) (s.num_in_q 1)
        (fl32 (s1.sim_time - s.time_last_event)) ∧
    s1.area_server_status 0 =
      accumulate (s.area_server_status 0) (s.server_status 0)
        (fl32 (s1.sim_time - s.time_last_event)) ∧
    s1.area_server_status 1 =
      accumulate (s.area_server_status 1) (s.server_status 1)
        (fl32 (s1.sim_time - s.time_last_event)) ∧
    (StatusBits s.server_status → StatusBits s1.server_status) := by
  obtain ⟨k, su, hsu, hc⟩ := step_entry V s s1 h
  obtain ⟨e0, e1, e2, e3, e4, e5⟩ := entry_areas s su k hsu
  obtain ⟨a1, a2, a3, a4⟩ := handler_areas V k su s1 hc
  rw [a1, a2, a3, e0]
  rw [e1] at a4
  exact ⟨e2, e3, e4, e5, a4⟩

theorem step_sim_time (V : Variates) (s s1 : State) (h : step V s = Except.ok s1) :
    ∃ k, 1 ≤ k ∧ k ≤ 5 ∧ s1.sim_time = s.time_next_event k := by
  obtain ⟨k, hk1, hk5, _, _, _, _, hc⟩ := step_cases V s s1 h
  obtain ⟨_, _, a3, _⟩ := handler_areas V k _ s1 hc
  obtain ⟨e0, _⟩ := entry_areas s _ k rfl
  exact ⟨k, hk1, hk5, a3.trans e0⟩

end Dynamic

namespace Tandem

theorem handler_areas_tandem (V : Variates) (k : Nat) (su s1 : State)
    (hc : (k = 1 ∧ system_arrival V su = Except.ok s1) ∨
       (k = 2 ∧ system_departure V su = Except.ok s1) ∨
       (k = 3 ∧ queue1_departure V su = Except.ok s1) ∨
       (k = 4 ∧ queue2_arrival V su = Except.ok s1) ∨
       (k = 5 ∧ s1 = su)) :
    s1.area_num_in_q = su.area_num_in_q ∧ s1.area_server_status = su.area_server_status ∧
      s1.sim_time = su.sim_time ∧
      (StatusBits su.server_status → StatusBits s1.server_status) := by
  rcases hc with ⟨_, h1⟩ | ⟨_, h1⟩ | ⟨_, h1⟩ | ⟨_, h1⟩ | ⟨_, h1⟩
  · rcases system_arrival_cases V _ _ h1 with ⟨_, _, _, rfl⟩ | ⟨_, rfl⟩
    · exact ⟨rfl, rfl, rfl, fun h => h⟩
    · exact ⟨rfl, rfl, rfl, fun h => StatusBits_update _ _ _ h busy_bit⟩
  · rcases system_departure_cases V _ _ h1 with ⟨_, rfl⟩ | ⟨_, a1, _, rfl⟩
    · exact ⟨rfl, rfl, rfl, fun h => StatusBits_update _ _ _ h idle_bit⟩
    · exact ⟨rfl, rfl, rfl, fun h => StatusBits_update _ _ _ h busy_bit⟩
  · rcases queue1_departure_cases_tandem V _ _ h1 with ⟨_, rfl⟩ | ⟨_, a1, _, rfl⟩
    · exact ⟨rfl, rfl, rfl, fun h => StatusBits_update _ _ _ h idle_bit⟩
    · exact ⟨rfl, rfl, rfl, fun h => StatusBits_update _ _ _ h busy_bit⟩
  · rcases queue2_arrival_cases_tandem V _ _ h1 with ⟨_, _, _, rfl⟩ | ⟨_, rfl⟩
    · exact ⟨rfl, rfl, rfl, fun h => h⟩
    · exact ⟨rfl, rfl, rfl, fun h => StatusBits_update _ _ _ h busy_bit⟩
  · subst h1
    exact ⟨rfl, rfl, rfl, fun h => h⟩

theorem entry_areas_tandem (s su : State) (k : Nat)
    (hsu : su = update_time_avg_stats
      { s with next_event_type := (k : Int), sim_time := s.time_next_event k }) :
    su.sim_time = s.time_next_event k ∧ su.server_status = s.server_status ∧
    su.area_num_in_q 0 =
      accumulate (s.area_num_in_q 0) (s.num_in_q 0)
        (fl32 (s.time_next_event k - s.time_last_event)) ∧
    su.area_num_in_q 1 =
      accumulate (s.area_num_in_q 1) (s.num_in_q 1)
        (fl32 (s.time_next_event k - s.time_last_event)) ∧
    su.area_server_status 0 =
      accumulate (s.area_server_status 0) (s.server_status 0)
        (fl32 (s.time_next_event k - s.time_last_event)) ∧
    su.area_server_status 1 =
      accumulate (s.area_server_status 1) (s.server_status 1)
        (fl32 (s.time_next_event k - s.time_last_event)) := by
  subst hsu
  simp [update_time_avg_stats_eq_tandem, Function.update_apply]

/-- What one pass of the event loop does to the area accumulators and the status bits. -/
theorem step_areas_tandem (V : Variates) (s s1 : State) (h : step V s = Except.ok s1) :
    s1.area_num_in_q 0 =
      accumulate (s.area_num_in_q 0) (s.num_in_q 0)
        (fl32 (s1.sim_time - s.time_last_event)) ∧
    s1.area_num_in_q 1 =
      accumulate (s.area_num_in_q 1) (s.num_in_q 1)
        (fl32 (s1.sim_time - s.time_last_event)) ∧
    s1.area_server_status 0 =
      accumulate (s.area_server_status 0) (s.server_status 0)
        (fl32 (s1.sim_time - s.time_last_event)) ∧
    s1.area_server_status 1 =
      accumulate (s.area_server_status 1) (s.server_status 1)
        (fl32 (s1.sim_time - s.time_last_event)) ∧
    (StatusBits s.server_status → StatusBits s1.server_status) := by
  obtain ⟨k, su, hsu, hc⟩ := step_entry_tandem V s s1 h
  obtain ⟨e0, e1, e2, e3, e4, e5⟩ := entry_areas_tandem s su k hsu
  obtain ⟨a1, a2, a3, a4⟩ := handler_areas_tandem V k su s1 hc
  rw [a1, a2, a3, e0]
  rw [e1] at a4
  exact ⟨e2, e3, e4, e5, a4⟩

theorem step_sim_time_tandem (V : Variates) (s s1 : State) (h : step V s = Except.ok s1) :
    ∃ k, 1 ≤ k ∧ k ≤ 5 ∧ s1.sim_time = s.time_next_event k := by
  obtain ⟨k, hk1, hk5, _, _, _, _, hc⟩ := step_cases_tandem V s s1 h
  obtain ⟨_, _, a3, _⟩ := handler_areas_tandem V k _ s1 hc
  obtain ⟨e0, _⟩ := entry_areas_tandem s _ k rfl
  exact ⟨k, hk1, hk5, a3.trans e0⟩

end Tandem

/-- One update of the four area accumulators over an interval that does not run backwards
keeps them non-negative, with status bits 0 or 1 and non-negative counters. -/
theorem area_invariant_step (tle sim1 : ℚ) (st0 st1 n0 n1 : Int) (an0 an1 as0 as1 : ℚ)
    (bn0 bn1 bs0 bs1 : ℚ) (hle : tle ≤ sim1)
    (hst0 : st0 = 0 ∨ st0 = 1) (hst1 : st1 = 0 ∨ st1 = 1) (hn0 : 0 ≤ n0) (hn1 : 0 ≤ n1)
    (ha0 : 0 ≤ an0) (ha1 : 0 ≤ an1) (hs0 : 0 ≤ as0) (hs1 : 0 ≤ as1)
    (e0 : bn0 = accumulate an0 n0 (fl32 (sim1 - tle)))
    (e1 : bn1 = accumulate an1 n1 (fl32 (sim1 - tle)))
    (e2 : bs0 = accumulate as0 st0 (fl32 (sim1 - tle)))
    (e3 : bs1 = accumulate as1 st1 (fl32 (sim1 - tle))) :
    (0 ≤ bs0 ∧ 0 ≤ bs1) ∧ 0 ≤ bn0 ∧ 0 ≤ bn1 := by
  have hd : 0 ≤ fl32 (sim1 - tle) := fl32_nonneg _ (sub_nonneg.mpr hle)
  rw [e0, e1, e2, e3]
  exact ⟨⟨accumulate_nonneg _ _ _ hs0 (bit_nonneg st0 hst0) hd,
      accumulate_nonneg _ _ _ hs1 (bit_nonneg st1 hst1) hd⟩,
    accumulate_nonneg _ _ _ ha0 hn0 hd, accumulate_nonneg _ _ _ ha1 hn1 hd⟩

/-- C21 (amended): for every replication with `time_end >= 0` and non-negative variates, in
every reachable state of either program and for each stage `i`: `server_status[i]` is 0 or 1,
`area_server_status[i] >= 0` and `area_num_in_q[i] >= 0`; hence each utilization that `report`
prints, `area_server_status[i] / sim_time`, is not negative whenever `sim_time > 0`. (The
upper bounds `area_server_status[i] <= sim_time` and utilization `<= 1` are not kept by the
rounded accumulation.) -/
theorem areas_and_utilizations_nonneg (V : Variates) (hV : V.NonNeg) :
    (∀ s0 s : Dynamic.State, 0 ≤ s0.time_end → Dynamic.Reachable V s0 s →
      StatusBits s.server_status ∧
      (0 ≤ s.area_server_status 0 ∧ 0 ≤ s.area_server_status 1) ∧
      (0 ≤ s.area_num_in_q 0 ∧ 0 ≤ s.area_num_in_q 1) ∧
      (0 < s.sim_time →
        0 ≤ (Dynamic.report s).utilization1 ∧ 0 ≤ (Dynamic.report s).utilization2)) ∧
    (∀ s0 s : Tandem.State, 0 ≤ s0.time_end → Tandem.Reachable V s0 s →
      StatusBits s.server_status ∧
      (0 ≤ s.area_server_status 0 ∧ 0 ≤ s.area_server_status 1) ∧
      (0 ≤ s.area_num_in_q 0 ∧ 0 ≤ s.area_num_in_q 1) ∧
      (0 < s.sim_time →
        0 ≤ (Tandem.report s).utilization1 ∧ 0 ≤ (Tandem.report s).utilization2)) := by
  constructor
  · intro s0 s he hr
    have hinv : (SlotsFrom s.sim_time s.time_next_event ∧ s.time_last_event = s.sim_time ∧
          s.time_end = s0.time_end) ∧
        (0 ≤ s.num_in_q 0 ∧ 0 ≤ s.num_in_q 1) ∧ StatusBits s.server_status ∧
        ((0 ≤ s.area_server_status 0 ∧ 0 ≤ s.area_server_status 1) ∧
          0 ≤ s.area_num_in_q 0 ∧ 0 ≤ s.area_num_in_q 1) := by
      refine Dynamic.Reachable_invariant V s0
        (fun s => (SlotsFrom s.sim_time s.time_next_event ∧ s.time_last_event = s.sim_time ∧
            s.time_end = s0.time_end) ∧
          (0 ≤ s.num_in_q 0 ∧ 0 ≤ s.num_in_q 1) ∧ StatusBits s.server_status ∧
          ((0 ≤ s.area_server_status 0 ∧ 0 ≤ s.area_server_status 1) ∧
            0 ≤ s.area_num_in_q 0 ∧ 0 ≤ s.area_num_in_q 1)) ?_ ?_ ?_ s hr
      · obtain ⟨a, b, c, _⟩ := Dynamic.initialize_clock V hV s0 he
        refine ⟨⟨a, b, c⟩, ?_⟩
        simp [Dynamic.initialize_sim_eq, StatusBits, IDLE]
      · intro a b hab hs
        obtain ⟨⟨hsl, htl, hte⟩, ⟨hn0, hn1⟩, hst, ⟨hs0, hs1⟩, ha0, ha1⟩ := hab
        obtain ⟨x, y, z, _, _⟩ := Dynamic.step_clock V hV a b hs
        obtain ⟨c0, c1, _⟩ := Dynamic.step_counters V a b hs
        obtain ⟨e0, e1, e2, e3, e4⟩ := Dynamic.step_areas V a b hs
        obtain ⟨k, hk1, hk5, hk⟩ := Dynamic.step_sim_time V a b hs
        have hle : a.time_last_event ≤ b.sim_time := by
          rw [hk, htl]
          exact hsl k hk1 hk5
        refine ⟨⟨x, y, z.trans hte⟩, ⟨?_, ?_⟩, e4 hst, ?_⟩
        · rcases c0 with ⟨hb, _, _, hl⟩ | ⟨hb, _, hn, _⟩ | hb <;> omega
        · rcases c1 with ⟨hb, _, _, hl⟩ | ⟨hb, _, hn, _⟩ | hb <;> omega
        · exact area_invariant_step a.time_last_event b.sim_time
            (a.server_status 0) (a.server_status 1) (a.num_in_q 0) (a.num_in_q 1)
            (a.area_num_in_q 0) (a.area_num_in_q 1) (a.area_server_status 0)
            (a.area_server_status 1) (b.area_num_in_q 0) (b.area_num_in_q 1)
            (b.area_server_status 0) (b.area_server_status 1) hle hst.1 hst.2 hn0 hn1
            ha0 ha1 hs0 hs1 e0 e1 e2 e3
      · intro a hab
        obtain ⟨x, y, z, _⟩ := Dynamic.initialize_clock V hV a (by rw [hab.1.2.2]; exact he)
        refine ⟨⟨x, y, z.trans hab.1.2.2⟩, ?_⟩
        simp [Dynamic.initialize_sim_eq, StatusBits, IDLE]
    obtain ⟨_, _, hst, ⟨hs0, hs1⟩, ha0, ha1⟩ := hinv
    exact ⟨hst, ⟨hs0, hs1⟩, ⟨ha0, ha1⟩, fun hp =>
      ⟨div_nonneg hs0 (le_of_lt hp), div_nonneg hs1 (le_of_lt hp)⟩⟩
  · intro s0 s he hr
    have hinv : (SlotsFrom s.sim_time s.time_next_event ∧ s.time_last_event = s.sim_time ∧
          s.time_end = s0.time_end) ∧
        (0 ≤ s.num_in_q 0 ∧ 0 ≤ s.num_in_q 1) ∧ StatusBits s.server_status ∧
        ((0 ≤ s.area_server_status 0 ∧ 0 ≤ s.area_server_status 1) ∧
          0 ≤ s.area_num_in_q 0 ∧ 0 ≤ s.area_num_in_q 1) := by
      refine Tandem.Reachable_invariant_tandem V s0
        (fun s => (SlotsFrom s.sim_time s.time_next_event ∧ s.time_last_event = s.sim_time ∧
            s.time_end = s0.time_end) ∧
          (0 ≤ s.num_in_q 0 ∧ 0 ≤ s.num_in_q 1) ∧ StatusBits s.server_status ∧
          ((0 ≤ s.area_server_status 0 ∧ 0 ≤ s.area_server_status 1) ∧
            0 ≤ s.area_num_in_q 0 ∧ 0 ≤ s.area_num_in_q 1)) ?_ ?_ ?_ s hr
      · obtain ⟨a, b, c, _⟩ := Tandem.initialize_clock_tandem V hV s0 he
        refine ⟨⟨a, b, c⟩, ?_⟩
        simp [Tandem.initialize_sim_eq_tandem, StatusBits, IDLE]
      · intro a b hab hs
        obtain ⟨⟨hsl, htl, hte⟩, ⟨hn0, hn1⟩, hst, ⟨hs0, hs1⟩, ha0, ha1⟩ := hab
        obtain ⟨x, y, z, _, _⟩ := Tandem.step_clock_tandem V hV a b hs
        obtain ⟨c0, c1⟩ := Tandem.step_counters_tandem V a b hs
        obtain ⟨e0, e1, e2, e3, e4⟩ := Tandem.step_areas_tandem V a b hs
        obtain ⟨k, hk1, hk5, hk⟩ := Tandem.step_sim_time_tandem V a b hs
        have hle : a.time_last_event ≤ b.sim_time := by
          rw [hk, htl]
          exact hsl k hk1 hk5
        refine ⟨⟨x, y, z.trans hte⟩, ⟨?_, ?_⟩, e4 hst, ?_⟩
        · rcases c0 with ⟨hb, _, _, hl⟩ | ⟨hb, _, hn⟩ | hb <;> omega
        · rcases c1 with ⟨hb, _, _, hl⟩ | ⟨hb, _, hn⟩ | hb <;> omega
        · exact area_invariant_step a.time_last_event b.sim_time
            (a.server_status 0) (a.server_status 1) (a.num_in_q 0) (a.num_in_q 1)
            (a.area_num_in_q 0) (a.area_num_in_q 1) (a.area_server_status 0)
            (a.area_server_status 1) (b.area_num_in_q 0) (b.area_num_in_q 1)
            (b.area_server_status 0) (b.area_server_status 1) hle hst.1 hst.2 hn0 hn1
            ha0 ha1 hs0 hs1 e0 e1 e2 e3
      · intro a hab
        obtain ⟨x, y, z, _⟩ :=
          Tandem.initialize_clock_tandem V hV a (by rw [hab.1.2.2]; exact he)
        refine ⟨⟨x, y, z.trans hab.1.2.2⟩, ?_⟩
        simp [Tandem.initialize_sim_eq_tandem, StatusBits, IDLE]
    obtain ⟨_, _, hst, ⟨hs0, hs1⟩, ha0, ha1⟩ := hinv
    exact ⟨hst, ⟨hs0, hs1⟩, ⟨ha0, ha1⟩, fun hp =>
      ⟨div_nonneg hs0 (le_of_lt hp), div_nonneg hs1 (le_of_lt hp)⟩⟩

theorem ok_getD {ε α : Type} (x : Except ε α) (d : α) (h : x.toOption.isSome = true) :
    x = Except.ok (x.toOption.getD d) := by
  cases x with
  | error e => cases h
  | ok a => rfl

theorem dynA_after2_reachable :
    Dynamic.Reachable Demo.variatesA (Dynamic.start 1 1 1 1000) Demo.dynA_after2 :=
  Dynamic.Reachable.top
    (Dynamic.AtTop.next
      (Dynamic.AtTop.next Dynamic.AtTop.first
        (ok_getD (Dynamic.step Demo.variatesA Demo.dynA) Demo.dynA (by decide!))
        (by decide!))
      (ok_getD (Dynamic.step Demo.variatesA Demo.dynA_after1) Demo.dynA (by decide!))
      (by decide!))

theorem tanA_after2_reachable :
    Tandem.Reachable Demo.variatesA (Tandem.start 1 1 1 1000) Demo.tanA_after2 :=
  Tandem.Reachable.top
    (Tandem.AtTop.next
      (Tandem.AtTop.next Tandem.AtTop.first
        (ok_getD (Tandem.step Demo.variatesA Demo.tanA) Demo.tanA (by decide!))
        (by decide!))
      (ok_getD (Tandem.step Demo.variatesA Demo.tanA_after1) Demo.tanA (by decide!))
      (by decide!))

theorem variatesF_nonneg : Demo.variatesF.NonNeg := by
  constructor
  · intro mean k
    simp only [Demo.variatesF]
    split_ifs <;> norm_num
  · intro k
    simp only [Demo.variatesF]
    norm_num

theorem dynF_end_reachable :
    Dynamic.Reachable Demo.variatesF (Dynamic.start 1 1 1 (9830401 / 32768)) Demo.dynF_end :=
  Dynamic.Reachable.last
    (Dynamic.AtTop.next
      (Dynamic.AtTop.next Dynamic.AtTop.first
        (ok_getD (Dynamic.step Demo.variatesF Demo.dynF) Demo.dynF (by decide!))
        (by decide!))
      (ok_getD (Dynamic.step Demo.variatesF Demo.dynF_after1) Demo.dynF (by decide!))
      (by decide!))
    (ok_getD (Dynamic.step Demo.variatesF Demo.dynF_after2) Demo.dynF (by decide!))
    (by decide!)

/-- C21 (counterexample): run F of `dynamic.c` (run length 9830401/32768 = 300.000030517578125,
non-negative variates, all of them binary32 values). The stage-1 server is busy from time 0;
the second arrival comes at 131071/65536 = 1.9999847412109375, where the area is exactly the
clock. The third pass is the end of the simulation: the interval
300.000030517578125 - 1.9999847412109375 is rounded up to 298.00006103515625, the sum with
the area is rounded up again, and `area_server_status[0]` is
9830402/32768 = 300.00006103515625, above `sim_time`; the utilization that `report` prints
from this state is above 1. -/
theorem rounded_area_exceeds_clock :
    (Demo.variatesF.NonNeg ∧ (0 : ℚ) ≤ (Dynamic.start 1 1 1 (9830401 / 32768)).time_end ∧
      Dynamic.Reachable Demo.variatesF (Dynamic.start 1 1 1 (9830401 / 32768)) Demo.dynF_end) ∧
    (Demo.dynF_after2.sim_time = 131071 / 65536 ∧
      Demo.dynF_after2.area_server_status 0 = 131071 / 65536 ∧
      Demo.dynF_after2.server_status 0 = BUSY) ∧
    (Demo.dynF_end.next_event_type = 5 ∧ Demo.dynF_end.sim_time = 9830401 / 32768 ∧
      Demo.dynF_end.area_server_status 0 = 9830402 / 32768) ∧
    ¬ (Demo.dynF_end.area_server_status 0 ≤ Demo.dynF_end.sim_time) ∧
    (0 < Demo.dynF_end.sim_time ∧ ¬ ((Dynamic.report Demo.dynF_end).utilization1 ≤ 1)) :=
  ⟨⟨variatesF_nonneg, by decide!, dynF_end_reachable⟩, by decide!, by decide!, by decide!,
    by decide!⟩

/-- Witness of C21 (amended) on the end of run F, where the area is above the clock: the
status bits, the areas and the utilizations are not negative. -/
theorem areas_and_utilizations_nonneg_witness :
    Demo.variatesF.NonNeg ∧
    (StatusBits Demo.dynF_end.server_status ∧
      (0 ≤ Demo.dynF_end.area_server_status 0 ∧ 0 ≤ Demo.dynF_end.area_server_status 1) ∧
      (0 ≤ Demo.dynF_end.area_num_in_q 0 ∧ 0 ≤ Demo.dynF_end.area_num_in_q 1) ∧
      0 ≤ (Dynamic.report Demo.dynF_end).utilization1 ∧
      0 ≤ (Dynamic.report Demo.dynF_end).utilization2) ∧
    (0 ≤ (Tandem.report Demo.tanA_after2).utilization1 ∧
      0 ≤ (Tandem.report Demo.tanA_after2).utilization2) :=
  have h := areas_and_utilizations_nonneg Demo.variatesA variatesA_nonneg
  have hF := areas_and_utilizations_nonneg Demo.variatesF variatesF_nonneg
  have hd := hF.1 (Dynamic.start 1 1 1 (9830401 / 32768)) Demo.dynF_end (by decide!)
    dynF_end_reachable
  have ht := (h.2 (Tandem.start 1 1 1 1000) Demo.tanA_after2 (by decide!)
    tanA_after2_reachable).2.2.2 (by decide!)
  ⟨variatesF_nonneg, ⟨hd.1, hd.2.1, hd.2.2.1, hd.2.2.2 (by decide!)⟩, ht⟩

/-! ## Busy servers and pending completions -/

theorem scheduled_ne_sentinel (V : Variates) (hB : V.BelowSentinel) (t mean : ℚ) (k : Nat)
    (ht : t < MIN_INIT) : t + V.expon mean k ≠ SENTINEL :=
  ne_of_lt (hB t mean k ht)

theorem idle_ne_busy : IDLE ≠ BUSY := by decide

namespace Dynamic

theorem handler_busy (V : Variates) (hB : V.BelowSentinel) (k : Nat) (su s1 : State)
    (hc : (k = 1 ∧ queue1_arrival V su = Except.ok s1) ∨
       (k = 2 ∧ queue1_departure V su = Except.ok s1) ∨
       (k = 3 ∧ queue2_arrival V su = Except.ok s1) ∨
       (k = 4 ∧ queue2_departure V su = Except.ok s1) ∨
       (k = 5 ∧ s1 = su))
    (hlt : su.sim_time < MIN_INIT)
    (hinv : ServersTrackSlots su.server_status su.num_in_q su.time_next_event 2 4) :
    ServersTrackSlots s1.server_status s1.num_in_q s1.time_next_event 2 4 := by
  obtain ⟨⟨b0, b1⟩, ⟨n0, n1⟩, q0, q1⟩ := hinv
  have hne := fun mean k => scheduled_ne_sentinel V hB su.sim_time mean k hlt
  have hib := idle_ne_busy
  unfold ServersTrackSlots
  rcases hc with ⟨_, h1⟩ | ⟨_, h1⟩ | ⟨_, h1⟩ | ⟨_, h1⟩ | ⟨_, h1⟩
  · rcases queue1_arrival_cases V _ _ h1 with ⟨hb, _, _, rfl⟩ | ⟨_, rfl⟩
    · simp only [Function.update_apply]
      simp
      exact ⟨⟨b0, b1⟩, ⟨by omega, n1⟩, fun _ => hb, q1⟩
    · simp only [Function.update_apply]
      simp
      exact ⟨⟨hne _ _, b1⟩, ⟨n0, n1⟩, q1⟩
  · rcases queue1_departure_cases V _ _ h1 with ⟨hz, rfl⟩ | ⟨hz, x, l, _, rfl⟩
    · simp only [Function.update_apply]
      simp [hib, hz]
      exact ⟨b1, n1, q1⟩
    · simp only [Function.update_apply]
      simp
      exact ⟨⟨hne _ _, b1⟩, ⟨by omega, n1⟩, q1⟩
  · rcases queue2_arrival_cases V _ _ h1 with ⟨hb, _, _, rfl⟩ | ⟨_, rfl⟩
    · by_cases ht : su.num_in_transit = 0
      · simp only [Function.update_apply, if_pos ht]
        simp
        exact ⟨⟨b0, b1⟩, ⟨n0, by omega⟩, q0, fun _ => hb⟩
      · simp only [Function.update_apply, if_neg ht]
        simp
        exact ⟨⟨b0, b1⟩, ⟨n0, by omega⟩, q0, fun _ => hb⟩
    · by_cases ht : su.num_in_transit = 0
      · simp only [Function.update_apply, if_pos ht]
        simp
        exact ⟨⟨b0, hne _ _⟩, ⟨n0, n1⟩, q0⟩
      · simp only [Function.update_apply, if_neg ht]
        simp
        exact ⟨⟨b0, hne _ _⟩, ⟨n0, n1⟩, q0⟩
  · rcases queue2_departure_cases V _ _ h1 with ⟨hz, rfl⟩ | ⟨hz, x, l, _, rfl⟩
    · simp only [Function.update_apply]
      simp [hib, hz]
      exact ⟨b0, n0, q0⟩
    · simp only [Function.update_apply]
      simp
      exact ⟨⟨b0, hne _ _⟩, ⟨n0, by omega⟩, q0⟩
  · subst h1
    exact ⟨⟨b0, b1⟩, ⟨n0, n1⟩, q0, q1⟩

end Dynamic

namespace Dynamic

theorem step_busy (V : Variates) (hB : V.BelowSentinel) (s s1 : State)
    (h : step V s = Except.ok s1)
    (hinv : ServersTrackSlots s.server_status s.num_in_q s.time_next_event 2 4) :
    ServersTrackSlots s1.server_status s1.num_in_q s1.time_next_event 2 4 := by
  obtain ⟨k, _, _, hlt, _, _, _, hc⟩ := step_cases V s s1 h
  obtain ⟨e1, e2, _, _⟩ := entry_clock s k
  obtain ⟨c1, c2, _⟩ := entry_counters s _ k rfl
  refine handler_busy V hB k _ s1 hc ?_ ?_
  · rw [e1]
    exact hlt
  · rw [c1, c2, e2]
    exact hinv

theorem initialize_busy (V : Variates) (s : State) :
    ServersTrackSlots (initialize_sim V s).server_status (initialize_sim V s).num_in_q
      (initialize_sim V s).time_next_event 2 4 := by
  rw [initialize_sim_eq]
  unfold ServersTrackSlots
  simp [Function.update_apply, idle_ne_busy]

end Dynamic

namespace Tandem

theorem handler_busy_tandem (V : Variates) (hB : V.BelowSentinel) (k : Nat) (su s1 : State)
    (hc : (k = 1 ∧ system_arrival V su = Except.ok s1) ∨
       (k = 2 ∧ system_departure V su = Except.ok s1) ∨
       (k = 3 ∧ queue1_departure V su = Except.ok s1) ∨
       (k = 4 ∧ queue2_arrival V su = Except.ok s1) ∨
       (k = 5 ∧ s1 = su))
    (hlt : su.sim_time < MIN_INIT)
    (hinv : ServersTrackSlots su.server_status su.num_in_q su.time_next_event 3 2) :
    ServersTrackSlots s1.server_status s1.num_in_q s1.time_next_event 3 2 := by
  obtain ⟨⟨b0, b1⟩, ⟨n0, n1⟩, q0, q1⟩ := hinv
  have hne := fun mean k => scheduled_ne_sentinel V hB su.sim_time mean k hlt
  have hib := idle_ne_busy
  unfold ServersTrackSlots
  rcases hc with ⟨_, h1⟩ | ⟨_, h1⟩ | ⟨_, h1⟩ | ⟨_, h1⟩ | ⟨_, h1⟩
  · rcases system_arrival_cases V _ _ h1 with ⟨hb, _, _, rfl⟩ | ⟨_, rfl⟩
    · simp only [Function.update_apply]
      simp
      exact ⟨⟨b0, b1⟩, ⟨by omega, n1⟩, fun _ => hb, q1⟩
    · simp only [Function.update_apply]
      simp
      exact ⟨⟨hne _ _, b1⟩, ⟨n0, n1⟩, q1⟩
  · rcases system_departure_cases V _ _ h1 with ⟨hz, rfl⟩ | ⟨hz, a1, _, rfl⟩
    · simp only [Function.update_apply]
      simp [hib, hz]
      exact ⟨b0, n0, q0⟩
    · simp only [Function.update_apply]
      simp
      exact ⟨⟨b0, hne _ _⟩, ⟨n0, by omega⟩, q0⟩
  · rcases queue1_departure_cases_tandem V _ _ h1 with ⟨hz, rfl⟩ | ⟨hz, a1, _, rfl⟩
    · simp only [Function.update_apply]
      simp [hib, hz]
      exact ⟨b1, n1, q1⟩
    · have hp : 0 < su.num_in_q 0 := by omega
      simp only [Function.update_apply]
      simp
      exact ⟨⟨b0.mp (q0 hp), b1⟩, ⟨by omega, n1⟩, q1⟩
  · rcases queue2_arrival_cases_tandem V _ _ h1 with ⟨hb, _, _, rfl⟩ | ⟨_, rfl⟩
    · simp only [Function.update_apply]
      simp
      exact ⟨⟨b0, b1⟩, ⟨n0, by omega⟩, q0, fun _ => hb⟩
    · simp only [Function.update_apply]
      simp
      exact ⟨⟨b0, hne _ _⟩, ⟨n0, n1⟩, q0⟩
  · subst h1
    exact ⟨⟨b0, b1⟩, ⟨n0, n1⟩, q0, q1⟩

theorem step_busy_tandem (V : Variates) (hB : V.BelowSentinel) (s s1 : State)
    (h : step V s = Except.ok s1)
    (hinv : ServersTrackSlots s.server_status s.num_in_q s.time_next_event 3 2) :
    ServersTrackSlots s1.server_status s1.num_in_q s1.time_next_event 3 2 := by
  obtain ⟨k, _, _, hlt, _, _, _, hc⟩ := step_cases_tandem V s s1 h
  obtain ⟨e1, e2, _, _⟩ := entry_clock_tandem s k
  obtain ⟨c1, c2, _⟩ := entry_counters_tandem s _ k rfl
  refine handler_busy_tandem V hB k _ s1 hc ?_ ?_
  · rw [e1]
    exact hlt
  · rw [c1, c2, e2]
    exact hinv

theorem initialize_busy_tandem (V : Variates) (s : State) :
    ServersTrackSlots (initialize_sim V s).server_status (initialize_sim V s).num_in_q
      (initialize_sim V s).time_next_event 3 2 := by
  rw [initialize_sim_eq_tandem]
  unfold ServersTrackSlots
  simp [Function.update_apply, idle_ne_busy]

end Tandem

/-- C22: in both programs, when every time scheduled from a clock value below `1.0e+29` stays
below the sentinel `1.0e+30`, every state reachable between events of a replication has: the
server of a stage is `BUSY` if and only if the service-completion slot of that stage holds a
time other than the sentinel (slots 2 and 4 in `dynamic.c`, slots 3 and 2 in
`tandem_system.c`), and the queue counter of a stage is positive only while its server is
`BUSY`; so a positive counter always comes with a busy server and a pending completion. -/
theorem busy_iff_completion_pending (V : Variates) (hB : V.BelowSentinel) :
    (∀ s0 s : Dynamic.State, Dynamic.Reachable V s0 s →
      ((s.server_status 0 = BUSY ↔ s.time_next_event 2 ≠ SENTINEL) ∧
        (s.server_status 1 = BUSY ↔ s.time_next_event 4 ≠ SENTINEL)) ∧
      ((0 < s.num_in_q 0 → s.server_status 0 = BUSY) ∧
        (0 < s.num_in_q 1 → s.server_status 1 = BUSY)) ∧
      ((0 < s.num_in_q 0 → s.time_next_event 2 ≠ SENTINEL) ∧
        (0 < s.num_in_q 1 → s.time_next_event 4 ≠ SENTINEL))) ∧
    (∀ s0 s : Tandem.State, Tandem.Reachable V s0 s →
      ((s.server_status 0 = BUSY ↔ s.time_next_event 3 ≠ SENTINEL) ∧
        (s.server_status 1 = BUSY ↔ s.time_next_event 2 ≠ SENTINEL)) ∧
      ((0 < s.num_in_q 0 → s.server_status 0 = BUSY) ∧
        (0 < s.num_in_q 1 → s.server_status 1 = BUSY)) ∧
      ((0 < s.num_in_q 0 → s.time_next_event 3 ≠ SENTINEL) ∧
        (0 < s.num_in_q 1 → s.time_next_event 2 ≠ SENTINEL))) := by
  constructor
  · intro s0 s hr
    have hinv : ServersTrackSlots s.server_status s.num_in_q s.time_next_event 2 4 :=
      Dynamic.Reachable_invariant V s0
        (fun s => ServersTrackSlots s.server_status s.num_in_q s.time_next_event 2 4)
        (Dynamic.initialize_busy V s0) (fun a b hab hs => Dynamic.step_busy V hB a b hs hab)
        (fun a _ => Dynamic.initialize_busy V a) s hr
    obtain ⟨⟨b0, b1⟩, _, q0, q1⟩ := hinv
    exact ⟨⟨b0, b1⟩, ⟨q0, q1⟩, fun hp => b0.mp (q0 hp), fun hp => b1.mp (q1 hp)⟩
  · intro s0 s hr
    have hinv : ServersTrackSlots s.server_status s.num_in_q s.time_next_event 3 2 :=
      Tandem.Reachable_invariant_tandem V s0
        (fun s => ServersTrackSlots s.server_status s.num_in_q s.time_next_event 3 2)
        (Tandem.initialize_busy_tandem V s0)
        (fun a b hab hs => Tandem.step_busy_tandem V hB a b hs hab)
        (fun a _ => Tandem.initialize_busy_tandem V a) s hr
    obtain ⟨⟨b0, b1⟩, _, q0, q1⟩ := hinv
    exact ⟨⟨b0, b1⟩, ⟨q0, q1⟩, fun hp => b0.mp (q0 hp), fun hp => b1.mp (q1 hp)⟩

theorem variatesA_below_sentinel : Demo.variatesA.BelowSentinel := by
  intro t mean k ht
  have h1 : Demo.variatesA.expon mean k ≤ 100 := by
    simp only [Demo.variatesA]
    split_ifs <;> norm_num
  unfold MIN_INIT at ht
  unfold SENTINEL
  have h2 : (10 : ℚ) ^ 29 + 100 < 10 ^ 30 := by norm_num
  linarith

/-- Witness of C22 on run A after two passes in both variants: one customer waits at stage 1,
whose server is busy with a completion pending at time 6; stage 2 is idle with the sentinel
in its completion slot. -/
theorem busy_iff_completion_pending_witness :
    Demo.variatesA.BelowSentinel ∧
    (Demo.dynA_after2.num_in_q 0 = 1 ∧ Demo.dynA_after2.time_next_event 2 = 6 ∧
      Demo.dynA_after2.server_status 1 = IDLE) ∧
    (((Demo.dynA_after2.server_status 0 = BUSY ↔
          Demo.dynA_after2.time_next_event 2 ≠ SENTINEL) ∧
        (Demo.dynA_after2.server_status 1 = BUSY ↔
          Demo.dynA_after2.time_next_event 4 ≠ SENTINEL)) ∧
      (0 < Demo.dynA_after2.num_in_q 0 → Demo.dynA_after2.server_status 0 = BUSY)) ∧
    (Demo.tanA_after2.num_in_q 0 = 1 ∧ Demo.tanA_after2.time_next_event 3 = 6 ∧
      Demo.tanA_after2.server_status 1 = IDLE) ∧
    (((Demo.tanA_after2.server_status 0 = BUSY ↔
          Demo.tanA_after2.time_next_event 3 ≠ SENTINEL) ∧
        (Demo.tanA_after2.server_status 1 = BUSY ↔
          Demo.tanA_after2.time_next_event 2 ≠ SENTINEL)) ∧
      (0 < Demo.tanA_after2.num_in_q 0 → Demo.tanA_after2.server_status 0 = BUSY)) :=
  have h := busy_iff_completion_pending Demo.variatesA variatesA_below_sentinel
  have hd := h.1 (Dynamic.start 1 1 1 1000) Demo.dynA_after2 dynA_after2_reachable
  have ht := h.2 (Tandem.start 1 1 1 1000) Demo.tanA_after2 tanA_after2_reachable
  ⟨variatesA_below_sentinel, ⟨by decide!, by decide!, by decide!⟩, ⟨hd.1, hd.2.1.1⟩,
    ⟨by decide!, by decide!, by decide!⟩, ⟨ht.1, ht.2.1.1⟩⟩

/-! ## Array indices of `tandem_system.c` -/

namespace Tandem

theorem shiftBody_fault (a : Int → ℚ) (i : Nat) (e : Fault)
    (h : shiftBody a i = Except.error e) :
    e = Fault.outOfRange ∧ ¬ (0 ≤ (i : Int) + 1 ∧ (i : Int) + 1 < Q_LIMIT + 1) := by
  by_cases hr : (i : Int) + 1 < Q_LIMIT + 1
  · rw [shiftBody_ok a i hr] at h
    cases h
  · have hn : ¬ (0 ≤ (i : Int) + 1 ∧ (i : Int) + 1 < Q_LIMIT + 1) := fun hc => hr hc.2
    unfold shiftBody readArr at h
    rw [if_neg hn] at h
    exact ⟨(Except.error.inj h).symm, hn⟩

theorem forIndices_shift_fault (l : List Nat) (a : Int → ℚ) (e : Fault)
    (h : forIndices shiftBody l a = Except.error e) :
    e = Fault.outOfRange ∧
      ∃ i ∈ l, ¬ (0 ≤ (i : Int) + 1 ∧ (i : Int) + 1 < Q_LIMIT + 1) := by
  induction l generalizing a with
  | nil => cases h
  | cons i rest ih =>
    rw [forIndices_cons] at h
    cases hb : shiftBody a i with
    | error e1 =>
      rw [hb] at h
      have he : e1 = e := Except.error.inj h
      subst he
      obtain ⟨h1, h2⟩ := shiftBody_fault a i e1 hb
      exact ⟨h1, i, List.mem_cons_self _ _, h2⟩
    | ok a1 =>
      rw [hb] at h
      obtain ⟨h1, j, hj, h2⟩ := ih a1 h
      exact ⟨h1, j, List.mem_cons_of_mem _ hj, h2⟩

/-- A fault of the shift loop is an out-of-range access at one of the listed indices. -/
theorem shiftLoop_fault (a : Int → ℚ) (n : Int) (e : Fault)
    (h : shiftLoop a n = Except.error e) :
    e = Fault.outOfRange ∧ ∃ i ∈ shiftIndices n, ¬ (0 ≤ i ∧ i < Q_LIMIT + 1) := by
  obtain ⟨h1, j, hj, h2⟩ := forIndices_shift_fault _ a e h
  refine ⟨h1, (j : Int) + 1, ?_, h2⟩
  unfold shiftIndices
  rw [List.mem_flatMap]
  exact ⟨j, hj, List.mem_cons_self _ _⟩

theorem shiftIndices_bounds (n : Int) (hn : n + 1 ≤ Q_LIMIT) :
    ∀ i ∈ shiftIndices n, 1 ≤ i ∧ i ≤ Q_LIMIT := by
  intro i hi
  unfold shiftIndices at hi
  rw [List.mem_flatMap] at hi
  obtain ⟨j, hj, hij⟩ := hi
  rw [List.mem_range'_1] at hj
  have hjn : (j : Int) ≤ n := by omega
  simp only [List.mem_cons, List.mem_singleton, List.not_mem_nil, or_false] at hij
  rcases hij with rfl | rfl <;> omega

end Tandem

namespace Tandem

/-- An out-of-range fault of `system_arrival` is an access at a listed index outside the
declared bounds. -/
theorem system_arrival_fault (V : Variates) (s : State)
    (h : system_arrival V s = Except.error Fault.outOfRange) :
    ∃ i ∈ system_arrival_indices s, ¬ (0 ≤ i ∧ i < Q_LIMIT + 1) := by
  by_cases hb : s.server_status 0 = BUSY
  · by_cases ho : Q_LIMIT < s.num_in_q 0 + 1
    · rw [system_arrival_overflow V s hb ho] at h
      cases h
    · by_cases h0 : 0 ≤ s.num_in_q 0 + 1
      · rw [system_arrival_store V s hb (by omega) h0] at h
        cases h
      · refine ⟨s.num_in_q 0 + 1, ?_, fun hc => h0 hc.1⟩
        unfold system_arrival_indices
        rw [if_pos hb, if_neg (by omega)]
        exact List.mem_singleton.mpr rfl
  · rw [system_arrival_idle V s hb] at h
    cases h

theorem queue2_arrival_fault_tandem (V : Variates) (s : State)
    (h : queue2_arrival V s = Except.error Fault.outOfRange) :
    ∃ i ∈ queue2_arrival_indices s, ¬ (0 ≤ i ∧ i < Q_LIMIT + 1) := by
  by_cases hb : s.server_status 1 = BUSY
  · by_cases ho : Q_LIMIT < s.num_in_q 1 + 1
    · rw [queue2_arrival_overflow_tandem V s hb ho] at h
      cases h
    · by_cases h0 : 0 ≤ s.num_in_q 1 + 1
      · rw [queue2_arrival_store V s hb (by omega) h0] at h
        cases h
      · refine ⟨s.num_in_q 1 + 1, ?_, fun hc => h0 hc.1⟩
        unfold queue2_arrival_indices
        rw [if_pos hb, if_neg (by omega)]
        exact List.mem_singleton.mpr rfl
  · rw [queue2_arrival_idle_tandem V s hb] at h
    cases h

theorem queue1_departure_fault_tandem (V : Variates) (s : State) (e : Fault)
    (h : queue1_departure V s = Except.error e) :
    e = Fault.outOfRange ∧ ∃ i ∈ queue1_departure_indices s, ¬ (0 ≤ i ∧ i < Q_LIMIT + 1) := by
  by_cases h0 : s.num_in_q 0 = 0
  · rw [queue1_departure_empty_tandem V s h0] at h
    cases h
  · cases hs : shiftLoop s.time_arrival (s.num_in_q 0 - 1) with
    | ok a1 =>
      rw [queue1_departure_shift V s h0 a1 hs] at h
      cases h
    | error e1 =>
      rw [queue1_departure_shift_error V s h0 e1 hs] at h
      have he : e1 = e := Except.error.inj h
      subst he
      obtain ⟨h1, i, hi, h2⟩ := shiftLoop_fault _ _ e1 hs
      refine ⟨h1, i, ?_, h2⟩
      unfold queue1_departure_indices
      rw [if_neg h0]
      exact List.mem_cons_of_mem _ hi

theorem system_departure_fault (V : Variates) (s : State) (e : Fault)
    (h : system_departure V s = Except.error e) :
    e = Fault.outOfRange ∧ ∃ i ∈ system_departure_indices s, ¬ (0 ≤ i ∧ i < Q_LIMIT + 1) := by
  by_cases h0 : s.num_in_q 1 = 0
  · rw [system_departure_empty V s h0] at h
    cases h
  · cases hs : shiftLoop s.second_time_arrival (s.num_in_q 1 - 1) with
    | ok a1 =>
      rw [system_departure_shift V s h0 a1 hs] at h
      cases h
    | error e1 =>
      rw [system_departure_shift_error V s h0 e1 hs] at h
      have he : e1 = e := Except.error.inj h
      subst he
      obtain ⟨h1, i, hi, h2⟩ := shiftLoop_fault _ _ e1 hs
      refine ⟨h1, i, ?_, h2⟩
      unfold system_departure_indices
      rw [if_neg h0]
      exact List.mem_cons_of_mem _ hi

theorem arrival_indices_bounds (s : State) (j : Nat) (h0 : 0 ≤ s.num_in_q j) (b : Prop)
    [Decidable b] :
    ∀ i ∈ (if b then (if s.num_in_q j + 1 > Q_LIMIT then [] else [s.num_in_q j + 1]) else []),
      1 ≤ i ∧ i ≤ Q_LIMIT := by
  intro i hi
  split_ifs at hi with h1 h2
  · cases hi
  · rw [List.mem_singleton] at hi
    omega
  · cases hi

theorem departure_indices_bounds (s : State) (j : Nat) (hl : s.num_in_q j ≤ Q_LIMIT) :
    ∀ i ∈ (if s.num_in_q j = 0 then [] else 1 :: shiftIndices (s.num_in_q j - 1)),
      1 ≤ i ∧ i ≤ Q_LIMIT := by
  intro i hi
  split_ifs at hi with h1
  · cases hi
  · rw [List.mem_cons] at hi
    rcases hi with rfl | hi
    · unfold Q_LIMIT
      decide
    · exact shiftIndices_bounds _ (by omega) i hi

/-- With both counters in `0 .. Q_LIMIT`, every index of every handler lies in
`1 .. Q_LIMIT`. -/
theorem handler_indices_bounds (s : State)
    (h0 : 0 ≤ s.num_in_q 0 ∧ s.num_in_q 0 ≤ Q_LIMIT)
    (h1 : 0 ≤ s.num_in_q 1 ∧ s.num_in_q 1 ≤ Q_LIMIT) :
    (∀ i ∈ system_arrival_indices s, 1 ≤ i ∧ i ≤ Q_LIMIT) ∧
    (∀ i ∈ queue1_departure_indices s, 1 ≤ i ∧ i ≤ Q_LIMIT) ∧
    (∀ i ∈ queue2_arrival_indices s, 1 ≤ i ∧ i ≤ Q_LIMIT) ∧
    (∀ i ∈ system_departure_indices s, 1 ≤ i ∧ i ≤ Q_LIMIT) :=
  ⟨arrival_indices_bounds s 0 h0.1 _, departure_indices_bounds s 0 h0.2,
    arrival_indices_bounds s 1 h1.1 _, departure_indices_bounds s 1 h1.2⟩

theorem counters_in_range_tandem (V : Variates) (s0 s : State) (hr : Reachable V s0 s) :
    (0 ≤ s.num_in_q 0 ∧ s.num_in_q 0 ≤ Q_LIMIT) ∧ (0 ≤ s.num_in_q 1 ∧ s.num_in_q 1 ≤ Q_LIMIT) := by
  have ht : (0 : Int) ≤ Q_LIMIT := by unfold Q_LIMIT; decide
  refine Reachable_invariant_tandem V s0
    (fun s => (0 ≤ s.num_in_q 0 ∧ s.num_in_q 0 ≤ Q_LIMIT) ∧
      (0 ≤ s.num_in_q 1 ∧ s.num_in_q 1 ≤ Q_LIMIT)) ?_ ?_ ?_ s hr
  · simp [initialize_sim_eq_tandem, ht]
  · intro a b hab hs
    obtain ⟨c0, c1⟩ := step_counters_tandem V a b hs
    refine ⟨?_, ?_⟩
    · rcases c0 with ⟨hb, _, _, hl⟩ | ⟨hb, _, hn⟩ | hb <;> omega
    · rcases c1 with ⟨hb, _, _, hl⟩ | ⟨hb, _, hn⟩ | hb <;> omega
  · intro a _
    simp [initialize_sim_eq_tandem, ht]

theorem beforeHandler_some_tandem (s su : State) (h : beforeHandler s = some su) :
    su.num_in_q = s.num_in_q ∧ su.server_status = s.server_status := by
  cases ht : timing s with
  | error e =>
    simp only [beforeHandler, ht] at h
    cases h
  | ok st =>
    obtain ⟨k, _, _, _, _, _, hst⟩ := timing_ok_tandem s st ht
    simp only [beforeHandler, ht, hst, Option.some.injEq] at h
    obtain ⟨c1, c2, _⟩ := entry_counters_tandem s su k h.symm
    exact ⟨c1, c2⟩

/-- A fault of one pass is the empty event list found by `timing` or a fault of the handler
that the `switch` calls on the state left by `update_time_avg_stats`. -/
theorem step_fault_tandem (V : Variates) (s : State) (e : Fault)
    (h : step V s = Except.error e) :
    e = Fault.eventListEmpty ∨
    ∃ su, beforeHandler s = some su ∧
      ((su.next_event_type = 1 ∧ system_arrival V su = Except.error e) ∨
       (su.next_event_type = 2 ∧ system_departure V su = Except.error e) ∨
       (su.next_event_type = 3 ∧ queue1_departure V su = Except.error e) ∨
       (su.next_event_type = 4 ∧ queue2_arrival V su = Except.error e)) := by
  cases ht : timing s with
  | error e1 =>
    simp only [step, ht] at h
    have he : e1 = e := Except.error.inj h
    subst he
    left
    unfold timing at ht
    dsimp only at ht
    split_ifs at ht
    exact (Except.error.inj ht).symm
  | ok st =>
    right
    simp only [step, ht] at h
    refine ⟨update_time_avg_stats st, by simp only [beforeHandler, ht], ?_⟩
    unfold dispatch at h
    split_ifs at h with h1 h2 h3 h4
    · exact Or.inl ⟨h1, h⟩
    · exact Or.inr (Or.inl ⟨h2, h⟩)
    · exact Or.inr (Or.inr (Or.inl ⟨h3, h⟩))
    · exact Or.inr (Or.inr (Or.inr ⟨h4, h⟩))

end Tandem

/-- C23: in `tandem_system.c`, in every reachable state every index used on `time_arrival`
and `second_time_arrival` (declared with `Q_LIMIT + 1` elements) lies in `1 .. Q_LIMIT`: the
store at index `num_in_q` after an increment that did not overflow, the read of element 1 on
dequeue, and every access of the shift loops. This holds of the indices of the handler that
the next pass calls and, on the state in which that handler is entered, of the indices of all
four handlers; the out-of-range branch of an array access is never taken, neither by a
handler entered there nor by the pass as a whole. -/
theorem tandem_indices_within_bounds (V : Variates) :
    ∀ s0 s : Tandem.State, Tandem.Reachable V s0 s →
      (∀ i ∈ Tandem.indicesUsed s, 1 ≤ i ∧ i ≤ Tandem.Q_LIMIT) ∧
      (∀ su, Tandem.beforeHandler s = some su →
        ((∀ i ∈ Tandem.system_arrival_indices su, 1 ≤ i ∧ i ≤ Tandem.Q_LIMIT) ∧
          (∀ i ∈ Tandem.queue1_departure_indices su, 1 ≤ i ∧ i ≤ Tandem.Q_LIMIT) ∧
          (∀ i ∈ Tandem.queue2_arrival_indices su, 1 ≤ i ∧ i ≤ Tandem.Q_LIMIT) ∧
          (∀ i ∈ Tandem.system_departure_indices su, 1 ≤ i ∧ i ≤ Tandem.Q_LIMIT)) ∧
        (Tandem.system_arrival V su ≠ Except.error Fault.outOfRange ∧
          Tandem.queue1_departure V su ≠ Except.error Fault.outOfRange ∧
          Tandem.queue2_arrival V su ≠ Except.error Fault.outOfRange ∧
          Tandem.system_departure V su ≠ Except.error Fault.outOfRange)) ∧
      Tandem.step V s ≠ Except.error Fault.outOfRange := by
  intro s0 s hr
  obtain ⟨r0, r1⟩ := Tandem.counters_in_range_tandem V s0 s hr
  have hsafe : ∀ i : Int, 1 ≤ i ∧ i ≤ Tandem.Q_LIMIT → (0 ≤ i ∧ i < Tandem.Q_LIMIT + 1) :=
    fun i hi => ⟨by omega, by omega⟩
  have hsu : ∀ su, Tandem.beforeHandler s = some su →
      ((∀ i ∈ Tandem.system_arrival_indices su, 1 ≤ i ∧ i ≤ Tandem.Q_LIMIT) ∧
        (∀ i ∈ Tandem.queue1_departure_indices su, 1 ≤ i ∧ i ≤ Tandem.Q_LIMIT) ∧
        (∀ i ∈ Tandem.queue2_arrival_indices su, 1 ≤ i ∧ i ≤ Tandem.Q_LIMIT) ∧
        (∀ i ∈ Tandem.system_departure_indices su, 1 ≤ i ∧ i ≤ Tandem.Q_LIMIT)) ∧
      (Tandem.system_arrival V su ≠ Except.error Fault.outOfRange ∧
        Tandem.queue1_departure V su ≠ Except.error Fault.outOfRange ∧
        Tandem.queue2_arrival V su ≠ Except.error Fault.outOfRange ∧
        Tandem.system_departure V su ≠ Except.error Fault.outOfRange) := by
    intro su hb
    obtain ⟨c1, _⟩ := Tandem.beforeHandler_some_tandem s su hb
    have hb4 := Tandem.handler_indices_bounds su (by rw [c1]; exact r0) (by rw [c1]; exact r1)
    obtain ⟨b1, b2, b3, b4⟩ := hb4
    refine ⟨⟨b1, b2, b3, b4⟩, ?_, ?_, ?_, ?_⟩
    · intro hf
      obtain ⟨i, hi, hn⟩ := Tandem.system_arrival_fault V su hf
      exact hn (hsafe i (b1 i hi))
    · intro hf
      obtain ⟨_, i, hi, hn⟩ := Tandem.queue1_departure_fault_tandem V su _ hf
      exact hn (hsafe i (b2 i hi))
    · intro hf
      obtain ⟨i, hi, hn⟩ := Tandem.queue2_arrival_fault_tandem V su hf
      exact hn (hsafe i (b3 i hi))
    · intro hf
      obtain ⟨_, i, hi, hn⟩ := Tandem.system_departure_fault V su _ hf
      exact hn (hsafe i (b4 i hi))
  refine ⟨?_, hsu, ?_⟩
  · intro i hi
    unfold Tandem.indicesUsed at hi
    cases hb : Tandem.beforeHandler s with
    | none =>
      rw [hb] at hi
      cases hi
    | some su =>
      rw [hb] at hi
      obtain ⟨⟨b1, b2, b3, b4⟩, _⟩ := hsu su hb
      simp only at hi
      split_ifs at hi
      · exact b1 i hi
      · exact b4 i hi
      · exact b2 i hi
      · exact b3 i hi
      · cases hi
  · intro hf
    rcases Tandem.step_fault_tandem V s _ hf with he | ⟨su, hb, hc⟩
    · cases he
    · obtain ⟨_, n1, n2, n3, n4⟩ := hsu su hb
      rcases hc with ⟨_, h1⟩ | ⟨_, h1⟩ | ⟨_, h1⟩ | ⟨_, h1⟩
      · exact n1 h1
      · exact n4 h1
      · exact n2 h1
      · exact n3 h1

theorem tanD_after3_reachable :
    Tandem.Reachable Demo.variatesD (Tandem.start 1 1 1 1000) Demo.tanD_after3 :=
  Tandem.Reachable.top
    (Tandem.AtTop.next
      (Tandem.AtTop.next
        (Tandem.AtTop.next Tandem.AtTop.first
          (ok_getD (Tandem.step Demo.variatesD Demo.tanD) Demo.tanD (by decide!))
          (by decide!))
        (ok_getD (Tandem.step Demo.variatesD Demo.tanD_after1) Demo.tanD (by decide!))
        (by decide!))
      (ok_getD (Tandem.step Demo.variatesD Demo.tanD_after2) Demo.tanD (by decide!))
      (by decide!))

/-- Evaluation of C23 on run D after three passes: two customers wait at stage 1, the next
pass is the stage-1 completion, which reads element 1 and shifts element 2 into element 1;
the three indices lie in `1 .. Q_LIMIT` and the pass does not fault. -/
theorem tandem_indices_within_bounds_witness :
    Demo.tanD_after3.num_in_q 0 = 2 ∧ Tandem.indicesUsed Demo.tanD_after3 = [1, 2, 1] ∧
    (∀ i ∈ Tandem.indicesUsed Demo.tanD_after3, 1 ≤ i ∧ i ≤ Tandem.Q_LIMIT) ∧
    Tandem.step Demo.variatesD Demo.tanD_after3 ≠ Except.error Fault.outOfRange :=
  have h := tandem_indices_within_bounds Demo.variatesD (Tandem.start 1 1 1 1000)
    Demo.tanD_after3 tanD_after3_reachable
  ⟨by decide!, by decide!, h.1, h.2.2⟩

/-! ## The linked lists of `dynamic.c` -/

theorem ListCovers_ne_nil (n : Int) (l : List ℚ) (h : ListCovers n l) : l ≠ [] := by
  intro hl
  subst hl
  obtain ⟨h0, h1⟩ := h
  simp only [List.length_nil] at h1
  omega

theorem ListCovers_two (n : Int) (l : List ℚ) (h : ListCovers n l) (hn : n ≠ 0) :
    2 ≤ l.length := by
  obtain ⟨h0, h1⟩ := h
  omega

theorem ListCovers_append (n : Int) (l : List ℚ) (x : ℚ) (h : ListCovers n l) :
    ListCovers (n + 1) (l ++ [x]) := by
  obtain ⟨h0, h1⟩ := h
  unfold ListCovers
  rw [List.length_append, List.length_singleton]
  push_cast
  omega

theorem ListCovers_pop (n : Int) (l : List ℚ) (x : ℚ) (h : ListCovers n (x :: l))
    (hn : n ≠ 0) : ListCovers (n - 1) l := by
  obtain ⟨h0, h1⟩ := h
  unfold ListCovers
  rw [List.length_cons] at h1
  push_cast at h1
  omega

theorem ListCovers_zero (n : Int) (l : List ℚ) (h : ListCovers n l) : ListCovers 0 l := by
  obtain ⟨h0, h1⟩ := h
  unfold ListCovers
  omega

namespace Dynamic

theorem handler_lists (V : Variates) (k : Nat) (su s1 : State)
    (hc : (k = 1 ∧ queue1_arrival V su = Except.ok s1) ∨
       (k = 2 ∧ queue1_departure V su = Except.ok s1) ∨
       (k = 3 ∧ queue2_arrival V su = Except.ok s1) ∨
       (k = 4 ∧ queue2_departure V su = Except.ok s1) ∨
       (k = 5 ∧ s1 = su))
    (h1 : ListCovers (su.num_in_q 0) su.head1) (h2 : ListCovers (su.num_in_q 1) su.head2) :
    ListCovers (s1.num_in_q 0) s1.head1 ∧ ListCovers (s1.num_in_q 1) s1.head2 := by
  rcases hc with ⟨_, h⟩ | ⟨_, h⟩ | ⟨_, h⟩ | ⟨_, h⟩ | ⟨_, h⟩
  · rcases queue1_arrival_cases V _ _ h with ⟨_, _, _, rfl⟩ | ⟨_, rfl⟩
    · simp only [Function.update_apply]
      simp
      exact ⟨ListCovers_append _ _ _ h1, h2⟩
    · exact ⟨h1, h2⟩
  · rcases queue1_departure_cases V _ _ h with ⟨_, rfl⟩ | ⟨hz, x, l, hh, rfl⟩
    · exact ⟨h1, h2⟩
    · rw [hh] at h1
      simp only [Function.update_apply]
      simp
      exact ⟨ListCovers_pop _ _ x h1 hz, h2⟩
  · rcases queue2_arrival_cases V _ _ h with ⟨_, _, _, rfl⟩ | ⟨_, rfl⟩
    · simp only [Function.update_apply]
      simp
      exact ⟨h1, ListCovers_append _ _ _ h2⟩
    · exact ⟨h1, h2⟩
  · rcases queue2_departure_cases V _ _ h with ⟨_, rfl⟩ | ⟨hz, x, l, hh, rfl⟩
    · exact ⟨h1, h2⟩
    · rw [hh] at h2
      simp only [Function.update_apply]
      simp
      exact ⟨h1, ListCovers_pop _ _ x h2 hz⟩
  · subst h
    exact ⟨h1, h2⟩

theorem step_lists (V : Variates) (s s1 : State) (h : step V s = Except.ok s1)
    (h1 : ListCovers (s.num_in_q 0) s.head1) (h2 : ListCovers (s.num_in_q 1) s.head2) :
    ListCovers (s1.num_in_q 0) s1.head1 ∧ ListCovers (s1.num_in_q 1) s1.head2 := by
  obtain ⟨k, su, hsu, hc⟩ := step_entry V s s1 h
  obtain ⟨c1, _, _, _, c5, c6⟩ := entry_counters s su k hsu
  refine handler_lists V k su s1 hc ?_ ?_
  · rw [c1, c5]
    exact h1
  · rw [c1, c6]
    exact h2

theorem initialize_lists (V : Variates) (s : State)
    (h1 : ListCovers (s.num_in_q 0) s.head1) (h2 : ListCovers (s.num_in_q 1) s.head2) :
    ListCovers ((initialize_sim V s).num_in_q 0) (initialize_sim V s).head1 ∧
      ListCovers ((initialize_sim V s).num_in_q 1) (initialize_sim V s).head2 := by
  rw [initialize_sim_eq]
  simp only [Function.update_apply]
  simp
  exact ⟨ListCovers_zero _ _ h1, ListCovers_zero _ _ h2⟩

theorem start_lists (a b c d : ℚ) :
    ListCovers ((start a b c d).num_in_q 0) (start a b c d).head1 ∧
      ListCovers ((start a b c d).num_in_q 1) (start a b c d).head2 := by
  unfold ListCovers
  simp [start, Linked.initial]

theorem beforeHandler_some (s su : State) (h : beforeHandler s = some su) :
    su.num_in_q = s.num_in_q ∧ su.head1 = s.head1 ∧ su.head2 = s.head2 := by
  cases ht : timing s with
  | error e =>
    simp only [beforeHandler, ht] at h
    cases h
  | ok st =>
    obtain ⟨k, _, _, _, _, _, hst⟩ := timing_ok s st ht
    simp only [beforeHandler, ht, hst, Option.some.injEq] at h
    obtain ⟨c1, _, _, _, c5, c6⟩ := entry_counters s su k h.symm
    exact ⟨c1, c5, c6⟩

/-- A fault of one pass is the empty event list found by `timing` or a fault of the handler
that the `switch` calls on the state left by `update_time_avg_stats`. -/
theorem step_fault (V : Variates) (s : State) (e : Fault)
    (h : step V s = Except.error e) :
    e = Fault.eventListEmpty ∨
    ∃ su, beforeHandler s = some su ∧
      ((su.next_event_type = 1 ∧ queue1_arrival V su = Except.error e) ∨
       (su.next_event_type = 2 ∧ queue1_departure V su = Except.error e) ∨
       (su.next_event_type = 3 ∧ queue2_arrival V su = Except.error e) ∨
       (su.next_event_type = 4 ∧ queue2_departure V su = Except.error e)) := by
  cases ht : timing s with
  | error e1 =>
    simp only [step, ht] at h
    have he : e1 = e := Except.error.inj h
    subst he
    left
    unfold timing at ht
    dsimp only at ht
    split_ifs at ht
    exact (Except.error.inj ht).symm
  | ok st =>
    right
    simp only [step, ht] at h
    refine ⟨update_time_avg_stats st, by simp only [beforeHandler, ht], ?_⟩
    unfold dispatch at h
    split_ifs at h with h1 h2 h3 h4
    · exact Or.inl ⟨h1, h⟩
    · exact Or.inr (Or.inl ⟨h2, h⟩)
    · exact Or.inr (Or.inr (Or.inl ⟨h3, h⟩))
    · exact Or.inr (Or.inr (Or.inr ⟨h4, h⟩))

/-- A null dereference in `queue1_arrival` is an `enqueue` on an empty list. -/
theorem queue1_arrival_fault (V : Variates) (s : State)
    (h : queue1_arrival V s = Except.error Fault.nullDeref) : s.head1 = [] := by
  by_contra hh
  by_cases hb : s.server_status 0 = BUSY
  · by_cases ho : Q_LIMIT < s.num_in_q 0 + 1
    · rw [queue1_arrival_overflow V s hb ho] at h
      cases h
    · rw [queue1_arrival_busy V s hb (by omega) hh] at h
      cases h
  · rw [queue1_arrival_idle V s hb] at h
    cases h

theorem queue2_arrival_fault (V : Variates) (s : State)
    (h : queue2_arrival V s = Except.error Fault.nullDeref) : s.head2 = [] := by
  by_contra hh
  by_cases hb : s.server_status 1 = BUSY
  · by_cases ho : Q_LIMIT < s.num_in_q 1 + 1
    · rw [queue2_arrival_overflow V s hb ho] at h
      cases h
    · rw [queue2_arrival_append V s hb (by omega) hh] at h
      cases h
  · rw [queue2_arrival_idle V s hb] at h
    cases h

/-- A fault of `queue1_departure` is a `dequeue` on an empty list. -/
theorem queue1_departure_fault (V : Variates) (s : State) (e : Fault)
    (h : queue1_departure V s = Except.error e) : s.head1 = [] := by
  by_cases h0 : s.num_in_q 0 = 0
  · rw [queue1_departure_empty V s h0] at h
    cases h
  · cases hh : s.head1 with
    | nil => rfl
    | cons x l =>
      rw [queue1_departure_pop V s h0 x l hh] at h
      cases h

theorem queue2_departure_fault (V : Variates) (s : State) (e : Fault)
    (h : queue2_departure V s = Except.error e) : s.head2 = [] := by
  by_cases h0 : s.num_in_q 1 = 0
  · rw [queue2_departure_empty V s h0] at h
    cases h
  · cases hh : s.head2 with
    | nil => rfl
    | cons x l =>
      rw [queue2_departure_pop V s h0 x l hh] at h
      cases h

end Dynamic

/-- C24: in `dynamic.c`, with each waiting line read as the list of nodes reachable from its
head pointer, every state reachable through the replication loop of `main` (the calls of
`initialize` included) has a list of stage `i` with at least `num_in_q[i] + 1` nodes. Hence
the head pointers are never empty (`NULL`); in the state in which a handler is entered a
non-zero counter, the condition of the branch that dequeues, comes with a list of at least
two nodes; no handler entered there faults on an empty list, and neither does the pass. -/
theorem dynamic_lists_keep_head_node (V : Variates) (a b c d : ℚ) :
    ∀ s : Dynamic.State, Dynamic.Reachable V (Dynamic.start a b c d) s →
      (s.num_in_q 0 + 1 ≤ (s.head1.length : Int) ∧
        s.num_in_q 1 + 1 ≤ (s.head2.length : Int)) ∧
      (s.head1 ≠ [] ∧ s.head2 ≠ []) ∧
      (∀ su, Dynamic.beforeHandler s = some su →
        ((su.num_in_q 0 ≠ 0 → 2 ≤ su.head1.length) ∧
          (su.num_in_q 1 ≠ 0 → 2 ≤ su.head2.length)) ∧
        (su.head1 ≠ [] ∧ su.head2 ≠ []) ∧
        (Dynamic.queue1_arrival V su ≠ Except.error Fault.nullDeref ∧
          Dynamic.queue1_departure V su ≠ Except.error Fault.nullDeref ∧
          Dynamic.queue2_arrival V su ≠ Except.error Fault.nullDeref ∧
          Dynamic.queue2_departure V su ≠ Except.error Fault.nullDeref)) ∧
      Dynamic.step V s ≠ Except.error Fault.nullDeref ∧
      (∀ s1, Dynamic.step V s = Except.ok s1 → s1.head1 ≠ [] ∧ s1.head2 ≠ []) := by
  intro s hr
  have hinv : ListCovers (s.num_in_q 0) s.head1 ∧ ListCovers (s.num_in_q 1) s.head2 :=
    Dynamic.Reachable_invariant V (Dynamic.start a b c d)
      (fun s => ListCovers (s.num_in_q 0) s.head1 ∧ ListCovers (s.num_in_q 1) s.head2)
      (Dynamic.initialize_lists V _ (Dynamic.start_lists a b c d).1
        (Dynamic.start_lists a b c d).2)
      (fun x y hxy hs => Dynamic.step_lists V x y hs hxy.1 hxy.2)
      (fun x hx => Dynamic.initialize_lists V x hx.1 hx.2) s hr
  obtain ⟨h1, h2⟩ := hinv
  have n1 := ListCovers_ne_nil _ _ h1
  have n2 := ListCovers_ne_nil _ _ h2
  have hsu : ∀ su, Dynamic.beforeHandler s = some su →
      ((su.num_in_q 0 ≠ 0 → 2 ≤ su.head1.length) ∧
        (su.num_in_q 1 ≠ 0 → 2 ≤ su.head2.length)) ∧
      (su.head1 ≠ [] ∧ su.head2 ≠ []) ∧
      (Dynamic.queue1_arrival V su ≠ Except.error Fault.nullDeref ∧
        Dynamic.queue1_departure V su ≠ Except.error Fault.nullDeref ∧
        Dynamic.queue2_arrival V su ≠ Except.error Fault.nullDeref ∧
        Dynamic.queue2_departure V su ≠ Except.error Fault.nullDeref) := by
    intro su hb
    obtain ⟨c1, c5, c6⟩ := Dynamic.beforeHandler_some s su hb
    rw [← c1, ← c5] at h1
    rw [← c1, ← c6] at h2
    have m1 := ListCovers_ne_nil _ _ h1
    have m2 := ListCovers_ne_nil _ _ h2
    exact ⟨⟨ListCovers_two _ _ h1, ListCovers_two _ _ h2⟩, ⟨m1, m2⟩,
      fun hf => m1 (Dynamic.queue1_arrival_fault V su hf),
      fun hf => m1 (Dynamic.queue1_departure_fault V su _ hf),
      fun hf => m2 (Dynamic.queue2_arrival_fault V su hf),
      fun hf => m2 (Dynamic.queue2_departure_fault V su _ hf)⟩
  refine ⟨⟨h1.2, h2.2⟩, ⟨n1, n2⟩, hsu, ?_, ?_⟩
  · intro hf
    rcases Dynamic.step_fault V s _ hf with he | ⟨su, hb, hc⟩
    · cases he
    · obtain ⟨_, _, f1, f2, f3, f4⟩ := hsu su hb
      rcases hc with ⟨_, h⟩ | ⟨_, h⟩ | ⟨_, h⟩ | ⟨_, h⟩
      · exact f1 h
      · exact f2 h
      · exact f3 h
      · exact f4 h
  · intro s1 hs
    obtain ⟨g1, g2⟩ := Dynamic.step_lists V s s1 hs h1 h2
    exact ⟨ListCovers_ne_nil _ _ g1, ListCovers_ne_nil _ _ g2⟩

/-- Witness of C24 on run A after two passes: one customer waits at stage 1, whose list holds
the two nodes 0 and 2; the next pass is the stage-1 completion, which dequeues from this list
and does not fault. -/
theorem dynamic_lists_keep_head_node_witness :
    (Demo.dynA_after2.num_in_q 0 = 1 ∧ Demo.dynA_after2.head1 = [0, 2]) ∧
    (Demo.dynA_after2.num_in_q 0 + 1 ≤ (Demo.dynA_after2.head1.length : Int) ∧
      Demo.dynA_after2.num_in_q 1 + 1 ≤ (Demo.dynA_after2.head2.length : Int)) ∧
    Dynamic.step Demo.variatesA Demo.dynA_after2 ≠ Except.error Fault.nullDeref :=
  have h := dynamic_lists_keep_head_node Demo.variatesA 1 1 1 1000 Demo.dynA_after2
    dynA_after2_reachable
  ⟨⟨by decide!, by decide!⟩, h.1, h.2.2.2.1⟩
